import Mathlib

/-!
# glTF 2.0 loader (gardell/vulkan-cpp-library, `gltf/`): a shallow embedding

The development follows the C++ sources:

* `gltf/include/gltf/format.h`   : `parse_format` (GLB container / JSON text)
* `gltf/src/types.cpp`           : `uri_type::uri_type`, `uri_mime_type`
* `gltf/include/gltf/optional.h` : `optional_ref`, `optional_cast`, `map`
* `gltf/src/conversions.cpp`     : the `*_from_json` enum conversions
* `gltf/src/parser.cpp`          : `index_to_iterator`, `parse`, `open`

Conventions.

* A C++ exception is a value of `Err`; a function that may throw returns
  `Except Err _`.
* `std::string` holding text is a `String`; `std::string` holding raw bytes
  (stream contents, the binary chunk, decoded base64 data) is a `List UInt8`.
* `iterator_type<T>` (a `std::vector<T>::const_iterator`) is the position of
  the element in its vector, a `Nat`.
* Machine integers are `Nat`/`Int` with explicit wrap-around.
* `nlohmann::json` is the inductive type `Json`; the few library operations
  the loader uses are modelled in the `Json` namespace, each with a comment
  stating the library behaviour it stands for.
-/

set_option linter.dupNamespace false

namespace gltf

/-! ## Exceptions -/

/-- The exceptions the loader and the JSON library throw. -/
inductive Err where
  /-- The exception `std::runtime_error(what)`. -/
  | runtime_error (what : String)
  /-- The exception `std::invalid_argument(what)`, thrown by value. -/
  | invalid_argument (what : String)
  /-- The statement `throw new std::invalid_argument(what)`: the thrown object is a pointer. -/
  | invalid_argument_ptr (what : String)
  /-- The exception `std::out_of_range(what)`. -/
  | out_of_range (what : String)
  /-- The JSON library's `type_error` with its numeric id (302, 305, 306). -/
  | type_error (id : Nat)
  /-- The JSON library's `invalid_iterator` with its numeric id (207, 208, 214). -/
  | invalid_iterator (id : Nat)
  /-- The JSON library's error for text that is not well-formed JSON. -/
  | parse_error
  /-- A failed `assert` inside the JSON library (const `operator[]` on a missing key). -/
  | assertion (what : String)
  /-- The exception `std::ios_base::failure` of a stream with `exceptions(badbit | failbit)`. -/
  | ios_failure
deriving DecidableEq, Repr

/-- Whether a failure is a C++ exception, which reaches the caller and can be
caught. A failed `assert` is not: it ends the program (and with assertions
compiled out the behaviour is undefined). -/
def Err.is_exception : Err → Bool
  | Err.assertion _ => false
  | _ => true

/-! ## JSON values -/

/-- A finite `double`, kept exactly as `m * 2 ^ e`. -/
structure Dbl where
  m : Int
  e : Int
deriving DecidableEq, Repr

/-- Truncation toward zero, the value of `static_cast<integer>(double)`. -/
def Dbl.trunc (d : Dbl) : Int :=
  if 0 ≤ d.e then d.m * 2 ^ d.e.toNat else Int.tdiv d.m (2 ^ (-d.e).toNat)

/-- The value model of `nlohmann::json`. An object is the list of its members
in iteration order (the order of the underlying `std::map`). -/
inductive Json where
  | null
  | boolean (b : Bool)
  | number_integer (i : Int)
  | number_unsigned (n : Nat)
  | number_float (d : Dbl)
  | string (s : String)
  | array (xs : List Json)
  | object (members : List (String × Json))

instance : Inhabited Json := ⟨Json.null⟩

/-- Wrap-around to an unsigned `w`-bit integer. -/
def wrapU (w : Nat) (i : Int) : Nat := (i % (2 ^ w : Int)).toNat

/-- Wrap-around to a signed `w`-bit integer. -/
def wrapS (w : Nat) (i : Int) : Int :=
  if i % (2 ^ w : Int) < 2 ^ (w - 1) then i % (2 ^ w : Int) else i % (2 ^ w : Int) - 2 ^ w

/-! ## `format.h` -/

/-- The struct `format_type`: the JSON document and the optional binary chunk. -/
structure format_type where
  json : Json
  binary : Option (List UInt8)

/-- The two entry points of the JSON library that read JSON text:
`json::parse(std::string)` and `stream >> j`. -/
structure json_reader where
  parse : List UInt8 → Except Err Json
  extract : List UInt8 → Except Err Json

/-- The state of a `std::istream` over a byte sequence: the bytes not yet
consumed and the `eofbit` / `failbit` flags. -/
structure istream where
  rest : List UInt8
  eofbit : Bool
  failbit : Bool

/-- The test `stream.good()`. -/
def istream.good (s : istream) : Bool := !s.eofbit && !s.failbit

/-- The call `stream.peek()`: the next byte without consuming it; at the end of
the data it returns `EOF` (here `none`) and sets `eofbit`. -/
def istream.peek (s : istream) : Option UInt8 × istream :=
  if s.good then
    match s.rest with
    | [] => (none, { s with eofbit := true })
    | c :: _ => (some c, s)
  else (none, { s with failbit := true })

/-- The call `stream.read(buf, n)` into a buffer whose previous contents are
`buf`: copies up to `n` bytes; when fewer than `n` are available the bytes
not overwritten keep their previous contents and `eofbit | failbit` are set.
On a stream that is not `good()` nothing is read and `failbit` is set. -/
def istream.read (s : istream) (buf : List UInt8) (n : Nat) : istream × List UInt8 :=
  if s.good then
    let got := s.rest.take n
    if got.length = n then
      ({ s with rest := s.rest.drop n }, got ++ buf.drop n)
    else
      ({ rest := s.rest.drop n, eofbit := true, failbit := true }, got ++ buf.drop got.length)
  else ({ s with failbit := true }, buf)

/-- The element `header[i]` of a `uint32_t` array whose bytes are `buf`
(little-endian host, as the GLB format prescribes). -/
def word (buf : List UInt8) (i : Nat) : Nat :=
  (buf.getD (4 * i) 0).toNat + 256 * (buf.getD (4 * i + 1) 0).toNat
    + 65536 * (buf.getD (4 * i + 2) 0).toNat + 16777216 * (buf.getD (4 * i + 3) 0).toNat

/-- The function `parse_format`. `uninit k` is the indeterminate initial
value of byte `k` of the local `uint32_t header[..]` arrays, which `read`
only overwrites as far as the stream has bytes. -/
def parse_format (lib : json_reader) (uninit : Nat → UInt8) (data : List UInt8) :
    Except Err format_type :=
  let stream : istream := { rest := data, eofbit := false, failbit := false }
  let (p, stream) := stream.peek
  if p = some 103 then   -- 'g'
    let (stream, header) := stream.read ((List.range 20).map uninit) 20
    if word header 0 ≠ 0x46546C67 then
      throw (Err.runtime_error "Invalid magic")
    else if word header 1 ≠ 2 then
      throw (Err.runtime_error "Invalid version")
    else if word header 4 ≠ 0x4E4F534A then
      throw (Err.runtime_error "Expected json chunk")
    else
      let (stream, json) := stream.read (List.replicate (word header 3) 0) (word header 3)
      let (stream, header2) := stream.read ((List.range 8).map uninit) 8
      do
        let binary ←
          if !stream.failbit then
            if word header2 1 ≠ 0x004E4942 then
              throw (Err.runtime_error "Expected bin chunk")
            else
              let (_, bin) := stream.read (List.replicate (word header2 0) 0) (word header2 0)
              pure (some bin)
          else pure none
        let j ← lib.parse json
        pure { json := j, binary := binary }
  else do
    let j ← lib.extract stream.rest
    pure { json := j, binary := none }

/-! ## `types.cpp`: URIs -/

namespace uri_type

/-- The enum `uri_type::mime_type_type`. -/
inductive mime_type_type where
  | application_octet_stream
  | image_jpeg
  | image_png
deriving DecidableEq, Repr

/-- The struct `uri_type::data_type`: decoded inline bytes and their MIME type. -/
structure data_type where
  value : List UInt8
  mime_type : mime_type_type
deriving DecidableEq, Repr

/-- The struct `uri_type::external_type`: a path outside the document. -/
structure external_type where
  path : String
deriving DecidableEq, Repr

end uri_type

/-- The struct `uri_type`, that is its member `std::variant<data_type, external_type> value`. -/
inductive uri_type where
  | data (d : uri_type.data_type)
  | external (e : uri_type.external_type)
deriving DecidableEq, Repr

/-- The call `s.find(c, pos)` of `std::string`; `none` stands for `npos`. -/
def string_find (s : List Char) (c : Char) (pos : Nat) : Option Nat :=
  if List.indexOf c (s.drop pos) < (s.drop pos).length then
    some (pos + List.indexOf c (s.drop pos))
  else none

/-- The function `uri_mime_type` of `types.cpp`. -/
def uri_mime_type (mime_type : String) : Except Err uri_type.mime_type_type :=
  if mime_type = "application/octet-stream" then
    pure uri_type.mime_type_type.application_octet_stream
  else if mime_type = "image/jpeg" then
    pure uri_type.mime_type_type.image_jpeg
  else if mime_type = "image/png" then
    pure uri_type.mime_type_type.image_png
  else
    throw (Err.invalid_argument "uri mime type")

/-- The constructor `uri_type::uri_type(std::string &&value)`. `decode` is
`base64::decode` (declared in `base64.h`, `std::string decode(const
std::string_view &)`), whose implementation is outside the sources at hand:
it is a parameter, and since it may throw on text that it does not accept,
its result is an `Except`. The braced initialiser of `data_type` evaluates
`decode` before `uri_mime_type`, so an exception of `decode` comes first. -/
def uri_type.uri_type (decode : String → Except Err (List UInt8)) (value : String) :
    Except Err uri_type :=
  let start := "data:"
  if value.data.take start.length = start.data then
    match string_find value.data ';' start.length with
    | some mime_separator =>
      match string_find value.data ',' mime_separator with
      | some encoding_separator =>
        if (value.data.drop (mime_separator + 1)).take (encoding_separator - (mime_separator + 1))
            = "base64".data then do
          let decoded ← decode (String.mk (value.data.drop (encoding_separator + 1)))
          let mime ← uri_mime_type
            (String.mk ((value.data.drop start.length).take (mime_separator - start.length)))
          pure (uri_type.data { value := decoded, mime_type := mime })
        else pure (uri_type.external { path := value })
      | none => pure (uri_type.external { path := value })
    | none => pure (uri_type.external { path := value })
  else pure (uri_type.external { path := value })

/-! ## The JSON library operations used by the loader -/

namespace Json

/-- The call `j.find(key)`: the member named `key`; `none` (the `end()`
iterator) when there is none or when `j` is not an object. -/
def find (j : Json) (key : String) : Option Json :=
  match j with
  | object members => members.lookup key
  | _ => none

/-- The const `j[key]`: on an object the member, which the library asserts to
exist; on anything else `type_error` 305. -/
def subscript (j : Json) (key : String) : Except Err Json :=
  match j with
  | object members =>
    match members.lookup key with
    | some v => pure v
    | none => throw (Err.assertion "m_value.object->find(key) != m_value.object->end()")
  | _ => throw (Err.type_error 305)

/-- The call `j.value(key, default_value)`: on an object the member converted
to the type of the default (`get` is that conversion) or the default when the
member is absent; on anything else `type_error` 306. -/
def value {α : Type} (j : Json) (key : String) (get : Json → Except Err α) (default_value : α) :
    Except Err α :=
  match j with
  | object members =>
    match members.lookup key with
    | some v => get v
    | none => pure default_value
  | _ => throw (Err.type_error 306)

/-- The comparison `j == "text"` with a string literal. -/
def eq_string (j : Json) (text : String) : Bool :=
  match j with
  | string s => s == text
  | _ => false

/-- The call `j.size()`. -/
def size (j : Json) : Nat :=
  match j with
  | null => 0
  | array xs => xs.length
  | object members => members.length
  | _ => 1

/-- The values visited by iterating from `cbegin(j)` to `cend(j)`: the
elements of an array, the member values of an object, nothing for `null`, and
the value itself for any other value. -/
def elems (j : Json) : List Json :=
  match j with
  | null => []
  | array xs => xs
  | object members => members.map Prod.snd
  | _ => [j]

/-- The iteration of `elems` together with what `it.key()` gives at each
step: the member name on an object, and `none` where the library throws
`invalid_iterator` 207. -/
def items (j : Json) : List (Option String × Json) :=
  match j with
  | null => []
  | array xs => xs.map (fun x => (none, x))
  | object members => members.map (fun kv => (some kv.1, kv.2))
  | _ => [(none, j)]

/-- The expression `std::cbegin(j)[n]`. -/
def begin_subscript (j : Json) (n : Nat) : Except Err Json :=
  match j with
  | object _ => throw (Err.invalid_iterator 208)
  | array xs =>
    match xs[n]? with
    | some x => pure x
    | none => throw (Err.assertion "iterator out of range")
  | null => throw (Err.invalid_iterator 214)
  | _ => if n = 0 then pure j else throw (Err.invalid_iterator 214)

/-- The conversion `get<std::string>()`. -/
def get_string (j : Json) : Except Err String :=
  match j with
  | string s => pure s
  | _ => throw (Err.type_error 302)

/-- The conversion `get<bool>()`. -/
def get_boolean (j : Json) : Except Err Bool :=
  match j with
  | boolean b => pure b
  | _ => throw (Err.type_error 302)

/-- The conversion `get<json>()`: a copy. -/
def get_json (j : Json) : Except Err Json := pure j

/-- The conversion to `std::int64_t` (`difference_type`, `off_t`): any number,
by `static_cast`. Stored integers are in range, where the wrap is the identity. -/
def get_int64 (j : Json) : Except Err Int :=
  match j with
  | number_unsigned n => pure (wrapS 64 n)
  | number_integer i => pure (wrapS 64 i)
  | number_float d => pure (wrapS 64 d.trunc)
  | _ => throw (Err.type_error 302)

/-- The conversion to `std::uint64_t` (`size_t`): any number, by `static_cast`. -/
def get_uint64 (j : Json) : Except Err Nat :=
  match j with
  | number_unsigned n => pure (wrapU 64 n)
  | number_integer i => pure (wrapU 64 i)
  | number_float d => pure (wrapU 64 d.trunc)
  | _ => throw (Err.type_error 302)

/-- The conversion to `int32_t` (`integer_type`): any number or boolean, by `static_cast`. -/
def get_int32 (j : Json) : Except Err Int :=
  match j with
  | number_unsigned n => pure (wrapS 32 n)
  | number_integer i => pure (wrapS 32 i)
  | number_float d => pure (wrapS 32 d.trunc)
  | boolean b => pure (if b then 1 else 0)
  | _ => throw (Err.type_error 302)

/-- The conversion to `uint32_t` (`unsigned_integer_type`): any number or
boolean, by `static_cast`. -/
def get_uint32 (j : Json) : Except Err Nat :=
  match j with
  | number_unsigned n => pure (wrapU 32 n)
  | number_integer i => pure (wrapU 32 i)
  | number_float d => pure (wrapU 32 d.trunc)
  | boolean b => pure (if b then 1 else 0)
  | _ => throw (Err.type_error 302)

/-- The conversion to an unscoped enum (underlying type `unsigned int`): any
number, by `static_cast`, with no check against the enumerators. -/
def get_enum (j : Json) : Except Err Nat :=
  match j with
  | number_unsigned n => pure (wrapU 32 n)
  | number_integer i => pure (wrapU 32 i)
  | number_float d => pure (wrapU 32 d.trunc)
  | _ => throw (Err.type_error 302)

end Json

/-- The typedef `decimal_type` (`float`). A value is kept as the JSON number
(or boolean) it was converted from. -/
inductive decimal_type where
  | of_unsigned (n : Nat)
  | of_integer (i : Int)
  | of_double (d : Dbl)
  | of_boolean (b : Bool)
deriving DecidableEq, Repr

/-- The conversion of a JSON value to `float`: any number or boolean. -/
def Json.get_float (j : Json) : Except Err decimal_type :=
  match j with
  | Json.number_unsigned n => pure (decimal_type.of_unsigned n)
  | Json.number_integer i => pure (decimal_type.of_integer i)
  | Json.number_float d => pure (decimal_type.of_double d)
  | Json.boolean b => pure (decimal_type.of_boolean b)
  | _ => throw (Err.type_error 302)

/-- The body of `std::transform` with a `back_inserter`: `f` applied to each
element from left to right; the first exception ends the traversal. -/
def transform {α β : Type} (f : α → Except Err β) : List α → Except Err (List β)
  | [] => pure []
  | x :: xs => do
    let y ← f x
    let ys ← transform f xs
    pure (y :: ys)

/-- The conversion `get<std::vector<T>>()`: the value must be an array
(`type_error` 302 otherwise) and every element must convert by `get`. -/
def Json.get_vector {α : Type} (get : Json → Except Err α) (j : Json) : Except Err (List α) :=
  match j with
  | Json.array xs => transform get xs
  | _ => throw (Err.type_error 302)

/-! ## `optional.h` -/

/-- The function `optional_ref`. -/
def optional_ref (j : Json) (key : String) : Option Json := j.find key

/-- The function template `optional_cast<T>`; `get` is `get<T>()`. -/
def optional_cast {α : Type} (get : Json → Except Err α) (json : Json) (key : String) :
    Except Err (Option α) :=
  match json.find key with
  | some v => do
    let x ← get v
    pure (some x)
  | none => pure none

/-- The function template `map` on `std::optional`. -/
def map {α β : Type} (optional : Option α) (f : α → Except Err β) : Except Err (Option β) :=
  match optional with
  | some x => do
    let y ← f x
    pure (some y)
  | none => pure none

/-! ## `types.h`: the data model -/

/-- The class `number_type`: `std::variant<integer_type, unsigned_integer_type, decimal_type>`. -/
inductive number_type where
  | integer (i : Int)
  | unsigned_integer (n : Nat)
  | decimal (d : decimal_type)
deriving DecidableEq, Repr

/-- The constructor `number_type::number_type(const json &)`. -/
def number_type.number_type (json : Json) : Except Err number_type :=
  match json with
  | Json.number_float d => pure (number_type.decimal (decimal_type.of_double d))
  | Json.number_unsigned n => pure (number_type.unsigned_integer (wrapU 32 n))
  | Json.number_integer i => pure (number_type.integer (wrapS 32 i))
  | _ => throw (Err.invalid_argument "Not a number")

/-- The member function `number_type::as_integer`. The comparison is
`*value < unsigned_integer_type(std::numeric_limits<integer_type>::max())`. -/
def number_type.as_integer (x : gltf.number_type) : Option Int :=
  match x with
  | number_type.integer value => some value
  | number_type.unsigned_integer value =>
    if value < 2147483647 then some (wrapS 32 value) else none
  | number_type.decimal _ => none

/-- The member function `number_type::as_unsigned_integer`. -/
def number_type.as_unsigned_integer (x : gltf.number_type) : Option Nat :=
  match x with
  | number_type.unsigned_integer value => some value
  | number_type.integer value => if 0 ≤ value then some (wrapU 32 value) else none
  | number_type.decimal _ => none

/-- The member function `number_type::as_decimal`. -/
def number_type.as_decimal (x : gltf.number_type) : Option decimal_type :=
  match x with
  | number_type.decimal value => some value
  | number_type.integer value => some (decimal_type.of_integer value)
  | number_type.unsigned_integer value => some (decimal_type.of_unsigned value)

/-- The struct `asset_type`. -/
structure asset_type where
  copyright : Option String
  generator : Option String
  version : String
  min_version : Option String
  extensions : Json
  extras : Json

/-- The struct `buffer_type`. -/
structure buffer_type where
  uri : Option uri_type
  byte_length : Nat
  name : Option String
  extensions : Json
  extras : Json

/-- The enum `buffer_view_type::target_type`. -/
inductive buffer_view_type.target_type where
  | ARRAY_BUFFER
  | ELEMENT_ARRAY_BUFFER
deriving DecidableEq, Repr

/-- The struct `buffer_view_type`. -/
structure buffer_view_type where
  buffer : Nat
  byte_offset : Int
  byte_length : Nat
  byte_stride : Option Int
  target : Option buffer_view_type.target_type
  name : Option String
  extensions : Json
  extras : Json

/-- The enum `accessor_type::component_type_type`. -/
inductive accessor_type.component_type_type where
  | BYTE
  | UNSIGNED_BYTE
  | SHORT
  | UNSIGNED_SHORT
  | UNSIGNED_INT
  | FLOAT
deriving DecidableEq, Repr

/-- The numeric value of a `component_type_type` enumerator. -/
def accessor_type.component_type_type.val : accessor_type.component_type_type → Int
  | BYTE => 5120
  | UNSIGNED_BYTE => 5121
  | SHORT => 5122
  | UNSIGNED_SHORT => 5123
  | UNSIGNED_INT => 5125
  | FLOAT => 5126

/-- The enum `accessor_type::type_type`. -/
inductive accessor_type.type_type where
  | SCALAR
  | VEC2
  | VEC3
  | VEC4
  | MAT2
  | MAT3
  | MAT4
deriving DecidableEq, Repr

/-- The struct `accessor_type`. -/
structure accessor_type where
  buffer_view : Option Nat
  byte_offset : Int
  component_type : accessor_type.component_type_type
  normalized : Bool
  count : Nat
  type : accessor_type.type_type
  max : Option (List number_type)
  min : Option (List number_type)
  sparse : Json
  name : Option String
  extensions : Json
  extras : Json

/-- The struct `camera_type::orthographic_type`. -/
structure camera_type.orthographic_type where
  xmag : number_type
  ymag : number_type
  zfar : number_type
  znear : number_type
  extensions : Json
  extras : Json

/-- The struct `camera_type::perspective_type`. -/
structure camera_type.perspective_type where
  aspect_ratio : Option number_type
  yfov : number_type
  zfar : Option number_type
  znear : number_type
  extensions : Json
  extras : Json

/-- The member `std::variant<orthographic_type, perspective_type> type` of `camera_type`. -/
inductive camera_type.variant where
  | orthographic (o : camera_type.orthographic_type)
  | perspective (p : camera_type.perspective_type)

/-- The struct `camera_type`. -/
structure camera_type where
  type : camera_type.variant
  name : Option String
  extensions : Json
  extras : Json

/-- The enum `mime_type` of images. -/
inductive mime_type where
  | image_jpeg
  | image_png
deriving DecidableEq, Repr

/-- The member `std::variant<uri_type, iterator_type<buffer_view_type>>` of `image_type`. -/
inductive image_type.variant where
  | uri (u : uri_type)
  | buffer_view (it : Nat)
deriving DecidableEq, Repr

/-- The struct `image_type`. -/
structure image_type where
  uri_buffer_view : image_type.variant
  mime_type : Option mime_type
  name : Option String
  extensions : Json
  extras : Json

/-- The enum `sampler_type::mag_filter_type`. -/
inductive sampler_type.mag_filter_type where
  | MAG_FILTER_NEAREST
  | MAG_FILTER_LINEAR
deriving DecidableEq, Repr

/-- The enum `sampler_type::min_filter_type`. -/
inductive sampler_type.min_filter_type where
  | MIN_FILTER_NEAREST
  | MIN_FILTER_LINEAR
  | MIN_FILTER_NEAREST_MIPMAP_NEAREST
  | MIN_FILTER_LINEAR_MIPMAP_NEAREST
  | MIN_FILTER_NEAREST_MIPMAP_LINEAR
  | MIN_FILTER_LINEAR_MIPMAP_LINEAR
deriving DecidableEq, Repr

/-- The enum `sampler_type::wrap_type`. -/
inductive sampler_type.wrap_type where
  | CLAMP_TO_EDGE
  | MIRRORED_REPEAT
  | REPEAT
deriving DecidableEq, Repr

/-- The numeric value of a `wrap_type` enumerator. -/
def sampler_type.wrap_type.val : sampler_type.wrap_type → Nat
  | CLAMP_TO_EDGE => 33071
  | MIRRORED_REPEAT => 33648
  | REPEAT => 10497

/-- The struct `sampler_type`. -/
structure sampler_type where
  mag_filter : Option sampler_type.mag_filter_type
  min_filter : Option sampler_type.min_filter_type
  wrap_s : sampler_type.wrap_type
  wrap_t : sampler_type.wrap_type
  name : Option String
  extensions : Json
  extras : Json

/-- The struct `texture_type`. -/
structure texture_type where
  sampler : Option Nat
  source : Option Nat
  name : Option String
  extensions : Json
  extras : Json

/-- The struct `texture_info_type`. -/
structure texture_info_type where
  index : Nat
  texcoord : Nat
  extensions : Json
  extras : Json

/-- The struct `normal_texture_info_type`. -/
structure normal_texture_info_type where
  index : Nat
  texcoord : Nat
  scale : Option decimal_type
  extensions : Json
  extras : Json

/-- The struct `occlusion_texture_info_type`. -/
structure occlusion_texture_info_type where
  index : Nat
  texcoord : Nat
  strength : Option decimal_type
  extensions : Json
  extras : Json

/-- The struct `material_type::pbr_metallic_roughness_type`. -/
structure material_type.pbr_metallic_roughness_type where
  base_color_factor : Option (List decimal_type)
  base_color_texture : Option texture_info_type
  metallic_factor : Option decimal_type
  roughness_factor : Option decimal_type
  metallic_roughness_texture : Option texture_info_type
  extensions : Json
  extras : Json

/-- The enum `material_type::alpha_mode_type`. -/
inductive material_type.alpha_mode_type where
  | OPAQUE
  | MASK
  | BLEND
deriving DecidableEq, Repr

/-- The struct `material_type`. -/
structure material_type where
  name : Option String
  extensions : Json
  extras : Json
  pbr_metallic_roughness : material_type.pbr_metallic_roughness_type
  normal_texture : Option normal_texture_info_type
  occlusion_texture : Option occlusion_texture_info_type
  emissive_texture : Option texture_info_type
  emissive_factor : Option (List decimal_type)
  alpha_mode : material_type.alpha_mode_type
  alpha_cutoff : Option decimal_type
  double_sided : Bool

/-- The enum `attribute_type`. -/
inductive attribute_type where
  | POSITION
  | NORMAL
  | TANGENT
  | TEXCOORD_0
  | TEXCOORD_1
  | COLOR_0
  | JOINTS_0
  | WEIGHTS_0
deriving DecidableEq, Repr

/-- The numeric value of an `attribute_type` enumerator (the order of a `std::map` keyed by it). -/
def attribute_type.val : attribute_type → Nat
  | POSITION => 0
  | NORMAL => 1
  | TANGENT => 2
  | TEXCOORD_0 => 3
  | TEXCOORD_1 => 4
  | COLOR_0 => 5
  | JOINTS_0 => 6
  | WEIGHTS_0 => 7

/-- The enum `primitive_type::morph_target_attribute_type`. -/
inductive primitive_type.morph_target_attribute_type where
  | POSITION
  | NORMAL
  | TANGENT
deriving DecidableEq, Repr

/-- The numeric value of a `morph_target_attribute_type` enumerator. -/
def primitive_type.morph_target_attribute_type.val :
    primitive_type.morph_target_attribute_type → Nat
  | POSITION => 0
  | NORMAL => 1
  | TANGENT => 2

/-- The enumerator `primitive_type::TRIANGLES` of `mode_type`. A `mode_type`
value is kept as its underlying integer, which is what the conversion from
JSON stores. -/
def primitive_type.TRIANGLES : Nat := 4

/-- The typedef `map_type<K, V>` (`std::map`): the entries in key order. -/
abbrev map_type (K V : Type) := List (K × V)

/-- The call `m.emplace(std::make_pair(k, v))` on a `std::map` ordered by
`val`: a key already present keeps its old value, a new key is inserted at
its place in the order. -/
def map_type.emplace {K V : Type} (val : K → Nat) : map_type K V → K → V → map_type K V
  | [], k, v => [(k, v)]
  | (k0, v0) :: rest, k, v =>
    if val k < val k0 then (k, v) :: (k0, v0) :: rest
    else if val k = val k0 then (k0, v0) :: rest
    else (k0, v0) :: map_type.emplace val rest k v

/-- The struct `primitive_type`. -/
structure primitive_type where
  attributes : map_type attribute_type Nat
  indices : Option Nat
  material : Option Nat
  mode : Nat
  targets : map_type primitive_type.morph_target_attribute_type Nat
  extensions : Json
  extras : Json

/-- The struct `mesh_type`. -/
structure mesh_type where
  primitives : List primitive_type
  weights : Option (List decimal_type)
  name : Option String
  extensions : Json
  extras : Json

/-- The type `glm::quat`, by the arguments of its constructor `quat(w, x, y, z)`. -/
structure quat where
  w : decimal_type
  x : decimal_type
  y : decimal_type
  z : decimal_type
deriving DecidableEq, Repr

/-- The struct `translation_rotation_scale_type`. -/
structure translation_rotation_scale_type where
  translation : Option (List decimal_type)
  rotation : Option quat
  scale : Option (List decimal_type)
deriving DecidableEq, Repr

/-- The struct `skin_type`. -/
structure skin_type where
  inverse_bind_matrices : Option Nat
  skeleton : Option Nat
  joints : List Nat
  name : Option String
  extensions : Json
  extras : Json

/-- The member `std::variant<glm::mat4, translation_rotation_scale_type>` of `node_type`;
a `glm::mat4` is the list of its sixteen constructor arguments. -/
inductive node_type.variant where
  | matrix (m : List decimal_type)
  | trs (t : translation_rotation_scale_type)
deriving DecidableEq, Repr

/-- The struct `node_type`. -/
structure node_type where
  camera : Option Nat
  children : List Nat
  skin : Option Nat
  transformation : node_type.variant
  mesh : Option Nat
  weights : Option (List decimal_type)
  name : Option String
  extensions : Json
  extras : Json

/-- The enum `animation_sampler_type::interpolation_type`. -/
inductive animation_sampler_type.interpolation_type where
  | LINEAR
  | STEP
  | CATMULLROMSPLINE
  | CUBICSPLINE
deriving DecidableEq, Repr

/-- The struct `animation_sampler_type`. -/
structure animation_sampler_type where
  input : Nat
  interpolation : animation_sampler_type.interpolation_type
  output : Nat
  extensions : Json
  extras : Json

/-- The enum `channel_type::target_type::path_type`. -/
inductive channel_type.target_type.path_type where
  | translation
  | rotation
  | scale
  | weights
deriving DecidableEq, Repr

/-- The struct `channel_type::target_type`. -/
structure channel_type.target_type where
  node : Option Nat
  path : channel_type.target_type.path_type
  extensions : Json
  extras : Json

/-- The struct `channel_type`. -/
structure channel_type where
  sampler : Nat
  target : channel_type.target_type
  extensions : Json
  extras : Json

/-- The struct `animation_type`. -/
structure animation_type where
  channels : List channel_type
  samplers : List animation_sampler_type
  name : Option String
  extensions : Json
  extras : Json

/-- The struct `scene_type`. -/
structure scene_type where
  nodes : Option (List Nat)
  name : Option String
  extensions : Json
  extras : Json

/-- The struct `model_type`. -/
structure model_type where
  extensions_used : List String
  extensions_required : List String
  accessors : List accessor_type
  animations : List animation_type
  asset : asset_type
  buffers : List buffer_type
  buffer_views : List buffer_view_type
  cameras : List camera_type
  images : List image_type
  materials : List material_type
  meshes : List mesh_type
  nodes : List node_type
  samplers : List sampler_type
  scene : Option Nat
  scenes : List scene_type
  skins : List skin_type
  textures : List texture_type
  extensions : Json
  extras : Json

/-! ## `conversions.cpp` -/

/-- The function `component_type_from_json`. -/
def component_type_from_json (component_type : Int) :
    Except Err accessor_type.component_type_type :=
  if component_type = 5120 then pure accessor_type.component_type_type.BYTE
  else if component_type = 5121 then pure accessor_type.component_type_type.UNSIGNED_BYTE
  else if component_type = 5122 then pure accessor_type.component_type_type.SHORT
  else if component_type = 5123 then pure accessor_type.component_type_type.UNSIGNED_SHORT
  else if component_type = 5125 then pure accessor_type.component_type_type.UNSIGNED_INT
  else if component_type = 5126 then pure accessor_type.component_type_type.FLOAT
  else throw (Err.invalid_argument "componentType")

/-- The function `accessor_type_from_json`; its last branch throws a pointer
(`throw new std::invalid_argument("type")`). -/
def accessor_type_from_json (json : Json) : Except Err accessor_type.type_type :=
  if json.eq_string "SCALAR" then pure accessor_type.type_type.SCALAR
  else if json.eq_string "VEC2" then pure accessor_type.type_type.VEC2
  else if json.eq_string "VEC3" then pure accessor_type.type_type.VEC3
  else if json.eq_string "VEC4" then pure accessor_type.type_type.VEC4
  else if json.eq_string "MAT2" then pure accessor_type.type_type.MAT2
  else if json.eq_string "MAT3" then pure accessor_type.type_type.MAT3
  else if json.eq_string "MAT4" then pure accessor_type.type_type.MAT4
  else throw (Err.invalid_argument_ptr "type")

/-- The function `number_container_from_json`. -/
def number_container_from_json (json : Json) : Except Err (List number_type) :=
  match json with
  | Json.array xs => transform number_type.number_type xs
  | _ => throw (Err.invalid_argument "Not an array")

/-- The function `animation_sampler_interpolation_from_json`; its last branch
throws a pointer. -/
def animation_sampler_interpolation_from_json (value : Json) :
    Except Err animation_sampler_type.interpolation_type :=
  if value.eq_string "LINEAR" then pure animation_sampler_type.interpolation_type.LINEAR
  else if value.eq_string "STEP" then pure animation_sampler_type.interpolation_type.LINEAR
  else if value.eq_string "CATMULLROMSPLINE" then
    pure animation_sampler_type.interpolation_type.LINEAR
  else if value.eq_string "CUBICSPLINE" then
    pure animation_sampler_type.interpolation_type.CUBICSPLINE
  else throw (Err.invalid_argument_ptr "interpolation")

/-- The function `channel_target_path_from_json`. -/
def channel_target_path_from_json (value : Json) :
    Except Err channel_type.target_type.path_type :=
  if value.eq_string "translation" then pure channel_type.target_type.path_type.translation
  else if value.eq_string "rotation" then pure channel_type.target_type.path_type.rotation
  else if value.eq_string "scale" then pure channel_type.target_type.path_type.scale
  else if value.eq_string "weights" then pure channel_type.target_type.path_type.weights
  else throw (Err.invalid_argument "channel target path")

/-- The function `buffer_view_target_from_json`. -/
def buffer_view_target_from_json (target : Nat) : Except Err buffer_view_type.target_type :=
  if target = 34962 then pure buffer_view_type.target_type.ARRAY_BUFFER
  else if target = 34963 then pure buffer_view_type.target_type.ELEMENT_ARRAY_BUFFER
  else throw (Err.invalid_argument "bufferView target")

/-- The function `image_mime_type_from_json`. -/
def image_mime_type_from_json (mime_type : Json) : Except Err gltf.mime_type :=
  if mime_type.eq_string "image/jpeg" then pure gltf.mime_type.image_jpeg
  else if mime_type.eq_string "image/png" then pure gltf.mime_type.image_png
  else throw (Err.invalid_argument "image mime_type")

/-- The function `material_alpha_mode_from_json`. -/
def material_alpha_mode_from_json (json : Json) : Except Err material_type.alpha_mode_type :=
  if json.eq_string "OPAQUE" then pure material_type.alpha_mode_type.OPAQUE
  else if json.eq_string "MASK" then pure material_type.alpha_mode_type.MASK
  else if json.eq_string "BLEND" then pure material_type.alpha_mode_type.BLEND
  else throw (Err.invalid_argument "alphaMode")

/-- The function `attribute_from_json`. -/
def attribute_from_json (attribute_json : Json) : Except Err attribute_type :=
  if attribute_json.eq_string "POSITION" then pure attribute_type.POSITION
  else if attribute_json.eq_string "NORMAL" then pure attribute_type.NORMAL
  else if attribute_json.eq_string "TANGENT" then pure attribute_type.TANGENT
  else if attribute_json.eq_string "TEXCOORD_0" then pure attribute_type.TEXCOORD_0
  else if attribute_json.eq_string "TEXCOORD_1" then pure attribute_type.TEXCOORD_1
  else if attribute_json.eq_string "COLOR_0" then pure attribute_type.COLOR_0
  else if attribute_json.eq_string "JOINTS_0" then pure attribute_type.JOINTS_0
  else if attribute_json.eq_string "WEIGHTS_0" then pure attribute_type.WEIGHTS_0
  else throw (Err.invalid_argument "attribute")

/-- The function `morph_target_attribute_from_json`. -/
def morph_target_attribute_from_json (attribute_json : Json) :
    Except Err primitive_type.morph_target_attribute_type :=
  if attribute_json.eq_string "POSITION" then pure primitive_type.morph_target_attribute_type.POSITION
  else if attribute_json.eq_string "NORMAL" then pure primitive_type.morph_target_attribute_type.NORMAL
  else if attribute_json.eq_string "TANGENT" then pure primitive_type.morph_target_attribute_type.TANGENT
  else throw (Err.invalid_argument "morph target attribute")

/-- The function `sampler_mag_filter_from_json`. -/
def sampler_mag_filter_from_json (value : Nat) : Except Err sampler_type.mag_filter_type :=
  if value = 9728 then pure sampler_type.mag_filter_type.MAG_FILTER_NEAREST
  else if value = 9729 then pure sampler_type.mag_filter_type.MAG_FILTER_LINEAR
  else throw (Err.invalid_argument "magFilter")

/-- The function `sampler_min_filter_from_json`. -/
def sampler_min_filter_from_json (value : Nat) : Except Err sampler_type.min_filter_type :=
  if value = 9728 then pure sampler_type.min_filter_type.MIN_FILTER_NEAREST
  else if value = 9729 then pure sampler_type.min_filter_type.MIN_FILTER_LINEAR
  else if value = 9984 then pure sampler_type.min_filter_type.MIN_FILTER_NEAREST_MIPMAP_NEAREST
  else if value = 9985 then pure sampler_type.min_filter_type.MIN_FILTER_LINEAR_MIPMAP_NEAREST
  else if value = 9986 then pure sampler_type.min_filter_type.MIN_FILTER_NEAREST_MIPMAP_LINEAR
  else if value = 9987 then pure sampler_type.min_filter_type.MIN_FILTER_LINEAR_MIPMAP_LINEAR
  else throw (Err.invalid_argument "minFilter")

/-- The function `sampler_wrap_from_json`. -/
def sampler_wrap_from_json (value : Nat) : Except Err sampler_type.wrap_type :=
  if value = 33071 then pure sampler_type.wrap_type.CLAMP_TO_EDGE
  else if value = 33648 then pure sampler_type.wrap_type.MIRRORED_REPEAT
  else if value = 10497 then pure sampler_type.wrap_type.REPEAT
  else throw (Err.invalid_argument "sampler wrap")

/-! ## `parser.cpp`: helpers -/

/-- The function template `json_array_to_glm_type<T, I...>`: the arguments
`value_type(std::cbegin(json)[I])...` handed to the constructor of `T`, in
the order of the index sequence `I`. -/
def json_array_to_glm_type (json : Json) (I : List Nat) : Except Err (List decimal_type) :=
  if json.size < I.length then
    throw (Err.invalid_argument "not enough fields for glm type")
  else
    transform (fun i => do
      let x ← json.begin_subscript i
      x.get_float) I

/-- The function template `json_array_to_vec<I>` (`std::make_index_sequence<I>`). -/
def json_array_to_vec (I : Nat) (j : Json) : Except Err (List decimal_type) :=
  json_array_to_glm_type j (List.range I)

/-- The function template `json_array_to_mat<C, R>` (`std::make_index_sequence<C * R>`). -/
def json_array_to_mat (C R : Nat) (j : Json) : Except Err (List decimal_type) :=
  json_array_to_glm_type j (List.range (C * R))

/-- The function template `json_array_to_quat`: index sequence `3, 0, 1, 2`
handed to `glm::quat(w, x, y, z)`. -/
def json_array_to_quat (j : Json) : Except Err quat := do
  let args ← json_array_to_glm_type j [3, 0, 1, 2]
  match args with
  | [w, x, y, z] => pure { w := w, x := x, y := y, z := z }
  | _ => throw (Err.assertion "glm::quat takes four arguments")

/-- The function template `transform_json_array_to_container`. -/
def transform_json_array_to_container {β : Type} (array : Json) (f : Json → Except Err β) :
    Except Err (List β) :=
  transform f array.elems

/-- The function template `zip_foreach` with one zipped sequence that `f`
updates in place: the loop runs over `its` (the JSON elements) and advances
through `seq` in step. -/
def zip_foreach {α β : Type} (f : α → β → Except Err β) : List α → List β → Except Err (List β)
  | [], seq => pure seq
  | _ :: _, [] => throw (Err.assertion "zip_foreach past the end")
  | x :: its, y :: seq => do
    let y1 ← f x y
    let rest ← zip_foreach f its seq
    pure (y1 :: rest)

/-- The function template `index_to_iterator`: `index` is a `difference_type`
(signed 64 bit), compared after conversion to `size_type`. The iterator
`container.cbegin() + index` is the position `size_type(index)`: where the
check passes `index` is not negative, a vector having fewer than `2 ^ 63`
elements. -/
def index_to_iterator {T : Type} (container : List T) (index : Int) : Except Err Nat :=
  if wrapU 64 index < container.length then
    pure (wrapU 64 index)
  else
    throw (Err.out_of_range "container")

/-- The function `index_to_iterator` applied to a JSON value, which converts
implicitly to `difference_type`. -/
def index_to_iterator_json {T : Type} (container : List T) (index : Json) : Except Err Nat := do
  let i ← index.get_int64
  index_to_iterator container i

/-- The function template `optional_index_to_iterator`. -/
def optional_index_to_iterator {T : Type} (json : Json) (field : String) (container : List T) :
    Except Err (Option Nat) := do
  let index ← optional_cast Json.get_int64 json field
  map index (index_to_iterator container)

/-! ## `parser.cpp`: `parse`

Each lambda of `parse` is a definition named after the lambda's parameter;
the members of a braced initialiser are evaluated in the order written. -/

/-- The value `json::object()`. -/
def Json.empty_object : Json := Json.object []

/-- The lambda over `buffers`: one `buffer_type`. -/
def parse.buffer (decode : String → Except Err (List UInt8)) (buffer : Json) : Except Err buffer_type := do
  let uri ← map (optional_ref buffer "uri") (fun uri => do
    let s ← uri.get_string
    uri_type.uri_type decode s)
  let byte_length ← (← buffer.subscript "byteLength").get_uint64
  let name ← optional_cast Json.get_string buffer "name"
  let extensions ← buffer.value "extensions" Json.get_json Json.empty_object
  let extras ← buffer.value "extras" Json.get_json Json.null
  pure { uri := uri, byte_length := byte_length, name := name,
         extensions := extensions, extras := extras }

/-- The lambda over `bufferViews`: one `buffer_view_type`. -/
def parse.buffer_view (buffers : List buffer_type) (buffer_view : Json) :
    Except Err buffer_view_type := do
  let buffer ← index_to_iterator_json buffers (← buffer_view.subscript "buffer")
  let byte_offset ← optional_cast Json.get_int64 buffer_view "byteOffset"
  let byte_length ← (← buffer_view.subscript "byteLength").get_uint64
  let byte_stride ← optional_cast Json.get_int64 buffer_view "byteStride"
  let target ← map (← optional_cast Json.get_uint32 buffer_view "target")
    buffer_view_target_from_json
  let name ← optional_cast Json.get_string buffer_view "name"
  let extensions ← buffer_view.value "extensions" Json.get_json Json.empty_object
  let extras ← buffer_view.value "extras" Json.get_json Json.null
  pure { buffer := buffer, byte_offset := byte_offset.getD 0, byte_length := byte_length,
         byte_stride := byte_stride, target := target, name := name,
         extensions := extensions, extras := extras }

/-- The lambda over `accessors`: one `accessor_type`. -/
def parse.accessor (buffer_views : List buffer_view_type) (accessor : Json) :
    Except Err accessor_type := do
  let buffer_view ← optional_index_to_iterator accessor "bufferView" buffer_views
  let byte_offset ← accessor.value "byteOffset" Json.get_int32 0
  let component_type ← component_type_from_json
    (← (← accessor.subscript "componentType").get_int32)
  let normalized ← accessor.value "normalized" Json.get_boolean false
  let count ← (← accessor.subscript "count").get_uint64
  let type ← accessor_type_from_json (← accessor.subscript "type")
  let max ← map (← optional_cast Json.get_json accessor "max") number_container_from_json
  let min ← map (← optional_cast Json.get_json accessor "min") number_container_from_json
  let sparse ← accessor.value "sparse" Json.get_json Json.empty_object
  let name ← optional_cast Json.get_string accessor "name"
  let extensions ← accessor.value "extensions" Json.get_json Json.empty_object
  let extras ← accessor.value "extras" Json.get_json Json.null
  pure { buffer_view := buffer_view, byte_offset := byte_offset,
         component_type := component_type, normalized := normalized, count := count,
         type := type, max := max, min := min, sparse := sparse, name := name,
         extensions := extensions, extras := extras }

/-- The lambda over `cameras`: one `camera_type`. -/
def parse.camera (camera : Json) : Except Err camera_type := do
  if (← camera.subscript "type").eq_string "perspective" then
    let perspective ← camera.subscript "perspective"
    let aspect_ratio ← map (optional_ref perspective "aspectRatio") number_type.number_type
    let yfov ← number_type.number_type (← perspective.subscript "yfov")
    let zfar ← map (optional_ref perspective "zfar") number_type.number_type
    let znear ← number_type.number_type (← perspective.subscript "znear")
    let pextensions ← perspective.value "extensions" Json.get_json Json.empty_object
    let pextras ← perspective.value "extras" Json.get_json Json.null
    let name ← optional_cast Json.get_string camera "name"
    let extensions ← camera.value "extensions" Json.get_json Json.empty_object
    let extras ← camera.value "extras" Json.get_json Json.null
    pure { type := camera_type.variant.perspective
             { aspect_ratio := aspect_ratio, yfov := yfov, zfar := zfar, znear := znear,
               extensions := pextensions, extras := pextras },
           name := name, extensions := extensions, extras := extras }
  else if (← camera.subscript "type").eq_string "orthographic" then
    let orthographic ← camera.subscript "orthographic"
    let xmag ← number_type.number_type (← orthographic.subscript "xmag")
    let ymag ← number_type.number_type (← orthographic.subscript "ymag")
    let zfar ← number_type.number_type (← orthographic.subscript "zfar")
    let znear ← number_type.number_type (← orthographic.subscript "znear")
    let oextensions ← orthographic.value "extensions" Json.get_json Json.empty_object
    let oextras ← orthographic.value "extras" Json.get_json Json.null
    let name ← optional_cast Json.get_string camera "name"
    let extensions ← camera.value "extensions" Json.get_json Json.empty_object
    let extras ← camera.value "extras" Json.get_json Json.null
    pure { type := camera_type.variant.orthographic
             { xmag := xmag, ymag := ymag, zfar := zfar, znear := znear,
               extensions := oextensions, extras := oextras },
           name := name, extensions := extensions, extras := extras }
  else
    throw (Err.invalid_argument "camera type")

/-- The lambda over `samplers`: one `sampler_type`. -/
def parse.sampler (sampler : Json) : Except Err sampler_type := do
  let mag_filter ← map (← optional_cast Json.get_uint32 sampler "magFilter")
    sampler_mag_filter_from_json
  let min_filter ← map (← optional_cast Json.get_uint32 sampler "minFilter")
    sampler_min_filter_from_json
  let wrap_s ← map (← optional_cast Json.get_uint32 sampler "wrapS") sampler_wrap_from_json
  let wrap_t ← map (← optional_cast Json.get_uint32 sampler "wrapT") sampler_wrap_from_json
  let name ← optional_cast Json.get_string sampler "name"
  let extensions ← sampler.value "extensions" Json.get_json Json.empty_object
  let extras ← sampler.value "extras" Json.get_json Json.null
  pure { mag_filter := mag_filter, min_filter := min_filter,
         wrap_s := wrap_s.getD sampler_type.wrap_type.REPEAT,
         wrap_t := wrap_t.getD sampler_type.wrap_type.REPEAT,
         name := name, extensions := extensions, extras := extras }

/-- The lambda over `images`: one `image_type`. -/
def parse.image (decode : String → Except Err (List UInt8)) (buffer_views : List buffer_view_type)
    (image : Json) : Except Err image_type := do
  let uri ← map (← optional_cast Json.get_string image "uri") (uri_type.uri_type decode)
  let buffer_view ← optional_index_to_iterator image "bufferView" buffer_views
  let mime ← map (← optional_cast Json.get_string image "mimeType")
    (fun s => image_mime_type_from_json (Json.string s))
  let name ← optional_cast Json.get_string image "name"
  let extensions ← image.value "extensions" Json.get_json Json.empty_object
  let extras ← image.value "extras" Json.get_json Json.null
  match uri with
  | some u =>
    pure { uri_buffer_view := image_type.variant.uri u, mime_type := mime, name := name,
           extensions := extensions, extras := extras }
  | none =>
    match buffer_view with
    | some bv =>
      if mime.isNone then
        throw (Err.invalid_argument "mimeType required")
      else
        pure { uri_buffer_view := image_type.variant.buffer_view bv, mime_type := mime,
               name := name, extensions := extensions, extras := extras }
    | none => throw (Err.invalid_argument "uri or bufferView")

/-- The lambda over `textures`: one `texture_type`. -/
def parse.texture (samplers : List sampler_type) (images : List image_type) (texture : Json) :
    Except Err texture_type := do
  let sampler ← optional_index_to_iterator texture "sampler" samplers
  let source ← optional_index_to_iterator texture "source" images
  let name ← optional_cast Json.get_string texture "name"
  let extensions ← texture.value "extensions" Json.get_json Json.empty_object
  let extras ← texture.value "extras" Json.get_json Json.null
  pure { sampler := sampler, source := source, name := name,
         extensions := extensions, extras := extras }

/-- The lambda building a `texture_info_type` (base colour, metallic-roughness, emissive). -/
def parse.texture_info (textures : List texture_type) (texture : Json) :
    Except Err texture_info_type := do
  let index ← index_to_iterator_json textures (← texture.subscript "index")
  let texcoord ← optional_cast Json.get_uint32 texture "texcoord"
  let extensions ← texture.value "extensions" Json.get_json Json.empty_object
  let extras ← texture.value "extras" Json.get_json Json.null
  pure { index := index, texcoord := texcoord.getD 0, extensions := extensions, extras := extras }

/-- The lambda building a `normal_texture_info_type`. -/
def parse.normal_texture_info (textures : List texture_type) (texture : Json) :
    Except Err normal_texture_info_type := do
  let index ← index_to_iterator_json textures (← texture.subscript "index")
  let texcoord ← optional_cast Json.get_uint32 texture "texcoord"
  let scale ← optional_cast Json.get_float texture "scale"
  let extensions ← texture.value "extensions" Json.get_json Json.empty_object
  let extras ← texture.value "extras" Json.get_json Json.null
  pure { index := index, texcoord := texcoord.getD 0, scale := scale,
         extensions := extensions, extras := extras }

/-- The lambda building an `occlusion_texture_info_type`. -/
def parse.occlusion_texture_info (textures : List texture_type) (texture : Json) :
    Except Err occlusion_texture_info_type := do
  let index ← index_to_iterator_json textures (← texture.subscript "index")
  let texcoord ← optional_cast Json.get_uint32 texture "texcoord"
  let strength ← optional_cast Json.get_float texture "strength"
  let extensions ← texture.value "extensions" Json.get_json Json.empty_object
  let extras ← texture.value "extras" Json.get_json Json.null
  pure { index := index, texcoord := texcoord.getD 0, strength := strength,
         extensions := extensions, extras := extras }

/-- The lambda over `pbrMetallicRoughness`. -/
def parse.pbr_metallic_roughness (textures : List texture_type) (pbr_metallic_roughness : Json) :
    Except Err material_type.pbr_metallic_roughness_type := do
  let base_color_factor ← map (optional_ref pbr_metallic_roughness "baseColorFactor")
    (json_array_to_vec 4)
  let base_color_texture ← map (optional_ref pbr_metallic_roughness "baseColorTexture")
    (parse.texture_info textures)
  let metallic_factor ← optional_cast Json.get_float pbr_metallic_roughness "metallicFactor"
  let roughness_factor ← optional_cast Json.get_float pbr_metallic_roughness "roughnessFactor"
  let metallic_roughness_texture ←
    map (optional_ref pbr_metallic_roughness "metallicRoughnessTexture")
      (parse.texture_info textures)
  let extensions ← pbr_metallic_roughness.value "extensions" Json.get_json Json.empty_object
  let extras ← pbr_metallic_roughness.value "extras" Json.get_json Json.null
  pure { base_color_factor := base_color_factor, base_color_texture := base_color_texture,
         metallic_factor := metallic_factor, roughness_factor := roughness_factor,
         metallic_roughness_texture := metallic_roughness_texture,
         extensions := extensions, extras := extras }

/-- The value `material_type::pbr_metallic_roughness_type{}`: every optional
empty, both JSON members default-constructed (`null`). -/
def material_type.pbr_metallic_roughness_type.default :
    material_type.pbr_metallic_roughness_type :=
  { base_color_factor := none, base_color_texture := none, metallic_factor := none,
    roughness_factor := none, metallic_roughness_texture := none,
    extensions := Json.null, extras := Json.null }

/-- The lambda over `materials`: one `material_type`. -/
def parse.material (textures : List texture_type) (material : Json) :
    Except Err material_type := do
  let pbr_metallic_roughness ← map (optional_ref material "pbrMetallicRoughness")
    (parse.pbr_metallic_roughness textures)
  let name ← optional_cast Json.get_string material "name"
  let extensions ← material.value "extensions" Json.get_json Json.empty_object
  let extras ← material.value "extras" Json.get_json Json.null
  let normal_texture ← map (optional_ref material "normalTexture")
    (parse.normal_texture_info textures)
  let occlusion_texture ← map (optional_ref material "occlusionTexture")
    (parse.occlusion_texture_info textures)
  let emissive_texture ← map (optional_ref material "emissiveTexture")
    (parse.texture_info textures)
  let emissive_factor ← map (optional_ref material "emissiveFactor") (json_array_to_vec 3)
  let alpha_mode ← map (optional_ref material "alphaMode") material_alpha_mode_from_json
  let alpha_cutoff ← optional_cast Json.get_float material "alphaCutoff"
  let double_sided ← optional_cast Json.get_boolean material "doubleSided"
  pure { name := name, extensions := extensions, extras := extras,
         pbr_metallic_roughness :=
           pbr_metallic_roughness.getD material_type.pbr_metallic_roughness_type.default,
         normal_texture := normal_texture, occlusion_texture := occlusion_texture,
         emissive_texture := emissive_texture, emissive_factor := emissive_factor,
         alpha_mode := alpha_mode.getD material_type.alpha_mode_type.OPAQUE,
         alpha_cutoff := alpha_cutoff, double_sided := double_sided.getD false }

/-- The value of `it.key()` at one step of an iteration. -/
def iterator_key (k : Option String) : Except Err String :=
  match k with
  | some key => pure key
  | none => throw (Err.invalid_iterator 207)

/-- The loop filling `attributes`: for each member, `attribute_from_json(it.key())`
and `index_to_iterator(accessors, it.value())`, then `emplace`. The two are
arguments of one call, whose order of evaluation C++ leaves open; the key is
taken first here, which decides only which of two exceptions is reported. -/
def parse.attributes (accessors : List accessor_type) :
    List (Option String × Json) → map_type attribute_type Nat →
      Except Err (map_type attribute_type Nat)
  | [], attributes => pure attributes
  | (k, v) :: rest, attributes => do
    let key ← iterator_key k
    let a ← attribute_from_json (Json.string key)
    let it ← index_to_iterator_json accessors v
    parse.attributes accessors rest (map_type.emplace attribute_type.val attributes a it)

/-- The loop filling `targets`: for each member,
`morph_target_attribute_from_json(it.key())` and
`index_to_iterator(accessors, it.value())`, then `emplace`. -/
def parse.targets (accessors : List accessor_type) :
    List (Option String × Json) → map_type primitive_type.morph_target_attribute_type Nat →
      Except Err (map_type primitive_type.morph_target_attribute_type Nat)
  | [], targets => pure targets
  | (k, v) :: rest, targets => do
    let key ← iterator_key k
    let a ← morph_target_attribute_from_json (Json.string key)
    let it ← index_to_iterator_json accessors v
    parse.targets accessors rest
      (map_type.emplace primitive_type.morph_target_attribute_type.val targets a it)

/-- The lambda over `mesh["primitives"]`: one `primitive_type`. Its
`extensions` and `extras` are read from the enclosing `mesh`. -/
def parse.primitive (accessors : List accessor_type) (materials : List material_type)
    (mesh : Json) (primitive : Json) : Except Err primitive_type := do
  let attributes_json ← primitive.subscript "attributes"
  let attributes ← parse.attributes accessors attributes_json.items []
  let targets ← map (optional_ref primitive "targets") (fun targets_json =>
    parse.targets accessors targets_json.items [])
  let indices ← optional_index_to_iterator primitive "indices" accessors
  let material ← optional_index_to_iterator primitive "material" materials
  let mode ← optional_cast Json.get_enum primitive "mode"
  let extensions ← mesh.value "extensions" Json.get_json Json.empty_object
  let extras ← mesh.value "extras" Json.get_json Json.null
  pure { attributes := attributes, indices := indices, material := material,
         mode := mode.getD primitive_type.TRIANGLES, targets := targets.getD [],
         extensions := extensions, extras := extras }

/-- The lambda over `meshes`: one `mesh_type`. -/
def parse.mesh (accessors : List accessor_type) (materials : List material_type) (mesh : Json) :
    Except Err mesh_type := do
  let primitives ← transform_json_array_to_container (← mesh.subscript "primitives")
    (parse.primitive accessors materials mesh)
  let weights ← optional_cast (Json.get_vector Json.get_float) mesh "weights"
  let name ← optional_cast Json.get_string mesh "name"
  let extensions ← mesh.value "extensions" Json.get_json Json.empty_object
  let extras ← mesh.value "extras" Json.get_json Json.null
  pure { primitives := primitives, weights := weights, name := name,
         extensions := extensions, extras := extras }

/-- The lambda over `skins` (first pass): `skeleton` and `joints` are left empty. -/
def parse.skin (accessors : List accessor_type) (skin : Json) : Except Err skin_type := do
  let inverse_bind_matrices ← optional_index_to_iterator skin "inverseBindMatrices" accessors
  let name ← optional_cast Json.get_string skin "name"
  let extensions ← skin.value "extensions" Json.get_json Json.empty_object
  let extras ← skin.value "extras" Json.get_json Json.null
  pure { inverse_bind_matrices := inverse_bind_matrices, skeleton := none, joints := [],
         name := name, extensions := extensions, extras := extras }

/-- The lambda over `nodes` (first pass): `children` is left empty. -/
def parse.node (cameras : List camera_type) (skins : List skin_type) (meshes : List mesh_type)
    (node : Json) : Except Err node_type := do
  let matrix ← map (optional_ref node "matrix") (json_array_to_mat 4 4)
  let translation ← map (optional_ref node "translation") (json_array_to_vec 3)
  let rotation ← map (optional_ref node "rotation") json_array_to_quat
  let scale ← map (optional_ref node "scale") (json_array_to_vec 3)
  let trs : translation_rotation_scale_type :=
    { translation := translation, rotation := rotation, scale := scale }
  let camera ← optional_index_to_iterator node "camera" cameras
  let skin ← optional_index_to_iterator node "skin" skins
  let mesh ← optional_index_to_iterator node "mesh" meshes
  let weights ← optional_cast (Json.get_vector Json.get_float) node "weights"
  let name ← optional_cast Json.get_string node "name"
  let extensions ← node.value "extensions" Json.get_json Json.empty_object
  let extras ← node.value "extras" Json.get_json Json.null
  pure { camera := camera, children := [], skin := skin,
         transformation :=
           match matrix with
           | some m => node_type.variant.matrix m
           | none => node_type.variant.trs trs,
         mesh := mesh, weights := weights, name := name,
         extensions := extensions, extras := extras }

/-- The lambda of the first `zip_foreach`: assigns `node.children`. The
bounds check is against `nodes`, the complete vector of nodes. -/
def parse.node_children (nodes : List node_type) (node_json : Json) (node : node_type) :
    Except Err node_type := do
  let children ← map (optional_ref node_json "children") (fun _ => do
    transform_json_array_to_container (← node_json.subscript "children")
      (index_to_iterator_json nodes))
  pure { node with children := children.getD [] }

/-- The lambda of the second `zip_foreach`: assigns `skin.skeleton` and `skin.joints`. -/
def parse.skin_joints (nodes : List node_type) (skin_json : Json) (skin : skin_type) :
    Except Err skin_type := do
  let skeleton ← optional_index_to_iterator skin_json "skeleton" nodes
  let joints ← transform_json_array_to_container (← skin_json.subscript "joints")
    (index_to_iterator_json nodes)
  pure { skin with skeleton := skeleton, joints := joints }

/-- The lambda over `animation["samplers"]`: one `animation_sampler_type`. -/
def parse.animation_sampler (accessors : List accessor_type) (sampler : Json) :
    Except Err animation_sampler_type := do
  let input ← index_to_iterator_json accessors (← sampler.subscript "input")
  let interpolation ← map (← optional_cast Json.get_string sampler "interpolation")
    (fun s => animation_sampler_interpolation_from_json (Json.string s))
  let output ← index_to_iterator_json accessors (← sampler.subscript "output")
  let extensions ← sampler.value "extensions" Json.get_json Json.empty_object
  let extras ← sampler.value "extras" Json.get_json Json.null
  pure { input := input,
         interpolation := interpolation.getD animation_sampler_type.interpolation_type.LINEAR,
         output := output, extensions := extensions, extras := extras }

/-- The lambda over `animation["channels"]`: one `channel_type`. The
`target_type` is initialised with `node` and `path` only, so its JSON members
are default-constructed (`null`). -/
def parse.channel (samplers : List animation_sampler_type) (nodes : List node_type)
    (channel : Json) : Except Err channel_type := do
  let target ← channel.subscript "target"
  let sampler ← index_to_iterator_json samplers (← channel.subscript "sampler")
  let node ← optional_index_to_iterator target "node" nodes
  let path ← channel_target_path_from_json (← target.subscript "path")
  let extensions ← channel.value "extensions" Json.get_json Json.empty_object
  let extras ← channel.value "extras" Json.get_json Json.null
  pure { sampler := sampler,
         target := { node := node, path := path, extensions := Json.null, extras := Json.null },
         extensions := extensions, extras := extras }

/-- The lambda over `animations`: one `animation_type`. -/
def parse.animation (accessors : List accessor_type) (nodes : List node_type)
    (animation : Json) : Except Err animation_type := do
  let samplers ← transform_json_array_to_container (← animation.subscript "samplers")
    (parse.animation_sampler accessors)
  let channels ← transform_json_array_to_container (← animation.subscript "channels")
    (parse.channel samplers nodes)
  let name ← optional_cast Json.get_string animation "name"
  let extensions ← animation.value "extensions" Json.get_json Json.empty_object
  let extras ← animation.value "extras" Json.get_json Json.null
  pure { channels := channels, samplers := samplers, name := name,
         extensions := extensions, extras := extras }

/-- The lambda over `scenes`: one `scene_type`. -/
def parse.scene (nodes : List node_type) (scene : Json) : Except Err scene_type := do
  let scene_nodes ← map (optional_ref scene "nodes") (fun node =>
    transform_json_array_to_container node (index_to_iterator_json nodes))
  let name ← optional_cast Json.get_string scene "name"
  let extensions ← scene.value "extensions" Json.get_json Json.empty_object
  let extras ← scene.value "extras" Json.get_json Json.null
  pure { nodes := scene_nodes, name := name, extensions := extensions, extras := extras }

/-- The pattern `map(optional_ref(format.json, key), transform ...).value_or(container())`
by which `parse` builds each top-level vector. -/
def parse.container {β : Type} (json : Json) (key : String) (f : Json → Except Err β) :
    Except Err (List β) := do
  let c ← map (optional_ref json key) (fun array => transform_json_array_to_container array f)
  pure (c.getD [])

/-- The pattern `map(optional_ref(format.json, key), zip_foreach ...)` of the two
passes that complete `nodes` and `skins` in place. -/
def parse.patch {β : Type} (json : Json) (key : String) (f : Json → β → Except Err β)
    (seq : List β) : Except Err (List β) :=
  match optional_ref json key with
  | some array => zip_foreach f array.elems seq
  | none => pure seq

/-- The initialiser of `extensions_used` and of `extensions_required`:
`format.json.value(key, json::array()).get<std::vector<std::string>>()`. -/
def parse.extensions (json : Json) (key : String) : Except Err (List String) := do
  let names ← json.value key Json.get_json (Json.array [])
  names.get_vector Json.get_string

/-- The function `parse`. -/
def parse (decode : String → Except Err (List UInt8)) (format : format_type) : Except Err model_type := do
  let extensions_used ← parse.extensions format.json "extensionsUsed"
  let extensions_required ← parse.extensions format.json "extensionsRequired"
  let buffers ← parse.container format.json "buffers" (parse.buffer decode)
  let buffer_views ← parse.container format.json "bufferViews" (parse.buffer_view buffers)
  let accessors ← parse.container format.json "accessors" (parse.accessor buffer_views)
  let cameras ← parse.container format.json "cameras" parse.camera
  let samplers ← parse.container format.json "samplers" parse.sampler
  let images ← parse.container format.json "images" (parse.image decode buffer_views)
  let textures ← parse.container format.json "textures" (parse.texture samplers images)
  let materials ← parse.container format.json "materials" (parse.material textures)
  let meshes ← parse.container format.json "meshes" (parse.mesh accessors materials)
  let skins ← parse.container format.json "skins" (parse.skin accessors)
  let nodes ← parse.container format.json "nodes" (parse.node cameras skins meshes)
  let nodes ← parse.patch format.json "nodes" (parse.node_children nodes) nodes
  let skins ← parse.patch format.json "skins" (parse.skin_joints nodes) skins
  let animations ← parse.container format.json "animations" (parse.animation accessors nodes)
  let scenes ← parse.container format.json "scenes" (parse.scene nodes)
  let asset ← format.json.subscript "asset"
  let scene ← optional_index_to_iterator format.json "scene" scenes
  let copyright ← optional_cast Json.get_string asset "copyright"
  let generator ← optional_cast Json.get_string asset "generator"
  let version ← (← asset.subscript "version").get_string
  let min_version ← optional_cast Json.get_string asset "minVersion"
  let asset_extensions ← asset.value "extensions" Json.get_json Json.empty_object
  let asset_extras ← asset.value "extras" Json.get_json Json.null
  let extensions ← asset.value "extensions" Json.get_json Json.empty_object
  let extras ← asset.value "extras" Json.get_json Json.null
  pure { extensions_used := extensions_used, extensions_required := extensions_required,
         accessors := accessors, animations := animations,
         asset := { copyright := copyright, generator := generator, version := version,
                    min_version := min_version, extensions := asset_extensions,
                    extras := asset_extras },
         buffers := buffers, buffer_views := buffer_views, cameras := cameras,
         images := images, materials := materials, meshes := meshes, nodes := nodes,
         samplers := samplers, scene := scene, scenes := scenes, skins := skins,
         textures := textures, extensions := extensions, extras := extras }

/-! ## `parser.cpp`: `open`

The three overloads of `open` are `open_uri`, `open_buffer` and `open_image`.
An iterator is a position, so `open_image` also takes the two vectors its
iterators point into. -/

/-- A `std::string_view`: the window of `size` bytes that starts `offset`
bytes into the storage `base`. Nothing in its construction checks that the
window lies inside the storage. -/
structure string_view where
  base : List UInt8
  offset : Int
  size : Nat
deriving DecidableEq, Repr

/-- The bytes a `string_view` shows, when its window lies inside the storage. -/
def string_view.bytes (v : string_view) : Option (List UInt8) :=
  if 0 ≤ v.offset ∧ v.offset + v.size ≤ v.base.length then
    some ((v.base.drop v.offset.toNat).take v.size)
  else none

/-- The struct `data_view_type` of `parser.h`. -/
structure data_view_type where
  data : string_view
  mime_type : uri_type.mime_type_type
deriving DecidableEq, Repr

/-- The typedef `opened_type`: `std::variant<data_view_type, std::string_view, std::string>`. -/
inductive opened_type where
  | data_view (v : data_view_type)
  | string_view (v : gltf.string_view)
  | string (s : List UInt8)
deriving DecidableEq, Repr

/-- The `std::visit` of `open` that widens `std::variant<data_view_type, std::string>`
to `opened_type`. -/
def opened_type.of_variant (r : data_view_type ⊕ List UInt8) : opened_type :=
  match r with
  | Sum.inl v => opened_type.data_view v
  | Sum.inr s => opened_type.string s

/-- The white space that the sentry of a formatted extraction skips (`isspace`
in the classic locale). -/
def is_space (b : UInt8) : Bool :=
  b == 32 || (9 ≤ b.toNat && b.toNat ≤ 13)

/-- The overload `open(wd, uri, offset, length)`. `read_file wd path` is the
content of the file `wd / path`, `none` when it cannot be opened. In the
external branch the stream throws on `failbit`: when the file cannot be
opened, when the seek fails, when fewer than `length` bytes follow `offset`,
and, with no `length`, when `stream >> buffer.rdbuf()` inserts no byte; that
extraction first skips leading white space. In the data branch
`value.length() - offset` is computed in `size_t`. -/
def open_uri (read_file : String → String → Option (List UInt8)) (wd : String)
    (uri : uri_type) (offset : Int) (length : Option Nat) :
    Except Err (data_view_type ⊕ List UInt8) :=
  match uri with
  | uri_type.data value =>
    pure (Sum.inl
      { data := { base := value.value, offset := offset,
                  size := match length with
                    | some n => n
                    | none => wrapU 64 (value.value.length - offset) },
        mime_type := value.mime_type })
  | uri_type.external value =>
    match read_file wd value.path with
    | none => throw Err.ios_failure
    | some content =>
      if offset < 0 then throw Err.ios_failure
      else
        match length with
        | some n =>
          if (content.drop offset.toNat).length < n then throw Err.ios_failure
          else pure (Sum.inr ((content.drop offset.toNat).take n))
        | none =>
          if ((content.drop offset.toNat).dropWhile is_space).length = 0 then
            throw Err.ios_failure
          else pure (Sum.inr ((content.drop offset.toNat).dropWhile is_space))

/-- The overload `open(wd, format, buffer, offset, length)`. Without a URI it
returns `std::string_view(format.binary->data(), format.binary->length())`;
dereferencing an absent `format.binary` is undefined and modelled as a
failure. -/
def open_buffer (read_file : String → String → Option (List UInt8)) (wd : String)
    (format : format_type) (buffer : buffer_type) (offset : Int) (length : Option Nat) :
    Except Err opened_type :=
  match buffer.uri with
  | some uri => do
    let r ← open_uri read_file wd uri offset length
    pure (opened_type.of_variant r)
  | none =>
    match format.binary with
    | some binary =>
      pure (opened_type.string_view { base := binary, offset := 0, size := binary.length })
    | none => throw (Err.assertion "format.binary has no value")

/-- The overload `open(wd, format, image)`. `buffer_views` and `buffers` are
the vectors of the model; following an iterator that is not a position of its
vector is undefined and modelled as a failure. The call on a URI uses the
default arguments `offset = 0` and no `length`. -/
def open_image (read_file : String → String → Option (List UInt8)) (wd : String)
    (format : format_type) (buffers : List buffer_type) (buffer_views : List buffer_view_type)
    (image : image_type) : Except Err opened_type :=
  match image.uri_buffer_view with
  | image_type.variant.uri uri => do
    let r ← open_uri read_file wd uri 0 none
    pure (opened_type.of_variant r)
  | image_type.variant.buffer_view it =>
    match buffer_views[it]? with
    | none => throw (Err.assertion "iterator outside buffer_views")
    | some buffer_view =>
      match buffers[buffer_view.buffer]? with
      | none => throw (Err.assertion "iterator outside buffers")
      | some buffer =>
        open_buffer read_file wd format buffer buffer_view.byte_offset
          (some buffer_view.byte_length)

/-! ## Properties of documents and models that the theorems below refer to -/

/-- An optional reference is absent or a position below `n`. -/
def ref_in_bounds (n : Nat) (r : Option Nat) : Prop := ∀ i, r = some i → i < n

/-- The reference of a buffer view to its buffer is in bounds. -/
def buffer_view_type.in_bounds (buffers : Nat) (v : buffer_view_type) : Prop :=
  v.buffer < buffers

/-- The reference of an accessor to its buffer view is in bounds. -/
def accessor_type.in_bounds (buffer_views : Nat) (a : accessor_type) : Prop :=
  ref_in_bounds buffer_views a.buffer_view

/-- The reference of a buffer-view-sourced image to its buffer view is in bounds. -/
def image_type.in_bounds (buffer_views : Nat) (i : image_type) : Prop :=
  ∀ k, i.uri_buffer_view = image_type.variant.buffer_view k → k < buffer_views

/-- The references of a texture to its sampler and its source image are in bounds. -/
def texture_type.in_bounds (samplers images : Nat) (t : texture_type) : Prop :=
  ref_in_bounds samplers t.sampler ∧ ref_in_bounds images t.source

/-- Every texture-info index of a material is in bounds. -/
def material_type.in_bounds (textures : Nat) (m : material_type) : Prop :=
  (∀ t, m.pbr_metallic_roughness.base_color_texture = some t → t.index < textures)
  ∧ (∀ t, m.pbr_metallic_roughness.metallic_roughness_texture = some t → t.index < textures)
  ∧ (∀ t, m.normal_texture = some t → t.index < textures)
  ∧ (∀ t, m.occlusion_texture = some t → t.index < textures)
  ∧ (∀ t, m.emissive_texture = some t → t.index < textures)

/-- The attribute, indices, material and morph-target references of a primitive are in bounds. -/
def primitive_type.in_bounds (accessors materials : Nat) (p : primitive_type) : Prop :=
  (∀ e ∈ p.attributes, e.2 < accessors)
  ∧ ref_in_bounds accessors p.indices
  ∧ ref_in_bounds materials p.material
  ∧ (∀ e ∈ p.targets, e.2 < accessors)

/-- The references of every primitive of a mesh are in bounds. -/
def mesh_type.in_bounds (accessors materials : Nat) (m : mesh_type) : Prop :=
  ∀ p ∈ m.primitives, p.in_bounds accessors materials

/-- The inverse-bind-matrices, skeleton and joint references of a skin are in bounds. -/
def skin_type.in_bounds (accessors nodes : Nat) (s : skin_type) : Prop :=
  ref_in_bounds accessors s.inverse_bind_matrices
  ∧ ref_in_bounds nodes s.skeleton
  ∧ (∀ j ∈ s.joints, j < nodes)

/-- The camera, children, skin and mesh references of a node are in bounds. -/
def node_type.in_bounds (cameras skins meshes nodes : Nat) (n : node_type) : Prop :=
  ref_in_bounds cameras n.camera
  ∧ (∀ c ∈ n.children, c < nodes)
  ∧ ref_in_bounds skins n.skin
  ∧ ref_in_bounds meshes n.mesh

/-- The references of an animation are in bounds: sampler input and output
into the accessors, channel sampler into the samplers of the same animation,
channel target node into the nodes. -/
def animation_type.in_bounds (accessors nodes : Nat) (a : animation_type) : Prop :=
  (∀ s ∈ a.samplers, s.input < accessors ∧ s.output < accessors)
  ∧ (∀ c ∈ a.channels, c.sampler < a.samplers.length ∧ ref_in_bounds nodes c.target.node)

/-- The node references of a scene are in bounds. -/
def scene_type.in_bounds (nodes : Nat) (s : scene_type) : Prop :=
  ∀ ns, s.nodes = some ns → ∀ n ∈ ns, n < nodes

/-- Referential integrity of a model: every resolved reference is a position
strictly below the length of the sequence of the model it refers to. -/
def model_type.references_in_bounds (m : model_type) : Prop :=
  (∀ v ∈ m.buffer_views, v.in_bounds m.buffers.length)
  ∧ (∀ a ∈ m.accessors, a.in_bounds m.buffer_views.length)
  ∧ (∀ i ∈ m.images, i.in_bounds m.buffer_views.length)
  ∧ (∀ t ∈ m.textures, t.in_bounds m.samplers.length m.images.length)
  ∧ (∀ x ∈ m.materials, x.in_bounds m.textures.length)
  ∧ (∀ x ∈ m.meshes, x.in_bounds m.accessors.length m.materials.length)
  ∧ (∀ s ∈ m.skins, s.in_bounds m.accessors.length m.nodes.length)
  ∧ (∀ n ∈ m.nodes, n.in_bounds m.cameras.length m.skins.length m.meshes.length m.nodes.length)
  ∧ (∀ a ∈ m.animations, a.in_bounds m.accessors.length m.nodes.length)
  ∧ (∀ s ∈ m.scenes, s.in_bounds m.nodes.length)
  ∧ ref_in_bounds m.scenes.length m.scene

/-- What the first pass over `nodes` establishes: camera, skin and mesh
references in bounds, no children yet. -/
def node_first_pass (cameras skins meshes : Nat) (n : node_type) : Prop :=
  ref_in_bounds cameras n.camera ∧ n.children = [] ∧ ref_in_bounds skins n.skin
    ∧ ref_in_bounds meshes n.mesh

/-- What the first pass over `skins` establishes: the inverse-bind-matrices
reference in bounds, no skeleton and no joints yet. -/
def skin_first_pass (accessors : Nat) (s : skin_type) : Prop :=
  ref_in_bounds accessors s.inverse_bind_matrices ∧ s.skeleton = none ∧ s.joints = []

/-- The number of entries of the `buffers` member of a document, zero when it has none. -/
def buffers_count (doc : Json) : Nat :=
  match doc.find "buffers" with
  | some buffers => buffers.elems.length
  | none => 0

/-- The number of entries of the `nodes` array of `doc`: 0 when there is none. -/
def nodes_count (doc : Json) : Nat :=
  match doc.find "nodes" with
  | some nodes => nodes.elems.length
  | none => 0

/-- The number of entries of the `bufferViews` array of `doc`: 0 when there is none. -/
def buffer_views_count (doc : Json) : Nat :=
  match doc.find "bufferViews" with
  | some views => views.elems.length
  | none => 0

/-- A JSON integer that is out of range as an index into `count` elements:
an unsigned integer not below `count`, or a signed integer that is negative
or not below `count`. The library stores these in 64 bits. -/
def index_out_of_range (count : Nat) (index : Json) : Prop :=
  match index with
  | Json.number_unsigned n => n < 2 ^ 64 ∧ count ≤ n
  | Json.number_integer i => -(2 ^ 63) ≤ i ∧ i < 2 ^ 63 ∧ (i < 0 ∨ (count : Int) ≤ i)
  | _ => False

/-- The element `view` of the `bufferViews` of `doc` has a `buffer` index that
is out of range for the `buffers` of `doc`. -/
def out_of_range_buffer_view (doc view : Json) : Prop :=
  ∃ views index, doc.find "bufferViews" = some views ∧ view ∈ views.elems
    ∧ view.find "buffer" = some index ∧ index_out_of_range (buffers_count doc) index

/-! ## Sample inputs -/

/-- A codec that writes each byte as the character with that code; it
stands in for base64 where only `decode (encode b) = b` matters. -/
def latin1_encode (b : List UInt8) : String :=
  String.mk (b.map (fun x => Char.ofNat x.toNat))

/-- The inverse of `latin1_encode`. -/
def latin1_decode (s : String) : List UInt8 :=
  s.data.map (fun c => UInt8.ofNat c.toNat)

/-- The document `{"asset":{"version":"2.0"}}`. -/
def minimal_document : Json :=
  Json.object [("asset", Json.object [("version", Json.string "2.0")])]

/-- A document with one buffer and two buffer views: the first view has the
illegal target 7, the second refers to buffer 1, which does not exist. -/
def two_views_document : Json :=
  Json.object [
    ("asset", Json.object [("version", Json.string "2.0")]),
    ("bufferViews", Json.array [
      Json.object [("buffer", Json.number_unsigned 0), ("byteLength", Json.number_unsigned 1),
                   ("target", Json.number_unsigned 7)],
      Json.object [("buffer", Json.number_unsigned 1), ("byteLength", Json.number_unsigned 1)]]),
    ("buffers", Json.array [Json.object [("byteLength", Json.number_unsigned 1)]])]

/-- A document with no buffer and one buffer view, which refers to buffer 0. -/
def dangling_view_document : Json :=
  Json.object [
    ("asset", Json.object [("version", Json.string "2.0")]),
    ("bufferViews", Json.array [
      Json.object [("buffer", Json.number_unsigned 0), ("byteLength", Json.number_unsigned 1)]])]

/-- A document that uses every kind of reference: a triangle with a
material and a texture, a skinned node with a child that comes later in the
array, an animation and a default scene. -/
def scene_document : Json :=
  Json.object [
    ("accessors", Json.array [
      Json.object [("bufferView", Json.number_unsigned 0),
                   ("componentType", Json.number_unsigned 5126),
                   ("count", Json.number_unsigned 3), ("type", Json.string "VEC3")],
      Json.object [("bufferView", Json.number_unsigned 1),
                   ("componentType", Json.number_unsigned 5123),
                   ("count", Json.number_unsigned 3), ("type", Json.string "SCALAR")]]),
    ("animations", Json.array [
      Json.object [
        ("channels", Json.array [
          Json.object [("sampler", Json.number_unsigned 0),
                       ("target", Json.object [("node", Json.number_unsigned 1),
                                               ("path", Json.string "translation")])]]),
        ("samplers", Json.array [
          Json.object [("input", Json.number_unsigned 1),
                       ("output", Json.number_unsigned 0)]])]]),
    ("asset", Json.object [("version", Json.string "2.0")]),
    ("bufferViews", Json.array [
      Json.object [("buffer", Json.number_unsigned 0), ("byteLength", Json.number_unsigned 36)],
      Json.object [("buffer", Json.number_unsigned 0), ("byteLength", Json.number_unsigned 6),
                   ("byteOffset", Json.number_unsigned 36)],
      Json.object [("buffer", Json.number_unsigned 0), ("byteLength", Json.number_unsigned 8),
                   ("byteOffset", Json.number_unsigned 44)]]),
    ("buffers", Json.array [Json.object [("byteLength", Json.number_unsigned 52)]]),
    ("cameras", Json.array [
      Json.object [("perspective", Json.object [("yfov", Json.number_unsigned 1),
                                                ("znear", Json.number_unsigned 1)]),
                   ("type", Json.string "perspective")]]),
    ("images", Json.array [
      Json.object [("bufferView", Json.number_unsigned 2),
                   ("mimeType", Json.string "image/png")]]),
    ("materials", Json.array [
      Json.object [
        ("emissiveTexture", Json.object [("index", Json.number_unsigned 0)]),
        ("normalTexture", Json.object [("index", Json.number_unsigned 0)]),
        ("occlusionTexture", Json.object [("index", Json.number_unsigned 0)]),
        ("pbrMetallicRoughness", Json.object [
          ("baseColorTexture", Json.object [("index", Json.number_unsigned 0)]),
          ("metallicRoughnessTexture", Json.object [("index", Json.number_unsigned 0)])])]]),
    ("meshes", Json.array [
      Json.object [
        ("primitives", Json.array [
          Json.object [
            ("attributes", Json.object [("POSITION", Json.number_unsigned 0)]),
            ("indices", Json.number_unsigned 1),
            ("material", Json.number_unsigned 0),
            ("targets", Json.object [("POSITION", Json.number_unsigned 0)])]])]]),
    ("nodes", Json.array [
      Json.object [("camera", Json.number_unsigned 0),
                   ("children", Json.array [Json.number_unsigned 1]),
                   ("mesh", Json.number_unsigned 0),
                   ("skin", Json.number_unsigned 0)],
      Json.object []]),
    ("samplers", Json.array [Json.object []]),
    ("scene", Json.number_unsigned 0),
    ("scenes", Json.array [Json.object [("nodes", Json.array [Json.number_unsigned 0])]]),
    ("skins", Json.array [
      Json.object [("inverseBindMatrices", Json.number_unsigned 0),
                   ("joints", Json.array [Json.number_unsigned 1]),
                   ("skeleton", Json.number_unsigned 0)]]),
    ("textures", Json.array [
      Json.object [("sampler", Json.number_unsigned 0), ("source", Json.number_unsigned 0)]])]

/-- A document with two animations and two texture samplers: the first
animation has two samplers and no channel, the second has one sampler and a
channel that refers to sampler 1. -/
def two_animations_document : Json :=
  Json.object [
    ("accessors", Json.array [
      Json.object [("componentType", Json.number_unsigned 5126),
                   ("count", Json.number_unsigned 1), ("type", Json.string "SCALAR")]]),
    ("animations", Json.array [
      Json.object [
        ("channels", Json.array []),
        ("samplers", Json.array [
          Json.object [("input", Json.number_unsigned 0), ("output", Json.number_unsigned 0)],
          Json.object [("input", Json.number_unsigned 0), ("output", Json.number_unsigned 0)]])],
      Json.object [
        ("channels", Json.array [
          Json.object [("sampler", Json.number_unsigned 1),
                       ("target", Json.object [("path", Json.string "scale")])]]),
        ("samplers", Json.array [
          Json.object [("input", Json.number_unsigned 0),
                       ("output", Json.number_unsigned 0)]])]]),
    ("asset", Json.object [("version", Json.string "2.0")]),
    ("samplers", Json.array [Json.object [], Json.object []])]

/-- A document whose root object has `extensions` and `extras` of its own,
beside an `asset` with `extras`. -/
def root_extras_document : Json :=
  Json.object [
    ("asset", Json.object [("extras", Json.string "of the asset"),
                           ("version", Json.string "2.0")]),
    ("extensions", Json.object [("ROOT_ext", Json.null)]),
    ("extras", Json.string "of the root")]

/-- A document with one buffer view and an image that has both a `uri` and
a `bufferView`. -/
def image_with_uri_and_view_document : Json :=
  Json.object [
    ("asset", Json.object [("version", Json.string "2.0")]),
    ("bufferViews", Json.array [
      Json.object [("buffer", Json.number_unsigned 0), ("byteLength", Json.number_unsigned 4)]]),
    ("buffers", Json.array [Json.object [("byteLength", Json.number_unsigned 4)]]),
    ("images", Json.array [
      Json.object [("bufferView", Json.number_unsigned 0), ("uri", Json.string "a.png")]])]

/-! # Theorems -/

/-! ## The exception monad and the traversals -/

theorem ok_bind {α β : Type} (a : α) (f : α → Except Err β) :
    (Except.ok a >>= f) = f a := rfl

theorem error_bind {α β : Type} (e : Err) (f : α → Except Err β) :
    ((Except.error e : Except Err α) >>= f) = Except.error e := rfl

theorem pure_bind_ok {α β : Type} (a : α) (f : α → Except Err β) :
    ((pure a : Except Err α) >>= f) = f a := rfl

theorem throw_eq_error {α : Type} (e : Err) : (throw e : Except Err α) = Except.error e := rfl

theorem bind_eq_ok {α β : Type} (x : Except Err α) (f : α → Except Err β) (b : β) :
    (x >>= f) = Except.ok b ↔ ∃ a, x = Except.ok a ∧ f a = Except.ok b := by
  cases x with
  | error e => simp [bind, Except.bind]
  | ok a => simp [bind, Except.bind]

theorem pure_eq_ok {α : Type} (a b : α) : (pure a : Except Err α) = Except.ok b ↔ a = b := by
  simp [pure, Except.pure]

theorem transform_ok_mem {α β : Type} (f : α → Except Err β) :
    ∀ (xs : List α) (ys : List β), transform f xs = Except.ok ys →
      ∀ y ∈ ys, ∃ x ∈ xs, f x = Except.ok y := by
  intro xs
  induction xs with
  | nil =>
    intro ys h y hy
    simp only [transform, pure_eq_ok] at h
    subst h
    simp at hy
  | cons x xs ih =>
    intro ys h y hy
    simp only [transform, bind_eq_ok, pure_eq_ok] at h
    obtain ⟨y0, h0, ys0, h1, h2⟩ := h
    subst h2
    rcases List.mem_cons.mp hy with rfl | hy
    · exact ⟨x, List.mem_cons_self _ _, h0⟩
    · obtain ⟨x1, hx1, hf⟩ := ih ys0 h1 y hy
      exact ⟨x1, List.mem_cons_of_mem _ hx1, hf⟩

theorem transform_ok_length {α β : Type} (f : α → Except Err β) :
    ∀ (xs : List α) (ys : List β), transform f xs = Except.ok ys → ys.length = xs.length := by
  intro xs
  induction xs with
  | nil =>
    intro ys h
    simp only [transform, pure_eq_ok] at h
    subst h
    rfl
  | cons x xs ih =>
    intro ys h
    simp only [transform, bind_eq_ok, pure_eq_ok] at h
    obtain ⟨y0, _, ys0, h1, h2⟩ := h
    subst h2
    simp [ih ys0 h1]

theorem map_eq_ok {α β : Type} (o : Option α) (f : α → Except Err β) (r : Option β)
    (h : map o f = Except.ok r) : ∀ y, r = some y → ∃ x, o = some x ∧ f x = Except.ok y := by
  intro y hy
  subst hy
  cases o with
  | none => simp [map, pure_eq_ok] at h
  | some x =>
    simp only [map, bind_eq_ok, pure_eq_ok] at h
    obtain ⟨y0, h0, h1⟩ := h
    cases h1
    exact ⟨x, rfl, h0⟩

/-! ## `parse_format` -/

theorem word_append (a b : List UInt8) (i : Nat) (h : 4 * i + 3 < a.length) :
    word (a ++ b) i = word a i := by
  unfold word
  rw [List.getD_append _ _ _ _ (by omega), List.getD_append _ _ _ _ (by omega),
    List.getD_append _ _ _ _ (by omega), List.getD_append _ _ _ _ h]

theorem read_exact (a b buf : List UInt8) (n : Nat) (hn : a.length = n) (hb : buf.length = n) :
    istream.read { rest := a ++ b, eofbit := false, failbit := false } buf n
      = ({ rest := b, eofbit := false, failbit := false }, a) := by
  subst hn
  unfold istream.read
  simp [istream.good, hb]

theorem read_at_end (buf : List UInt8) (n : Nat) (hn : 0 < n) :
    (istream.read { rest := [], eofbit := false, failbit := false } buf n).1.failbit = true := by
  unfold istream.read
  have : ¬ (0 = n) := by omega
  simp [istream.good, this]

theorem first_byte_of_magic (header : List UInt8) (h : word header 0 = 0x46546C67) :
    ∃ t, header = 103 :: t := by
  cases header with
  | nil => simp [word] at h
  | cons b0 t =>
    refine ⟨t, ?_⟩
    congr 1
    unfold word at h
    simp only [Nat.mul_zero, Nat.zero_add, List.getD_cons_zero] at h
    have h0 := UInt8.toNat_lt b0
    have h1 := UInt8.toNat_lt ((b0 :: t).getD 1 0)
    have h2 := UInt8.toNat_lt ((b0 :: t).getD 2 0)
    have h3 := UInt8.toNat_lt ((b0 :: t).getD 3 0)
    apply UInt8.ext
    show b0.toNat = 103
    omega

theorem parse_format_glb_aux (lib : json_reader) (uninit : Nat → UInt8)
    (header json tail : List UInt8)
    (hlen : header.length = 20)
    (hmagic : word header 0 = 0x46546C67) (hversion : word header 1 = 2)
    (hjson_len : word header 3 = json.length) (hjson_type : word header 4 = 0x4E4F534A) :
    parse_format lib uninit (header ++ (json ++ tail))
      = (do
          let binary ←
            if !(istream.read { rest := tail, eofbit := false, failbit := false }
                  ((List.range 8).map uninit) 8).1.failbit then
              if word (istream.read { rest := tail, eofbit := false, failbit := false }
                  ((List.range 8).map uninit) 8).2 1 ≠ 0x004E4942 then
                throw (Err.runtime_error "Expected bin chunk")
              else
                pure (some (istream.read (istream.read { rest := tail, eofbit := false, failbit := false }
                  ((List.range 8).map uninit) 8).1 (List.replicate (word (istream.read { rest := tail, eofbit := false, failbit := false }
                  ((List.range 8).map uninit) 8).2 0) 0) (word (istream.read { rest := tail, eofbit := false, failbit := false }
                  ((List.range 8).map uninit) 8).2 0)).2)
            else pure none
          let j ← lib.parse json
          pure { json := j, binary := binary }) := by
  obtain ⟨t, ht⟩ := first_byte_of_magic header hmagic
  unfold parse_format
  have hpeek : istream.peek { rest := header ++ (json ++ tail), eofbit := false, failbit := false }
      = (some 103, { rest := header ++ (json ++ tail), eofbit := false, failbit := false }) := by
    rw [ht]; rfl
  simp only [hpeek]
  rw [read_exact header (json ++ tail) _ 20 hlen (by simp)]
  simp only [hmagic, hversion, hjson_type, hjson_len, ne_eq, not_true_eq_false, if_false]
  rw [read_exact json tail _ json.length rfl (by simp)]
  rfl

/-- Claim C1. For every GLB byte stream whose header has magic `0x46546C67`,
version 2 and JSON chunk type `0x4E4F534A`, followed by a JSON chunk of
exactly the declared length and then either nothing or a second chunk of type
`0x004E4942` with exactly the declared number of payload bytes,
`parse_format` returns what parsing the JSON chunk bytes directly returns,
paired with no binary chunk in the first case and with exactly the payload
bytes in the second. -/
theorem parse_format_glb (lib : json_reader) (uninit : Nat → UInt8)
    (header json : List UInt8)
    (hlen : header.length = 20)
    (hmagic : word header 0 = 0x46546C67) (hversion : word header 1 = 2)
    (hjson_len : word header 3 = json.length) (hjson_type : word header 4 = 0x4E4F534A) :
    parse_format lib uninit (header ++ json)
        = (lib.parse json).map (fun j => { json := j, binary := none })
    ∧ ∀ header2 bin : List UInt8, header2.length = 8 → word header2 0 = bin.length →
        word header2 1 = 0x004E4942 →
        parse_format lib uninit (header ++ json ++ header2 ++ bin)
          = (lib.parse json).map (fun j => { json := j, binary := some bin }) := by
  constructor
  · have h := parse_format_glb_aux lib uninit header json [] hlen hmagic hversion hjson_len
      hjson_type
    rw [List.append_nil] at h
    rw [h, read_at_end _ 8 (by decide)]
    cases lib.parse json <;> rfl
  · intro header2 bin h2len hbin_len hbin_type
    have h := parse_format_glb_aux lib uninit header json (header2 ++ bin) hlen hmagic hversion
      hjson_len hjson_type
    have e : header ++ json ++ header2 ++ bin = header ++ (json ++ (header2 ++ bin)) := by
      simp only [List.append_assoc]
    rw [e, h, read_exact header2 bin _ 8 h2len (by simp)]
    simp only [hbin_type, hbin_len, ne_eq, not_true_eq_false, if_false, Bool.not_false, if_true]
    have hb := read_exact bin [] (List.replicate bin.length 0) bin.length rfl (by simp)
    rw [List.append_nil] at hb
    rw [hb]
    cases lib.parse json <;> rfl

theorem word_take (a : List UInt8) (n i : Nat) (h : 4 * i + 3 < n) :
    word (a.take n) i = word a i := by
  unfold word
  have g : ∀ k, k < n → (a.take n).getD k 0 = a.getD k 0 := by
    intro k hk
    simp only [List.getD_eq_getElem?_getD, List.getElem?_take, hk, if_true]
  rw [g _ (by omega), g _ (by omega), g _ (by omega), g _ h]

theorem word_read (data buf : List UInt8) (n i : Nat) (hn : 4 * i + 3 < n)
    (hd : 4 * i + 3 < data.length) :
    word (istream.read { rest := data, eofbit := false, failbit := false } buf n).2 i
      = word data i := by
  have hlen : 4 * i + 3 < (data.take n).length := by
    rw [List.length_take]; omega
  unfold istream.read
  simp only [istream.good, Bool.not_false, Bool.and_self, if_true]
  split
  · simp only []
    rw [word_append _ _ _ hlen, word_take _ _ _ hn]
  · simp only []
    rw [word_append _ _ _ hlen, word_take _ _ _ hn]

/-- Claim C2. For every stream whose first byte is `g`: if its first
little-endian 32-bit word (the stream has the four bytes) is not
`0x46546C67`, `parse_format` throws `Invalid magic`; if that word is the
magic and the second word (the stream has the eight bytes) is not 2, it
throws `Invalid version`. In neither case is a format pair returned. -/
theorem parse_format_bad_magic_or_version (lib : json_reader) (uninit : Nat → UInt8)
    (data : List UInt8) (hg : data.head? = some 103) :
    (4 ≤ data.length → word data 0 ≠ 0x46546C67 →
      parse_format lib uninit data = Except.error (Err.runtime_error "Invalid magic"))
    ∧ (8 ≤ data.length → word data 0 = 0x46546C67 → word data 1 ≠ 2 →
      parse_format lib uninit data = Except.error (Err.runtime_error "Invalid version")) := by
  have hpeek : istream.peek { rest := data, eofbit := false, failbit := false }
      = (some 103, { rest := data, eofbit := false, failbit := false }) := by
    cases data with
    | nil => simp at hg
    | cons c t =>
      simp only [List.head?_cons, Option.some.injEq] at hg
      rw [hg]; rfl
  constructor
  · intro hlen hmagic
    have hw := word_read data ((List.range 20).map uninit) 20 0 (by decide) (by omega)
    unfold parse_format
    simp only [hpeek, if_true]
    rw [← hw] at hmagic
    simp only [ne_eq, hmagic, not_false_eq_true, if_true]
    rfl
  · intro hlen hmagic hversion
    have hw0 := word_read data ((List.range 20).map uninit) 20 0 (by decide) (by omega)
    have hw1 := word_read data ((List.range 20).map uninit) 20 1 (by decide) (by omega)
    unfold parse_format
    simp only [hpeek, if_true]
    rw [← hw0] at hmagic
    rw [← hw1] at hversion
    simp only [ne_eq, hmagic, hversion, not_true_eq_false, not_false_eq_true, if_true, if_false]
    rfl

theorem parse_format_bad_magic_or_version_witness :
    parse_format ⟨fun _ => Except.error Err.parse_error, fun _ => Except.error Err.parse_error⟩
        (fun _ => 0) [103, 108, 84, 71]
      = Except.error (Err.runtime_error "Invalid magic")
    ∧ parse_format ⟨fun _ => Except.error Err.parse_error, fun _ => Except.error Err.parse_error⟩
        (fun _ => 0) [103, 108, 84, 70, 1, 0, 0, 0]
      = Except.error (Err.runtime_error "Invalid version") :=
  ⟨(parse_format_bad_magic_or_version _ _ [103, 108, 84, 71] rfl).1 (by decide) (by decide),
   (parse_format_bad_magic_or_version _ _ [103, 108, 84, 70, 1, 0, 0, 0] rfl).2 (by decide)
     (by decide) (by decide)⟩

theorem parse_format_glb_witness :
    parse_format ⟨fun _ => Except.ok (Json.object []), fun _ => Except.error Err.parse_error⟩
        (fun _ => 0)
        ([103, 108, 84, 70, 2, 0, 0, 0, 0, 0, 0, 0, 2, 0, 0, 0, 74, 83, 79, 78] ++ [123, 125])
      = Except.ok { json := Json.object [], binary := none }
    ∧ parse_format ⟨fun _ => Except.ok (Json.object []), fun _ => Except.error Err.parse_error⟩
        (fun _ => 0)
        ([103, 108, 84, 70, 2, 0, 0, 0, 0, 0, 0, 0, 2, 0, 0, 0, 74, 83, 79, 78] ++ [123, 125]
          ++ [3, 0, 0, 0, 66, 73, 78, 0] ++ [7, 8, 9])
      = Except.ok { json := Json.object [], binary := some [7, 8, 9] } :=
  ⟨(parse_format_glb _ (fun _ => 0)
      [103, 108, 84, 70, 2, 0, 0, 0, 0, 0, 0, 0, 2, 0, 0, 0, 74, 83, 79, 78] [123, 125]
      rfl (by decide) (by decide) (by decide) (by decide)).1,
   (parse_format_glb _ (fun _ => 0)
      [103, 108, 84, 70, 2, 0, 0, 0, 0, 0, 0, 0, 2, 0, 0, 0, 74, 83, 79, 78] [123, 125]
      rfl (by decide) (by decide) (by decide) (by decide)).2 [3, 0, 0, 0, 66, 73, 78, 0]
      [7, 8, 9] rfl (by decide) (by decide)⟩

/-! ## `uri_type` -/

theorem string_find_append (a b : List Char) (c : Char) (pos : Nat) (hpos : pos ≤ a.length)
    (h : c ∉ a.drop pos) : string_find (a ++ c :: b) c pos = some a.length := by
  unfold string_find
  have hd : (a ++ c :: b).drop pos = a.drop pos ++ c :: b := by
    rw [List.drop_append_of_le_length hpos]
  rw [hd, List.indexOf_append_of_not_mem h, List.indexOf_cons_self]
  simp
  omega

theorem string_find_none (a : List Char) (c : Char) (pos : Nat)
    (h : c ∉ a.drop pos) : string_find a c pos = none := by
  unfold string_find
  rw [List.indexOf_eq_length.mpr h]
  simp

theorem uri_type_of_parts_aux (pre m e p : List Char) (hpre : pre.length = 5)
    (hm : ';' ∉ m) (he : ',' ∉ e) :
    string_find (pre ++ m ++ ';' :: e ++ ',' :: p) ';' 5 = some (5 + m.length)
    ∧ string_find (pre ++ m ++ ';' :: e ++ ',' :: p) ',' (5 + m.length)
        = some (5 + m.length + 1 + e.length)
    ∧ ((pre ++ m ++ ';' :: e ++ ',' :: p).drop (5 + m.length + 1)).take
        (5 + m.length + 1 + e.length - (5 + m.length + 1)) = e
    ∧ (pre ++ m ++ ';' :: e ++ ',' :: p).drop (5 + m.length + 1 + e.length + 1) = p
    ∧ ((pre ++ m ++ ';' :: e ++ ',' :: p).drop 5).take (5 + m.length - 5) = m
    ∧ (pre ++ m ++ ';' :: e ++ ',' :: p).take 5 = pre := by
  have e1 : pre ++ m ++ ';' :: e ++ ',' :: p = (pre ++ m) ++ ';' :: (e ++ ',' :: p) := by
    simp [List.append_assoc]
  have e2 : pre ++ m ++ ';' :: e ++ ',' :: p = (pre ++ m ++ ';' :: e) ++ ',' :: p := rfl
  have e3 : pre ++ m ++ ';' :: e ++ ',' :: p = pre ++ (m ++ ';' :: (e ++ ',' :: p)) := by
    simp [List.append_assoc]
  have e4 : pre ++ m ++ ';' :: e ++ ',' :: p = (pre ++ m ++ [';']) ++ (e ++ ',' :: p) := by
    simp [List.append_assoc]
  have e5 : pre ++ m ++ ';' :: e ++ ',' :: p = (pre ++ m ++ [';'] ++ e ++ [',']) ++ p := by
    simp [List.append_assoc]
  refine ⟨?_, ?_, ?_, ?_, ?_, ?_⟩
  · have := string_find_append (pre ++ m) (e ++ ',' :: p) ';' 5 (by simp [hpre])
      (by rw [← hpre, List.drop_left]; exact hm)
    rw [e1, this]; simp [hpre]
  · have := string_find_append (pre ++ m ++ ';' :: e) p ',' (5 + m.length) (by simp [hpre])
      (by
        have : 5 + m.length = (pre ++ m).length := by simp [hpre]
        rw [this, List.drop_left]
        simp [he])
    rw [e2, this]; simp [hpre]; omega
  · have h1 : 5 + m.length + 1 = (pre ++ m ++ [';']).length := by simp [hpre]; omega
    rw [e4, h1, List.drop_left]
    have h2 : (pre ++ m ++ [';']).length + e.length - (pre ++ m ++ [';']).length = e.length := by
      omega
    rw [h2, List.take_left]
  · have h1 : 5 + m.length + 1 + e.length + 1 = (pre ++ m ++ [';'] ++ e ++ [',']).length := by
      simp [hpre]; omega
    rw [e5, h1, List.drop_left]
  · rw [e3, ← hpre, List.drop_left]
    have : pre.length + m.length - pre.length = m.length := by omega
    rw [this, List.take_left]
  · rw [e3, ← hpre, List.take_left]

theorem uri_type_of_parts (decode : String → Except Err (List UInt8)) (value : String) (m e p : List Char)
    (hv : value.data = "data:".data ++ m ++ ';' :: e ++ ',' :: p)
    (hm : ';' ∉ m) (he : ',' ∉ e) :
    uri_type.uri_type decode value =
      if e = "base64".data then do
        let decoded ← decode (String.mk p)
        let mime ← uri_mime_type (String.mk m)
        pure (uri_type.data { value := decoded, mime_type := mime })
      else Except.ok (uri_type.external { path := value }) := by
  obtain ⟨h1, h2, h3, h4, h5, h6⟩ := uri_type_of_parts_aux "data:".data m e p rfl hm he
  rw [← hv] at h1 h2 h3 h4 h5 h6
  have hl : "data:".length = 5 := rfl
  unfold uri_type.uri_type
  simp only [hl, h6, h1, h2, h3, h4, h5, if_true]
  split
  · rfl
  · rfl

theorem uri_type_no_separator (decode : String → Except Err (List UInt8)) (value : String) (r : List Char)
    (hv : value.data = "data:".data ++ r) (hr : ';' ∉ r) :
    uri_type.uri_type decode value = Except.ok (uri_type.external { path := value }) := by
  have h1 : string_find value.data ';' 5 = none := by
    apply string_find_none
    rw [hv]
    have : 5 = "data:".data.length := rfl
    rw [this, List.drop_left]
    exact hr
  have hl : "data:".length = 5 := rfl
  unfold uri_type.uri_type
  simp only [hl, h1]
  split <;> rfl

theorem uri_type_no_comma (decode : String → Except Err (List UInt8)) (value : String) (m r : List Char)
    (hv : value.data = "data:".data ++ m ++ ';' :: r) (hm : ';' ∉ m) (hr : ',' ∉ r) :
    uri_type.uri_type decode value = Except.ok (uri_type.external { path := value }) := by
  have h1 : string_find value.data ';' 5 = some (5 + m.length) := by
    rw [hv]
    have := string_find_append ("data:".data ++ m) r ';' 5
      (by rw [List.length_append]; exact Nat.le_add_right 5 _)
      (by
        have : 5 = "data:".data.length := rfl
        rw [this, List.drop_left]; exact hm)
    have hl : ("data:".data ++ m).length = 5 + m.length := by
      rw [List.length_append]; rfl
    rw [this, hl]
  have h2 : string_find value.data ',' (5 + m.length) = none := by
    apply string_find_none
    rw [hv]
    have : 5 + m.length = ("data:".data ++ m).length := by
      rw [List.length_append]; rfl
    rw [this, List.drop_left]
    simp [hr]
  have hl : "data:".length = 5 := rfl
  unfold uri_type.uri_type
  simp only [hl, h1, h2]
  split <;> rfl

theorem data_uri_shape (m p : String) :
    ("data:" ++ m ++ ";base64," ++ p).data
      = "data:".data ++ m.data ++ ';' :: "base64".data ++ ',' :: p.data := by
  have : ";base64,".data = ';' :: "base64".data ++ [','] := rfl
  simp only [String.data_append, this, List.append_assoc, List.cons_append, List.nil_append]

theorem uri_type_base64 (decode : String → Except Err (List UInt8)) (m p : String) (hm : ';' ∉ m.data) :
    uri_type.uri_type decode ("data:" ++ m ++ ";base64," ++ p)
      = (do
          let decoded ← decode p
          let mime ← uri_mime_type m
          pure (uri_type.data { value := decoded, mime_type := mime })) := by
  rw [uri_type_of_parts decode _ m.data "base64".data p.data (data_uri_shape m p) hm (by decide)]
  rw [if_pos rfl]

/-- Claim C3. For every string that does not start with the literal `data:`
(the empty string, strings shorter than five characters and `DATA:` included),
constructing a `uri_type` yields the external variant whose path is the
string itself. -/
theorem uri_without_data_scheme_is_external (decode : String → Except Err (List UInt8)) (s : String)
    (h : ¬ "data:".data <+: s.data) :
    uri_type.uri_type decode s = Except.ok (uri_type.external { path := s }) := by
  unfold uri_type.uri_type
  have hl : "data:".length = 5 := rfl
  have : ¬ (s.data.take 5 = "data:".data) := by
    intro hc
    apply h
    rw [List.prefix_iff_eq_take]
    exact hc.symm
  simp only [hl, this, if_false]
  rfl

theorem uri_without_data_scheme_is_external_witness :
    uri_type.uri_type (fun _ => Except.ok []) "DATA:image/png;base64,AAAA"
      = Except.ok (uri_type.external { path := "DATA:image/png;base64,AAAA" }) :=
  uri_without_data_scheme_is_external (fun _ => Except.ok []) "DATA:image/png;base64,AAAA" (by decide)

/-- Claim C4. Round trip: provided `decode (encode b)` returns `b`, for each of the
three MIME types `application/octet-stream`, `image/jpeg`, `image/png` and
every byte string `b`, constructing a `uri_type` from `data:` + mime +
`;base64,` + `encode b` yields the data variant whose value is `b` and whose
`mime_type` is the enumerator of that MIME type. -/
theorem uri_data_round_trip (encode : List UInt8 → String)
    (decode : String → Except Err (List UInt8))
    (hcodec : ∀ b, decode (encode b) = Except.ok b) (b : List UInt8) :
    uri_type.uri_type decode ("data:" ++ "application/octet-stream" ++ ";base64," ++ encode b)
        = Except.ok (uri_type.data
            { value := b, mime_type := uri_type.mime_type_type.application_octet_stream })
    ∧ uri_type.uri_type decode ("data:" ++ "image/jpeg" ++ ";base64," ++ encode b)
        = Except.ok (uri_type.data { value := b, mime_type := uri_type.mime_type_type.image_jpeg })
    ∧ uri_type.uri_type decode ("data:" ++ "image/png" ++ ";base64," ++ encode b)
        = Except.ok (uri_type.data { value := b, mime_type := uri_type.mime_type_type.image_png }) := by
  refine ⟨?_, ?_, ?_⟩
  · rw [uri_type_base64 decode _ _ (by decide), hcodec]; rfl
  · rw [uri_type_base64 decode _ _ (by decide), hcodec]; rfl
  · rw [uri_type_base64 decode _ _ (by decide), hcodec]; rfl

theorem byte_char_round_trip (x : UInt8) : UInt8.ofNat (Char.ofNat x.toNat).toNat = x := by
  have h : x.toNat < 256 := UInt8.toNat_lt x
  have hv : (x.toNat).isValidChar := by
    left; omega
  have hc : (Char.ofNat x.toNat).toNat = x.toNat := by
    simp only [Char.ofNat, hv, Char.toNat, Char.ofNatAux, dif_pos]
    rfl
  rw [hc]
  apply UInt8.ext
  have h2 : (UInt8.ofNat x.toNat).toNat = x.toNat % 256 := by
    simp only [UInt8.ofNat, UInt8.toNat, BitVec.toNat_ofNat]
  rw [h2]; omega

theorem latin1_round_trip (b : List UInt8) : latin1_decode (latin1_encode b) = b := by
  unfold latin1_decode latin1_encode
  induction b with
  | nil => rfl
  | cons x xs ih =>
    simp only [List.map_cons, List.cons.injEq]
    exact ⟨byte_char_round_trip x, ih⟩

theorem uri_data_round_trip_witness :
    uri_type.uri_type (fun s => Except.ok (latin1_decode s))
        ("data:" ++ "image/jpeg" ++ ";base64," ++ latin1_encode [72, 105])
      = Except.ok (uri_type.data
          { value := [72, 105], mime_type := uri_type.mime_type_type.image_jpeg }) :=
  (uri_data_round_trip latin1_encode (fun s => Except.ok (latin1_decode s))
    (fun b => congrArg Except.ok (latin1_round_trip b)) [72, 105]).2.1

/-- Claim C6. For every string `data:` + m + `;` + e + `,` + p in which that
semicolon is the first after the scheme (`m` has none), that comma is the
first after it (`e` has none) and `e` is not `base64`, constructing a
`uri_type` does not fail and yields the external variant whose path is the
whole string, whatever `m` is. -/
theorem uri_unknown_encoding_is_external (decode : String → Except Err (List UInt8)) (m e p : String)
    (hm : ';' ∉ m.data) (he : ',' ∉ e.data) (hne : e ≠ "base64") :
    uri_type.uri_type decode ("data:" ++ m ++ ";" ++ e ++ "," ++ p)
      = Except.ok (uri_type.external { path := "data:" ++ m ++ ";" ++ e ++ "," ++ p }) := by
  have hv : ("data:" ++ m ++ ";" ++ e ++ "," ++ p).data
      = "data:".data ++ m.data ++ ';' :: e.data ++ ',' :: p.data := by
    have h1 : ";".data = [';'] := rfl
    have h2 : ",".data = [','] := rfl
    simp only [String.data_append, h1, h2, List.append_assoc, List.cons_append, List.nil_append]
  rw [uri_type_of_parts decode _ m.data e.data p.data hv hm he]
  have : ¬ (e.data = "base64".data) := by
    intro hc
    apply hne
    exact String.ext hc
  rw [if_neg this]

theorem uri_unknown_encoding_is_external_witness :
    uri_type.uri_type (fun _ => Except.ok []) ("data:" ++ "external" ++ ";" ++ "base32" ++ "," ++ "")
      = Except.ok (uri_type.external
          { path := "data:" ++ "external" ++ ";" ++ "base32" ++ "," ++ "" }) :=
  uri_unknown_encoding_is_external (fun _ => Except.ok []) "external" "base32" "" (by decide) (by decide)
    (by decide)

/-- Claim C7. For every string that starts with `data:` and has no semicolon
after it, and for every string `data:` + m + `;` + r with no semicolon in `m`
and no comma in `r`, constructing a `uri_type` yields the external variant
whose path is the whole string. -/
theorem uri_incomplete_data_is_external (decode : String → Except Err (List UInt8)) :
    (∀ r : String, ';' ∉ r.data →
      uri_type.uri_type decode ("data:" ++ r)
        = Except.ok (uri_type.external { path := "data:" ++ r }))
    ∧ (∀ m r : String, ';' ∉ m.data → ',' ∉ r.data →
      uri_type.uri_type decode ("data:" ++ m ++ ";" ++ r)
        = Except.ok (uri_type.external { path := "data:" ++ m ++ ";" ++ r })) := by
  constructor
  · intro r hr
    exact uri_type_no_separator decode _ r.data (by simp only [String.data_append]) hr
  · intro m r hm hr
    have h1 : ";".data = [';'] := rfl
    exact uri_type_no_comma decode _ m.data r.data
      (by simp only [String.data_append, h1, List.append_assoc, List.cons_append,
        List.nil_append]) hm hr

theorem uri_incomplete_data_is_external_witness :
    uri_type.uri_type (fun _ => Except.ok []) ("data:" ++ "external")
        = Except.ok (uri_type.external { path := "data:" ++ "external" })
    ∧ uri_type.uri_type (fun _ => Except.ok []) ("data:" ++ "image/png" ++ ";" ++ "base64")
        = Except.ok (uri_type.external { path := "data:" ++ "image/png" ++ ";" ++ "base64" }) :=
  ⟨(uri_incomplete_data_is_external (fun _ => Except.ok [])).1 "external" (by decide),
   (uri_incomplete_data_is_external (fun _ => Except.ok [])).2 "image/png" "base64" (by decide)
     (by decide)⟩

/-! ## `parse`: the minimal document -/

/-- Claim C8. Parsing the minimal document `{"asset":{"version":"2.0"}}`
with no binary chunk succeeds; in the model every sequence is empty, the
asset version is `2.0`, copyright, generator and minimum version are absent,
and there is no default scene. -/
theorem parse_minimal_document (decode : String → Except Err (List UInt8)) :
    ∃ m, parse decode { json := minimal_document, binary := none } = Except.ok m
      ∧ m.buffers = [] ∧ m.buffer_views = [] ∧ m.accessors = [] ∧ m.cameras = []
      ∧ m.images = [] ∧ m.materials = [] ∧ m.meshes = [] ∧ m.nodes = [] ∧ m.samplers = []
      ∧ m.scenes = [] ∧ m.skins = [] ∧ m.textures = [] ∧ m.animations = []
      ∧ m.extensions_used = [] ∧ m.extensions_required = []
      ∧ m.asset.version = "2.0" ∧ m.asset.copyright = none ∧ m.asset.generator = none
      ∧ m.asset.min_version = none ∧ m.scene = none :=
  ⟨_, rfl, rfl, rfl, rfl, rfl, rfl, rfl, rfl, rfl, rfl, rfl, rfl, rfl, rfl, rfl, rfl, rfl, rfl,
    rfl, rfl, rfl⟩

/-! ## `parse`: a buffer view with an index out of range -/

theorem wrapU_wrapS (x : Int) : wrapU 64 (wrapS 64 x) = wrapU 64 x := by
  unfold wrapU wrapS
  norm_num
  split <;> omega

theorem wrapU_of_lt (n : Nat) (h : n < 2 ^ 64) : wrapU 64 (n : Int) = n := by
  unfold wrapU
  norm_num at h ⊢
  omega

theorem wrapU_of_neg (i : Int) (h0 : -(2 ^ 63) ≤ i) (h1 : i < 0) : 2 ^ 63 ≤ wrapU 64 i := by
  unfold wrapU
  norm_num at h0 ⊢
  omega

theorem wrapU_of_nonneg (i : Int) (h0 : 0 ≤ i) (h1 : i < 2 ^ 63) : (wrapU 64 i : Int) = i := by
  unfold wrapU
  norm_num at h1 ⊢
  omega

theorem wrapU32_of_lt (n : Nat) (h : n < 2 ^ 32) : wrapU 32 (n : Int) = n := by
  unfold wrapU
  norm_num at h ⊢
  omega

theorem wrapS32_of_range (i : Int) (h0 : -(2 ^ 31) ≤ i) (h1 : i < 2 ^ 31) : wrapS 32 i = i := by
  unfold wrapS
  norm_num at h0 h1 ⊢
  split <;> omega

theorem index_out_of_range_fails {T : Type} (container : List T) (index : Json)
    (hlen : container.length < 2 ^ 63) (h : index_out_of_range container.length index) :
    index_to_iterator_json container index = Except.error (Err.out_of_range "container") := by
  cases index with
  | number_unsigned n =>
    obtain ⟨h1, h2⟩ := h
    have : ¬ (wrapU 64 (wrapS 64 (n : Int)) < container.length) := by
      rw [wrapU_wrapS, wrapU_of_lt n h1]; omega
    simp only [index_to_iterator_json, Json.get_int64, index_to_iterator, pure_bind_ok, this,
      if_false, throw_eq_error]
  | number_integer i =>
    obtain ⟨h1, h2, h3⟩ := h
    have : ¬ (wrapU 64 (wrapS 64 i) < container.length) := by
      rw [wrapU_wrapS]
      rcases h3 with h3 | h3
      · have := wrapU_of_neg i h1 h3
        omega
      · have := wrapU_of_nonneg i (by omega) h2
        omega
    simp only [index_to_iterator_json, Json.get_int64, index_to_iterator, pure_bind_ok, this,
      if_false, throw_eq_error]
  | null => cases h
  | boolean b => cases h
  | number_float d => cases h
  | string s => cases h
  | array xs => cases h
  | object ms => cases h

theorem subscript_of_find (j : Json) (key : String) (v : Json) (h : j.find key = some v) :
    j.subscript key = Except.ok v := by
  cases j <;> simp only [Json.find] at h <;> try cases h
  simp only [Json.subscript, h]
  rfl

theorem buffer_view_out_of_range (buffers : List buffer_type) (view index : Json)
    (hlen : buffers.length < 2 ^ 63) (hfind : view.find "buffer" = some index)
    (h : index_out_of_range buffers.length index) :
    parse.buffer_view buffers view = Except.error (Err.out_of_range "container") := by
  simp only [parse.buffer_view, subscript_of_find _ _ _ hfind, ok_bind,
    index_out_of_range_fails buffers index hlen h, error_bind]

theorem transform_error_at {α β : Type} (f : α → Except Err β) (x : α) (e : Err)
    (after : List α) (hx : f x = Except.error e) :
    ∀ before : List α, (∀ v ∈ before, ∃ r, f v = Except.ok r) →
      transform f (before ++ x :: after) = Except.error e := by
  intro before
  induction before with
  | nil =>
    intro _
    simp only [List.nil_append, transform, hx, error_bind]
  | cons b before ih =>
    intro h
    obtain ⟨r, hr⟩ := h b (List.mem_cons_self _ _)
    have := ih (fun v hv => h v (List.mem_cons_of_mem _ hv))
    show transform f (b :: (before ++ x :: after)) = Except.error e
    simp only [transform, hr, this, ok_bind, error_bind]

theorem transform_error_of_mem {α β : Type} (f : α → Except Err β) (x : α) (e : Err)
    (hx : f x = Except.error e) :
    ∀ xs : List α, x ∈ xs → ∃ e1, transform f xs = Except.error e1 := by
  intro xs
  induction xs with
  | nil => intro h; cases h
  | cons y ys ih =>
    intro h
    cases hy : f y with
    | error e1 => exact ⟨e1, by simp only [transform, hy, error_bind]⟩
    | ok r =>
      have hmem : x ∈ ys := by
        rcases List.mem_cons.mp h with rfl | h
        · rw [hx] at hy; cases hy
        · exact h
      obtain ⟨e1, he1⟩ := ih hmem
      exact ⟨e1, by simp only [transform, hy, he1, ok_bind, error_bind]⟩

theorem container_length {β : Type} (doc : Json) (f : Json → Except Err β) (ys : List β)
    (h : parse.container doc "buffers" f = Except.ok ys) : ys.length = buffers_count doc := by
  simp only [parse.container, optional_ref, bind_eq_ok, pure_eq_ok] at h
  obtain ⟨c, hc, rfl⟩ := h
  unfold buffers_count
  cases hf : doc.find "buffers" with
  | none =>
    rw [hf] at hc
    simp only [map, pure_eq_ok] at hc
    subst hc
    rfl
  | some b =>
    rw [hf] at hc
    simp only [map, bind_eq_ok, pure_eq_ok] at hc
    obtain ⟨l, hl, rfl⟩ := hc
    exact transform_ok_length _ _ _ hl

/-- Claim C9, as stated, fails: the second buffer view of `two_views_document`
refers to buffer 1 of one buffer, yet `parse` throws `std::invalid_argument`
for the first view, never reaches the second and so throws no
`std::out_of_range`. -/
theorem parse_out_of_range_buffer_view_other_error :
    out_of_range_buffer_view two_views_document
        (Json.object [("buffer", Json.number_unsigned 1), ("byteLength", Json.number_unsigned 1)])
    ∧ parse (fun _ => Except.ok []) { json := two_views_document, binary := none }
        = Except.error (Err.invalid_argument "bufferView target")
    ∧ ∀ what, parse (fun _ => Except.ok []) { json := two_views_document, binary := none }
        ≠ Except.error (Err.out_of_range what) := by
  refine ⟨⟨_, _, rfl, ?_, rfl, ?_⟩, rfl, ?_⟩
  · simp [Json.elems]
  · show (1 : Nat) < 2 ^ 64 ∧ buffers_count two_views_document ≤ 1
    exact ⟨by norm_num, by decide⟩
  · intro what hw
    have hp : parse (fun _ => Except.ok []) { json := two_views_document, binary := none }
        = Except.error (Err.invalid_argument "bufferView target") := rfl
    rw [hp] at hw
    cases hw

/-- Claim C9, amended. For every document (of fewer than `2 ^ 63` buffers)
with a buffer view whose `buffer` index is a JSON integer that is negative or
not below the number of `buffers`, `parse` throws and returns no model; the
exception is `std::out_of_range` whenever the extension lists, the buffers
and the buffer views before that one parse without throwing. -/
theorem parse_out_of_range_buffer_view (decode : String → Except Err (List UInt8)) (doc view : Json)
    (binary : Option (List UInt8)) (hcount : buffers_count doc < 2 ^ 63)
    (h : out_of_range_buffer_view doc view) :
    (∃ e, parse decode { json := doc, binary := binary } = Except.error e)
    ∧ ∀ (used required : List String) (buffers : List buffer_type) (views : Json)
        (before after : List Json),
        parse.extensions doc "extensionsUsed" = Except.ok used →
        parse.extensions doc "extensionsRequired" = Except.ok required →
        parse.container doc "buffers" (parse.buffer decode) = Except.ok buffers →
        doc.find "bufferViews" = some views → views.elems = before ++ view :: after →
        (∀ v ∈ before, ∃ r, parse.buffer_view buffers v = Except.ok r) →
        parse decode { json := doc, binary := binary }
          = Except.error (Err.out_of_range "container") := by
  obtain ⟨views, index, hviews, hmem, hfind, hidx⟩ := h
  constructor
  · cases h1 : parse.extensions doc "extensionsUsed" with
    | error e => exact ⟨e, by simp only [parse, h1, error_bind]⟩
    | ok used =>
      cases h2 : parse.extensions doc "extensionsRequired" with
      | error e => exact ⟨e, by simp only [parse, h1, h2, ok_bind, error_bind]⟩
      | ok required =>
        cases h3 : parse.container doc "buffers" (parse.buffer decode) with
        | error e => exact ⟨e, by simp only [parse, h1, h2, h3, ok_bind, error_bind]⟩
        | ok buffers =>
          have hlen := container_length doc _ _ h3
          have hv := buffer_view_out_of_range buffers view index (by omega) hfind
            (by rw [hlen]; exact hidx)
          obtain ⟨e, he⟩ := transform_error_of_mem _ _ _ hv _ hmem
          refine ⟨e, ?_⟩
          have h4 : parse.container doc "bufferViews" (parse.buffer_view buffers)
              = Except.error e := by
            simp only [parse.container, optional_ref, hviews, map,
              transform_json_array_to_container, he, error_bind]
          simp only [parse, h1, h2, h3, h4, ok_bind, error_bind]
  · intro used required buffers views1 before after h1 h2 h3 hviews1 hsplit hbefore
    rw [hviews] at hviews1
    cases hviews1
    have hlen := container_length doc _ _ h3
    have hv := buffer_view_out_of_range buffers view index (by omega) hfind
      (by rw [hlen]; exact hidx)
    have he := transform_error_at _ _ _ after hv before hbefore
    have h4 : parse.container doc "bufferViews" (parse.buffer_view buffers)
        = Except.error (Err.out_of_range "container") := by
      simp only [parse.container, optional_ref, hviews, map,
        transform_json_array_to_container, hsplit, he, error_bind]
    simp only [parse, h1, h2, h3, h4, ok_bind, error_bind]

theorem parse_out_of_range_buffer_view_witness :
    (∃ e, parse (fun _ => Except.ok []) { json := dangling_view_document, binary := none }
      = Except.error e)
    ∧ parse (fun _ => Except.ok []) { json := dangling_view_document, binary := none }
      = Except.error (Err.out_of_range "container") :=
  have h := parse_out_of_range_buffer_view (fun _ => Except.ok []) dangling_view_document
    (Json.object [("buffer", Json.number_unsigned 0), ("byteLength", Json.number_unsigned 1)])
    none (by decide)
    ⟨_, _, rfl, by simp [Json.elems], rfl,
      (show (0 : Nat) < 2 ^ 64 ∧ buffers_count dangling_view_document ≤ 0 from
        ⟨by norm_num, by decide⟩)⟩
  ⟨h.1, h.2 [] [] [] _ [] [] rfl rfl rfl rfl rfl (by simp)⟩

/-! ## `parse`: every reference is in bounds -/

theorem index_to_iterator_lt {T : Type} (container : List T) (index : Int) (n : Nat)
    (h : index_to_iterator container index = Except.ok n) : n < container.length := by
  unfold index_to_iterator at h
  split at h
  · rename_i hlt
    simp only [pure_eq_ok] at h
    omega
  · cases h

theorem index_to_iterator_json_lt {T : Type} (container : List T) (index : Json) (n : Nat)
    (h : index_to_iterator_json container index = Except.ok n) : n < container.length := by
  simp only [index_to_iterator_json, bind_eq_ok] at h
  obtain ⟨i, _, hi⟩ := h
  exact index_to_iterator_lt container i n hi

theorem optional_index_to_iterator_in_bounds {T : Type} (json : Json) (field : String)
    (container : List T) (r : Option Nat)
    (h : optional_index_to_iterator json field container = Except.ok r) :
    ref_in_bounds container.length r := by
  simp only [optional_index_to_iterator, bind_eq_ok] at h
  obtain ⟨o, _, ho⟩ := h
  intro i hi
  obtain ⟨x, _, hx⟩ := map_eq_ok o _ r ho i hi
  exact index_to_iterator_lt container x i hx

theorem buffer_view_in_bounds (buffers : List buffer_type) (j : Json) (v : buffer_view_type)
    (h : parse.buffer_view buffers j = Except.ok v) : v.in_bounds buffers.length := by
  simp only [parse.buffer_view, bind_eq_ok, pure_eq_ok] at h
  obtain ⟨_, _, b, hb, _, _, _, _, _, _, _, _, _, _, _, _, _, _, _, _, _, _, rfl⟩ := h
  exact index_to_iterator_json_lt buffers _ _ hb

theorem container_ok_mem {β : Type} (json : Json) (key : String) (f : Json → Except Err β)
    (ys : List β) (h : parse.container json key f = Except.ok ys) :
    ∀ y ∈ ys, ∃ x, f x = Except.ok y := by
  simp only [parse.container, bind_eq_ok, pure_eq_ok] at h
  obtain ⟨c, hc, rfl⟩ := h
  intro y hy
  cases c with
  | none => simp at hy
  | some l =>
    obtain ⟨array, _, ha⟩ := map_eq_ok _ _ _ hc l rfl
    obtain ⟨x, _, hx⟩ := transform_ok_mem f _ _ ha y hy
    exact ⟨x, hx⟩

theorem zip_foreach_ok {α β : Type} (f : α → β → Except Err β) (P Q : β → Prop)
    (hf : ∀ x y y1, P y → f x y = Except.ok y1 → Q y1) (hPQ : ∀ y, P y → Q y) :
    ∀ (xs : List α) (seq seq1 : List β), zip_foreach f xs seq = Except.ok seq1 →
      (∀ y ∈ seq, P y) → (∀ y ∈ seq1, Q y) ∧ seq1.length = seq.length := by
  intro xs
  induction xs with
  | nil =>
    intro seq seq1 h hP
    simp only [zip_foreach, pure_eq_ok] at h
    subst h
    exact ⟨fun y hy => hPQ y (hP y hy), rfl⟩
  | cons x xs ih =>
    intro seq seq1 h hP
    cases seq with
    | nil => simp [zip_foreach, throw, throwThe, MonadExceptOf.throw] at h
    | cons y seq =>
      simp only [zip_foreach, bind_eq_ok, pure_eq_ok] at h
      obtain ⟨y1, hy1, rest, hrest, rfl⟩ := h
      obtain ⟨hQ, hlen⟩ := ih seq rest hrest (fun z hz => hP z (List.mem_cons_of_mem _ hz))
      refine ⟨?_, by simp [hlen]⟩
      intro z hz
      rcases List.mem_cons.mp hz with rfl | hz
      · exact hf x y z (hP y (List.mem_cons_self _ _)) hy1
      · exact hQ z hz

theorem patch_ok {β : Type} (json : Json) (key : String) (f : Json → β → Except Err β)
    (P Q : β → Prop) (hf : ∀ x y y1, P y → f x y = Except.ok y1 → Q y1) (hPQ : ∀ y, P y → Q y)
    (seq seq1 : List β) (h : parse.patch json key f seq = Except.ok seq1)
    (hP : ∀ y ∈ seq, P y) : (∀ y ∈ seq1, Q y) ∧ seq1.length = seq.length := by
  unfold parse.patch at h
  split at h
  · exact zip_foreach_ok f P Q hf hPQ _ _ _ h hP
  · simp only [pure_eq_ok] at h
    subst h
    exact ⟨fun y hy => hPQ y (hP y hy), rfl⟩

theorem accessor_in_bounds (buffer_views : List buffer_view_type) (j : Json) (a : accessor_type)
    (h : parse.accessor buffer_views j = Except.ok a) : a.in_bounds buffer_views.length := by
  simp only [parse.accessor, bind_eq_ok, pure_eq_ok] at h
  obtain ⟨bv, hbv, h⟩ := h
  repeat (obtain ⟨_, _, h⟩ := h)
  exact optional_index_to_iterator_in_bounds _ _ _ _ hbv

theorem image_in_bounds (decode : String → Except Err (List UInt8)) (buffer_views : List buffer_view_type)
    (j : Json) (i : image_type) (h : parse.image decode buffer_views j = Except.ok i) :
    i.in_bounds buffer_views.length := by
  simp only [parse.image, bind_eq_ok, pure_eq_ok] at h
  obtain ⟨_, _, uri, _, bv, hbv, _, _, mime, _, _, _, _, _, _, _, h⟩ := h
  have hb := optional_index_to_iterator_in_bounds _ _ _ _ hbv
  intro k hk
  cases uri with
  | some u =>
    simp only [pure_eq_ok] at h
    subst h
    cases hk
  | none =>
    cases bv with
    | none => cases h
    | some b =>
      simp only at h
      split at h
      · cases h
      · simp only [pure_eq_ok] at h
        subst h
        cases hk
        exact hb _ rfl

theorem texture_in_bounds (samplers : List sampler_type) (images : List image_type)
    (j : Json) (t : texture_type) (h : parse.texture samplers images j = Except.ok t) :
    t.in_bounds samplers.length images.length := by
  simp only [parse.texture, bind_eq_ok, pure_eq_ok] at h
  obtain ⟨s, hs, i, hi, h⟩ := h
  repeat (obtain ⟨_, _, h⟩ := h)
  exact ⟨optional_index_to_iterator_in_bounds _ _ _ _ hs,
    optional_index_to_iterator_in_bounds _ _ _ _ hi⟩

theorem texture_info_in_bounds (textures : List texture_type) (j : Json)
    (t : texture_info_type) (h : parse.texture_info textures j = Except.ok t) :
    t.index < textures.length := by
  simp only [parse.texture_info, bind_eq_ok, pure_eq_ok] at h
  obtain ⟨_, _, i, hi, h⟩ := h
  repeat (obtain ⟨_, _, h⟩ := h)
  exact index_to_iterator_json_lt _ _ _ hi

theorem normal_texture_info_in_bounds (textures : List texture_type) (j : Json)
    (t : normal_texture_info_type) (h : parse.normal_texture_info textures j = Except.ok t) :
    t.index < textures.length := by
  simp only [parse.normal_texture_info, bind_eq_ok, pure_eq_ok] at h
  obtain ⟨_, _, i, hi, h⟩ := h
  repeat (obtain ⟨_, _, h⟩ := h)
  exact index_to_iterator_json_lt _ _ _ hi

theorem occlusion_texture_info_in_bounds (textures : List texture_type) (j : Json)
    (t : occlusion_texture_info_type)
    (h : parse.occlusion_texture_info textures j = Except.ok t) :
    t.index < textures.length := by
  simp only [parse.occlusion_texture_info, bind_eq_ok, pure_eq_ok] at h
  obtain ⟨_, _, i, hi, h⟩ := h
  repeat (obtain ⟨_, _, h⟩ := h)
  exact index_to_iterator_json_lt _ _ _ hi

theorem pbr_in_bounds (textures : List texture_type) (j : Json)
    (p : material_type.pbr_metallic_roughness_type)
    (h : parse.pbr_metallic_roughness textures j = Except.ok p) :
    (∀ t, p.base_color_texture = some t → t.index < textures.length)
    ∧ (∀ t, p.metallic_roughness_texture = some t → t.index < textures.length) := by
  simp only [parse.pbr_metallic_roughness, bind_eq_ok, pure_eq_ok] at h
  obtain ⟨_, _, b, hb, _, _, _, _, m, hm, h⟩ := h
  repeat (obtain ⟨_, _, h⟩ := h)
  constructor
  · intro t ht
    obtain ⟨x, _, hx⟩ := map_eq_ok _ _ _ hb t ht
    exact texture_info_in_bounds _ _ _ hx
  · intro t ht
    obtain ⟨x, _, hx⟩ := map_eq_ok _ _ _ hm t ht
    exact texture_info_in_bounds _ _ _ hx

theorem material_in_bounds (textures : List texture_type) (j : Json) (m : material_type)
    (h : parse.material textures j = Except.ok m) : m.in_bounds textures.length := by
  simp only [parse.material, bind_eq_ok, pure_eq_ok] at h
  obtain ⟨pbr, hpbr, _, _, _, _, _, _, n, hn, o, ho, e, he, h⟩ := h
  repeat (obtain ⟨_, _, h⟩ := h)
  refine ⟨?_, ?_, ?_, ?_, ?_⟩
  · intro t ht
    cases pbr with
    | none => cases ht
    | some p =>
      obtain ⟨x, _, hx⟩ := map_eq_ok _ _ _ hpbr p rfl
      exact (pbr_in_bounds _ _ _ hx).1 t ht
  · intro t ht
    cases pbr with
    | none => cases ht
    | some p =>
      obtain ⟨x, _, hx⟩ := map_eq_ok _ _ _ hpbr p rfl
      exact (pbr_in_bounds _ _ _ hx).2 t ht
  · intro t ht
    obtain ⟨x, _, hx⟩ := map_eq_ok _ _ _ hn t ht
    exact normal_texture_info_in_bounds _ _ _ hx
  · intro t ht
    obtain ⟨x, _, hx⟩ := map_eq_ok _ _ _ ho t ht
    exact occlusion_texture_info_in_bounds _ _ _ hx
  · intro t ht
    obtain ⟨x, _, hx⟩ := map_eq_ok _ _ _ he t ht
    exact texture_info_in_bounds _ _ _ hx

theorem emplace_mem {K V : Type} (val : K → Nat) (m : map_type K V) (k : K) (v : V) :
    ∀ e ∈ map_type.emplace val m k v, e ∈ m ∨ e = (k, v) := by
  induction m with
  | nil =>
    intro e he
    simp only [map_type.emplace, List.mem_singleton] at he
    exact Or.inr he
  | cons kv rest ih =>
    obtain ⟨k0, v0⟩ := kv
    intro e he
    simp only [map_type.emplace] at he
    split at he
    · rcases List.mem_cons.mp he with rfl | he
      · exact Or.inr rfl
      · exact Or.inl he
    · split at he
      · exact Or.inl he
      · rcases List.mem_cons.mp he with rfl | he
        · exact Or.inl (List.mem_cons_self _ _)
        · rcases ih e he with h | h
          · exact Or.inl (List.mem_cons_of_mem _ h)
          · exact Or.inr h

theorem attributes_in_bounds (accessors : List accessor_type) :
    ∀ (items : List (Option String × Json)) (m0 m : map_type attribute_type Nat),
      parse.attributes accessors items m0 = Except.ok m →
      (∀ e ∈ m0, e.2 < accessors.length) → ∀ e ∈ m, e.2 < accessors.length := by
  intro items
  induction items with
  | nil =>
    intro m0 m h h0
    simp only [parse.attributes, pure_eq_ok] at h
    subst h
    exact h0
  | cons kv rest ih =>
    obtain ⟨k, v⟩ := kv
    intro m0 m h h0
    simp only [parse.attributes, bind_eq_ok] at h
    obtain ⟨_, _, a, _, it, hit, h⟩ := h
    apply ih _ _ h
    intro e he
    rcases emplace_mem _ _ _ _ e he with h1 | h1
    · exact h0 e h1
    · subst h1
      exact index_to_iterator_json_lt _ _ _ hit

theorem targets_in_bounds (accessors : List accessor_type) :
    ∀ (items : List (Option String × Json))
      (m0 m : map_type primitive_type.morph_target_attribute_type Nat),
      parse.targets accessors items m0 = Except.ok m →
      (∀ e ∈ m0, e.2 < accessors.length) → ∀ e ∈ m, e.2 < accessors.length := by
  intro items
  induction items with
  | nil =>
    intro m0 m h h0
    simp only [parse.targets, pure_eq_ok] at h
    subst h
    exact h0
  | cons kv rest ih =>
    obtain ⟨k, v⟩ := kv
    intro m0 m h h0
    simp only [parse.targets, bind_eq_ok] at h
    obtain ⟨_, _, a, _, it, hit, h⟩ := h
    apply ih _ _ h
    intro e he
    rcases emplace_mem _ _ _ _ e he with h1 | h1
    · exact h0 e h1
    · subst h1
      exact index_to_iterator_json_lt _ _ _ hit

theorem primitive_in_bounds (accessors : List accessor_type) (materials : List material_type)
    (mesh j : Json) (p : primitive_type)
    (h : parse.primitive accessors materials mesh j = Except.ok p) :
    p.in_bounds accessors.length materials.length := by
  simp only [parse.primitive, bind_eq_ok, pure_eq_ok] at h
  obtain ⟨_, _, attrs, hattrs, targets, htargets, indices, hindices, material, hmaterial, h⟩ := h
  repeat (obtain ⟨_, _, h⟩ := h)
  refine ⟨?_, ?_, ?_, ?_⟩
  · exact attributes_in_bounds _ _ _ _ hattrs (by simp)
  · exact optional_index_to_iterator_in_bounds _ _ _ _ hindices
  · exact optional_index_to_iterator_in_bounds _ _ _ _ hmaterial
  · intro e he
    cases targets with
    | none => simp at he
    | some t =>
      obtain ⟨x, _, hx⟩ := map_eq_ok _ _ _ htargets t rfl
      exact targets_in_bounds _ _ _ _ hx (by simp) e he

theorem mesh_in_bounds (accessors : List accessor_type) (materials : List material_type)
    (j : Json) (m : mesh_type) (h : parse.mesh accessors materials j = Except.ok m) :
    m.in_bounds accessors.length materials.length := by
  simp only [parse.mesh, transform_json_array_to_container, bind_eq_ok, pure_eq_ok] at h
  obtain ⟨_, _, ps, hps, h⟩ := h
  repeat (obtain ⟨_, _, h⟩ := h)
  intro p hp
  obtain ⟨x, _, hx⟩ := transform_ok_mem _ _ _ hps p hp
  exact primitive_in_bounds _ _ _ _ _ hx

theorem skin_first_pass_ok (accessors : List accessor_type) (j : Json) (s : skin_type)
    (h : parse.skin accessors j = Except.ok s) : skin_first_pass accessors.length s := by
  simp only [parse.skin, bind_eq_ok, pure_eq_ok] at h
  obtain ⟨i, hi, h⟩ := h
  repeat (obtain ⟨_, _, h⟩ := h)
  exact ⟨optional_index_to_iterator_in_bounds _ _ _ _ hi, rfl, rfl⟩

theorem indices_in_bounds {T : Type} (container : List T) (array : Json) (l : List Nat)
    (h : transform_json_array_to_container array (index_to_iterator_json container)
      = Except.ok l) : ∀ i ∈ l, i < container.length := by
  intro i hi
  obtain ⟨x, _, hx⟩ := transform_ok_mem _ _ _ h i hi
  exact index_to_iterator_json_lt _ _ _ hx

theorem skin_second_pass (accessors : Nat) (nodes : List node_type) (j : Json)
    (s s1 : skin_type) (hs : skin_first_pass accessors s)
    (h : parse.skin_joints nodes j s = Except.ok s1) :
    s1.in_bounds accessors nodes.length := by
  simp only [parse.skin_joints, bind_eq_ok, pure_eq_ok] at h
  obtain ⟨sk, hsk, _, _, joints, hjoints, rfl⟩ := h
  exact ⟨hs.1, optional_index_to_iterator_in_bounds _ _ _ _ hsk,
    indices_in_bounds _ _ _ hjoints⟩

theorem node_first_pass_ok (cameras : List camera_type) (skins : List skin_type)
    (meshes : List mesh_type) (j : Json) (n : node_type)
    (h : parse.node cameras skins meshes j = Except.ok n) :
    node_first_pass cameras.length skins.length meshes.length n := by
  simp only [parse.node, bind_eq_ok, pure_eq_ok] at h
  obtain ⟨_, _, _, _, _, _, _, _, c, hc, s, hs, m, hm, h⟩ := h
  repeat (obtain ⟨_, _, h⟩ := h)
  exact ⟨optional_index_to_iterator_in_bounds _ _ _ _ hc, rfl,
    optional_index_to_iterator_in_bounds _ _ _ _ hs,
    optional_index_to_iterator_in_bounds _ _ _ _ hm⟩

theorem node_second_pass (cameras skins meshes : Nat) (nodes : List node_type) (j : Json)
    (n n1 : node_type) (hn : node_first_pass cameras skins meshes n)
    (h : parse.node_children nodes j n = Except.ok n1) :
    n1.in_bounds cameras skins meshes nodes.length := by
  simp only [parse.node_children, bind_eq_ok, pure_eq_ok] at h
  obtain ⟨children, hchildren, rfl⟩ := h
  refine ⟨hn.1, ?_, hn.2.2.1, hn.2.2.2⟩
  intro c hc
  cases children with
  | none => simp at hc
  | some l =>
    obtain ⟨x, _, hx⟩ := map_eq_ok _ _ _ hchildren l rfl
    simp only [bind_eq_ok] at hx
    obtain ⟨_, _, hx⟩ := hx
    exact indices_in_bounds _ _ _ hx c hc

theorem animation_sampler_in_bounds (accessors : List accessor_type) (j : Json)
    (s : animation_sampler_type) (h : parse.animation_sampler accessors j = Except.ok s) :
    s.input < accessors.length ∧ s.output < accessors.length := by
  simp only [parse.animation_sampler, bind_eq_ok, pure_eq_ok] at h
  obtain ⟨_, _, i, hi, _, _, _, _, _, _, o, ho, h⟩ := h
  repeat (obtain ⟨_, _, h⟩ := h)
  exact ⟨index_to_iterator_json_lt _ _ _ hi, index_to_iterator_json_lt _ _ _ ho⟩

theorem channel_in_bounds (samplers : List animation_sampler_type) (nodes : List node_type)
    (j : Json) (c : channel_type) (h : parse.channel samplers nodes j = Except.ok c) :
    c.sampler < samplers.length ∧ ref_in_bounds nodes.length c.target.node := by
  simp only [parse.channel, bind_eq_ok, pure_eq_ok] at h
  obtain ⟨_, _, _, _, s, hs, n, hn, h⟩ := h
  repeat (obtain ⟨_, _, h⟩ := h)
  exact ⟨index_to_iterator_json_lt _ _ _ hs, optional_index_to_iterator_in_bounds _ _ _ _ hn⟩

theorem animation_in_bounds (accessors : List accessor_type) (nodes : List node_type)
    (j : Json) (a : animation_type) (h : parse.animation accessors nodes j = Except.ok a) :
    a.in_bounds accessors.length nodes.length := by
  simp only [parse.animation, transform_json_array_to_container, bind_eq_ok, pure_eq_ok] at h
  obtain ⟨_, _, ss, hss, _, _, cs, hcs, h⟩ := h
  repeat (obtain ⟨_, _, h⟩ := h)
  constructor
  · intro s hs
    obtain ⟨x, _, hx⟩ := transform_ok_mem _ _ _ hss s hs
    exact animation_sampler_in_bounds _ _ _ hx
  · intro c hc
    obtain ⟨x, _, hx⟩ := transform_ok_mem _ _ _ hcs c hc
    exact channel_in_bounds _ _ _ _ hx

theorem scene_in_bounds (nodes : List node_type) (j : Json) (s : scene_type)
    (h : parse.scene nodes j = Except.ok s) : s.in_bounds nodes.length := by
  simp only [parse.scene, bind_eq_ok, pure_eq_ok] at h
  obtain ⟨ns, hns, h⟩ := h
  repeat (obtain ⟨_, _, h⟩ := h)
  intro l hl n hn
  obtain ⟨x, _, hx⟩ := map_eq_ok _ _ _ hns l hl
  exact indices_in_bounds _ _ _ hx n hn

/-- Claim C10. Referential integrity: whenever `parse` succeeds, every
resolved reference of the returned model (buffer view to buffer, accessor and
image to buffer view, texture to sampler and image, material texture infos to
textures, primitive attributes, indices and targets to accessors, primitive
to material, skin to accessor and nodes, node to camera, skin, mesh and
children, animation samplers to accessors, channels to their sampler and
node, scenes to nodes, the default scene) is a position strictly below the
length of the sequence it refers to. -/
theorem parse_references_in_bounds (decode : String → Except Err (List UInt8)) (format : format_type)
    (m : model_type) (h : parse decode format = Except.ok m) : m.references_in_bounds := by
  simp only [parse, bind_eq_ok, pure_eq_ok] at h
  obtain ⟨_, _, _, _, buffers, _, buffer_views, hbv, accessors, hacc, cameras, _,
    samplers, _, images, himg, textures, htex, materials, hmat, meshes, hmesh,
    skins0, hskins0, nodes0, hnodes0, nodes, hnodes, skins, hskins, animations, hanim,
    scenes, hscenes, _, _, scene, hscene, h⟩ := h
  repeat (obtain ⟨_, _, h⟩ := h)
  obtain ⟨hn, hnlen⟩ := patch_ok _ _ _
    (node_first_pass cameras.length skins0.length meshes.length)
    (node_type.in_bounds cameras.length skins0.length meshes.length nodes0.length)
    (fun x y y1 hy hf => node_second_pass _ _ _ _ x y y1 hy hf)
    (fun y hy => by
      refine ⟨hy.1, ?_, hy.2.2.1, hy.2.2.2⟩
      rw [hy.2.1]; simp)
    nodes0 nodes hnodes
    (fun y hy => by
      obtain ⟨x, hx⟩ := container_ok_mem _ _ _ _ hnodes0 y hy
      exact node_first_pass_ok _ _ _ _ _ hx)
  obtain ⟨hs, hslen⟩ := patch_ok _ _ _ (skin_first_pass accessors.length)
    (skin_type.in_bounds accessors.length nodes.length)
    (fun x y y1 hy hf => skin_second_pass _ _ x y y1 hy hf)
    (fun y hy => by
      refine ⟨hy.1, ?_, ?_⟩
      · rw [hy.2.1]; intro i hi; cases hi
      · rw [hy.2.2]; simp)
    skins0 skins hskins
    (fun y hy => by
      obtain ⟨x, hx⟩ := container_ok_mem _ _ _ _ hskins0 y hy
      exact skin_first_pass_ok _ _ _ hx)
  refine ⟨?_, ?_, ?_, ?_, ?_, ?_, ?_, ?_, ?_, ?_, ?_⟩
  · intro v hv
    obtain ⟨x, hx⟩ := container_ok_mem _ _ _ _ hbv v hv
    exact buffer_view_in_bounds _ _ _ hx
  · intro a ha
    obtain ⟨x, hx⟩ := container_ok_mem _ _ _ _ hacc a ha
    exact accessor_in_bounds _ _ _ hx
  · intro i hi
    obtain ⟨x, hx⟩ := container_ok_mem _ _ _ _ himg i hi
    exact image_in_bounds _ _ _ _ hx
  · intro t ht
    obtain ⟨x, hx⟩ := container_ok_mem _ _ _ _ htex t ht
    exact texture_in_bounds _ _ _ _ hx
  · intro t ht
    obtain ⟨x, hx⟩ := container_ok_mem _ _ _ _ hmat t ht
    exact material_in_bounds _ _ _ hx
  · intro t ht
    obtain ⟨x, hx⟩ := container_ok_mem _ _ _ _ hmesh t ht
    exact mesh_in_bounds _ _ _ _ hx
  · exact hs
  · intro n hn1
    have := hn n hn1
    show node_type.in_bounds cameras.length skins.length meshes.length nodes.length n
    rw [hslen, hnlen]
    exact this
  · intro a ha
    obtain ⟨x, hx⟩ := container_ok_mem _ _ _ _ hanim a ha
    exact animation_in_bounds _ _ _ _ hx
  · intro s hs1
    obtain ⟨x, hx⟩ := container_ok_mem _ _ _ _ hscenes s hs1
    exact scene_in_bounds _ _ _ hx
  · exact optional_index_to_iterator_in_bounds _ _ _ _ hscene

theorem parse_references_in_bounds_witness :
    ∃ m, parse (fun _ => Except.ok []) { json := scene_document, binary := none } = Except.ok m
      ∧ m.references_in_bounds ∧ m.nodes.length = 2 :=
  ⟨_, rfl, parse_references_in_bounds (fun _ => Except.ok []) { json := scene_document, binary := none }
    _ rfl, rfl⟩

/-! ## `component_type_from_json` and the accessors -/

theorem error_of_not_ok {α : Type} (r : Except Err α) (h : ∀ a, r ≠ Except.ok a) :
    ∃ e, r = Except.error e := by
  cases r with
  | error e => exact ⟨e, rfl⟩
  | ok a => exact absurd rfl (h a)

theorem transform_ok_all {α β : Type} (f : α → Except Err β) :
    ∀ (xs : List α) (ys : List β), transform f xs = Except.ok ys →
      ∀ x ∈ xs, ∃ y, f x = Except.ok y := by
  intro xs
  induction xs with
  | nil => intro ys _ x hx; cases hx
  | cons x0 xs ih =>
    intro ys h x hx
    simp only [transform, bind_eq_ok, pure_eq_ok] at h
    obtain ⟨y0, h0, ys0, h1, _⟩ := h
    rcases List.mem_cons.mp hx with rfl | hx
    · exact ⟨y0, h0⟩
    · exact ih ys0 h1 x hx

theorem container_ok_all {β : Type} (json : Json) (key : String) (f : Json → Except Err β)
    (ys : List β) (array : Json) (h : parse.container json key f = Except.ok ys)
    (hfind : json.find key = some array) : ∀ x ∈ array.elems, ∃ y, f x = Except.ok y := by
  simp only [parse.container, optional_ref, hfind, map, transform_json_array_to_container,
    bind_eq_ok, pure_eq_ok] at h
  obtain ⟨_, ⟨l, hl, _⟩, _⟩ := h
  exact transform_ok_all f _ _ hl

theorem accessor_component_type_fails (buffer_views : List buffer_view_type)
    (accessor value : Json) (v : Int)
    (hfind : accessor.find "componentType" = some value)
    (hv : value.get_int32 = Except.ok v)
    (hbad : ∀ t, component_type_from_json v ≠ Except.ok t) :
    ∀ a, parse.accessor buffer_views accessor ≠ Except.ok a := by
  intro a h
  simp only [parse.accessor, bind_eq_ok, pure_eq_ok] at h
  obtain ⟨_, _, _, _, c, hc, i, hi, t, ht, _⟩ := h
  rw [subscript_of_find _ _ _ hfind] at hc
  cases hc
  rw [hv] at hi
  cases hi
  exact hbad t ht

/-- Claim C11, as stated, fails: 4294972422 is none of the six codes, and
the document whose accessor has that `componentType` is parsed, with the
component type `FLOAT`. The JSON library converts the number to
`integer_type` by a cast before `component_type_from_json` sees it, and
4294972422 is 5126 modulo `2 ^ 32`. -/
theorem parse_component_type_narrowed :
    ¬ ((4294972422 : Int) = 5120 ∨ (4294972422 : Int) = 5121 ∨ (4294972422 : Int) = 5122
        ∨ (4294972422 : Int) = 5123 ∨ (4294972422 : Int) = 5125 ∨ (4294972422 : Int) = 5126)
    ∧ Json.get_int32 (Json.number_unsigned 4294972422) = Except.ok 5126
    ∧ ∃ m, parse (fun _ => Except.ok [])
        { json := Json.object [
            ("accessors", Json.array [
              Json.object [("componentType", Json.number_unsigned 4294972422),
                           ("count", Json.number_unsigned 1),
                           ("type", Json.string "SCALAR")]]),
            ("asset", Json.object [("version", Json.string "2.0")])],
          binary := none } = Except.ok m
      ∧ m.accessors.map (fun a => a.component_type)
          = [accessor_type.component_type_type.FLOAT] :=
  ⟨by decide, rfl, _, rfl, rfl⟩

/-- Claim C11, amended. The function `component_type_from_json` returns the
enumerator whose numeric value is its argument exactly when the argument is
one of 5120, 5121, 5122, 5123, 5125, 5126 (5126 gives `FLOAT`) and throws
`std::invalid_argument` for every other `integer_type`, 5127 and 5124
included. A document with an accessor whose `componentType` is a JSON integer
of the range of `integer_type` (from `-2 ^ 31` up to `2 ^ 31 - 1`) other than
the six makes `parse` fail; in general the member is first converted to
`integer_type`, and `parse` fails when the converted value is none of the
six. -/
theorem component_type_from_json_legal_values :
    (∀ c : Int, (c = 5120 ∨ c = 5121 ∨ c = 5122 ∨ c = 5123 ∨ c = 5125 ∨ c = 5126) →
      ∃ t, component_type_from_json c = Except.ok t ∧ t.val = c)
    ∧ component_type_from_json 5126 = Except.ok accessor_type.component_type_type.FLOAT
    ∧ (∀ c : Int, ¬ (c = 5120 ∨ c = 5121 ∨ c = 5122 ∨ c = 5123 ∨ c = 5125 ∨ c = 5126) →
      component_type_from_json c = Except.error (Err.invalid_argument "componentType"))
    ∧ component_type_from_json 5127 = Except.error (Err.invalid_argument "componentType")
    ∧ component_type_from_json 5124 = Except.error (Err.invalid_argument "componentType")
    ∧ (∀ (decode : String → Except Err (List UInt8)) (doc accessors accessor value : Json)
        (binary : Option (List UInt8)) (c : Int),
        doc.find "accessors" = some accessors → accessor ∈ accessors.elems →
        accessor.find "componentType" = some value → value.get_int32 = Except.ok c →
        ¬ (c = 5120 ∨ c = 5121 ∨ c = 5122 ∨ c = 5123 ∨ c = 5125 ∨ c = 5126) →
        ∃ e, parse decode { json := doc, binary := binary } = Except.error e)
    ∧ (∀ (decode : String → Except Err (List UInt8)) (doc accessors accessor : Json)
        (binary : Option (List UInt8)) (c : Int),
        doc.find "accessors" = some accessors → accessor ∈ accessors.elems →
        accessor.find "componentType" = some (Json.number_integer c)
          ∨ (0 ≤ c ∧ accessor.find "componentType" = some (Json.number_unsigned c.toNat)) →
        -(2 ^ 31) ≤ c → c < 2 ^ 31 →
        ¬ (c = 5120 ∨ c = 5121 ∨ c = 5122 ∨ c = 5123 ∨ c = 5125 ∨ c = 5126) →
        ∃ e, parse decode { json := doc, binary := binary } = Except.error e) := by
  have hbad : ∀ c : Int, ¬ (c = 5120 ∨ c = 5121 ∨ c = 5122 ∨ c = 5123 ∨ c = 5125 ∨ c = 5126) →
      component_type_from_json c = Except.error (Err.invalid_argument "componentType") := by
    intro c hc
    simp only [not_or] at hc
    obtain ⟨h0, h1, h2, h3, h5, h6⟩ := hc
    simp only [component_type_from_json, h0, h1, h2, h3, h5, h6, if_false, throw_eq_error]
  have hparse : ∀ (decode : String → Except Err (List UInt8))
      (doc accessors accessor value : Json) (binary : Option (List UInt8)) (c : Int),
      doc.find "accessors" = some accessors → accessor ∈ accessors.elems →
      accessor.find "componentType" = some value → value.get_int32 = Except.ok c →
      ¬ (c = 5120 ∨ c = 5121 ∨ c = 5122 ∨ c = 5123 ∨ c = 5125 ∨ c = 5126) →
      ∃ e, parse decode { json := doc, binary := binary } = Except.error e := by
    intro decode doc accessors accessor value binary c hdoc hmem hfind hv hc
    apply error_of_not_ok
    intro m h
    simp only [parse, bind_eq_ok, pure_eq_ok] at h
    obtain ⟨_, _, _, _, _, _, buffer_views, _, accs, hacc, _⟩ := h
    obtain ⟨a, ha⟩ := container_ok_all _ _ _ _ _ hacc hdoc accessor hmem
    refine accessor_component_type_fails buffer_views accessor value c hfind hv ?_ a ha
    intro t ht
    rw [hbad c hc] at ht
    cases ht
  refine ⟨?_, rfl, hbad, rfl, rfl, hparse, ?_⟩
  · intro c hc
    rcases hc with rfl | rfl | rfl | rfl | rfl | rfl
    · exact ⟨_, rfl, rfl⟩
    · exact ⟨_, rfl, rfl⟩
    · exact ⟨_, rfl, rfl⟩
    · exact ⟨_, rfl, rfl⟩
    · exact ⟨_, rfl, rfl⟩
    · exact ⟨_, rfl, rfl⟩
  · intro decode doc accessors accessor binary c hdoc hmem hfind h0 h1 hc
    rcases hfind with hfind | ⟨hnn, hfind⟩
    · refine hparse decode doc accessors accessor _ binary c hdoc hmem hfind ?_ hc
      simp only [Json.get_int32, wrapS32_of_range c h0 h1]
      rfl
    · refine hparse decode doc accessors accessor _ binary c hdoc hmem hfind ?_ hc
      have hcast : ((c.toNat : Nat) : Int) = c := Int.toNat_of_nonneg hnn
      simp only [Json.get_int32, hcast, wrapS32_of_range c h0 h1]
      rfl

theorem component_type_from_json_legal_values_witness :
    (∃ t, component_type_from_json 5123 = Except.ok t ∧ t.val = 5123)
    ∧ component_type_from_json 5124 = Except.error (Err.invalid_argument "componentType")
    ∧ (∃ e, parse (fun _ => Except.ok [])
        { json := Json.object [
            ("accessors", Json.array [
              Json.object [("componentType", Json.number_integer (-1)),
                           ("count", Json.number_unsigned 1),
                           ("type", Json.string "SCALAR")]]),
            ("asset", Json.object [("version", Json.string "2.0")])],
          binary := none } = Except.error e)
    ∧ ∃ e, parse (fun _ => Except.ok [])
        { json := Json.object [
            ("accessors", Json.array [
              Json.object [("componentType", Json.number_unsigned 5127),
                           ("count", Json.number_unsigned 1),
                           ("type", Json.string "SCALAR")]]),
            ("asset", Json.object [("version", Json.string "2.0")])],
          binary := none } = Except.error e :=
  ⟨component_type_from_json_legal_values.1 5123 (by decide),
   component_type_from_json_legal_values.2.2.1 5124 (by decide),
   component_type_from_json_legal_values.2.2.2.2.2.2 (fun _ => Except.ok []) _
     (Json.array [
       Json.object [("componentType", Json.number_integer (-1)),
                    ("count", Json.number_unsigned 1),
                    ("type", Json.string "SCALAR")]])
     (Json.object [("componentType", Json.number_integer (-1)),
                   ("count", Json.number_unsigned 1),
                   ("type", Json.string "SCALAR")])
     none (-1) rfl (by simp [Json.elems]) (Or.inl rfl) (by decide) (by decide) (by decide),
   component_type_from_json_legal_values.2.2.2.2.2.1 (fun _ => Except.ok []) _
     (Json.array [
       Json.object [("componentType", Json.number_unsigned 5127),
                    ("count", Json.number_unsigned 1),
                    ("type", Json.string "SCALAR")]])
     (Json.object [("componentType", Json.number_unsigned 5127),
                   ("count", Json.number_unsigned 1),
                   ("type", Json.string "SCALAR")])
     (Json.number_unsigned 5127) none 5127 rfl (by simp [Json.elems]) rfl rfl (by decide)⟩

/-! ## `parse`: a document without `asset` -/

/-- Claim C12 does not hold of the code: on the document `{}`, and on a
document whose `asset` has no `version`, `parse` reaches the const
`operator[]` of the JSON library with a key that is absent. The library
assertion fails; no exception, so no schema error, reaches the caller. -/
theorem parse_without_asset_fails_assertion (decode : String → Except Err (List UInt8))
    (binary : Option (List UInt8)) :
    parse decode { json := Json.object [], binary := binary }
        = Except.error (Err.assertion "m_value.object->find(key) != m_value.object->end()")
    ∧ parse decode
        { json := Json.object [("asset", Json.object [("generator", Json.string "x")])],
          binary := binary }
        = Except.error (Err.assertion "m_value.object->find(key) != m_value.object->end()")
    ∧ (Err.assertion "m_value.object->find(key) != m_value.object->end()").is_exception = false :=
  ⟨rfl, rfl, rfl⟩

/-! ## `open` on an image in the binary chunk -/

/-- Claim C13 does not hold of the code: for an image whose source is a
buffer view of a buffer without URI, `open` returns the window of the whole
binary chunk, whatever `byte_offset` and `byte_length` the view has. With the
chunk `10 11 12 13`, offset 1 and length 2 it returns all four bytes, where
the claim asks for `11 12`. -/
theorem open_image_ignores_view_range (read_file : String → String → Option (List UInt8))
    (wd : String) (json : Json) (chunk : List UInt8) (buffer : buffer_type)
    (buffer_view : buffer_view_type) (image : image_type) :
    open_image read_file wd { json := json, binary := some chunk }
        [{ buffer with uri := none }] [{ buffer_view with buffer := 0 }]
        { image with uri_buffer_view := image_type.variant.buffer_view 0 }
      = Except.ok (opened_type.string_view { base := chunk, offset := 0, size := chunk.length })
    ∧ open_image read_file wd { json := Json.null, binary := some [10, 11, 12, 13] }
        [{ uri := none, byte_length := 4, name := none, extensions := Json.null,
           extras := Json.null }]
        [{ buffer := 0, byte_offset := 1, byte_length := 2, byte_stride := none, target := none,
           name := none, extensions := Json.null, extras := Json.null }]
        { uri_buffer_view := image_type.variant.buffer_view 0,
          mime_type := some mime_type.image_png, name := none, extensions := Json.null,
          extras := Json.null }
      = Except.ok (opened_type.string_view { base := [10, 11, 12, 13], offset := 0, size := 4 })
    ∧ string_view.bytes { base := [10, 11, 12, 13], offset := 0, size := 4 }
      = some [10, 11, 12, 13]
    ∧ string_view.bytes { base := [10, 11, 12, 13], offset := 1, size := 2 } = some [11, 12] :=
  ⟨rfl, rfl, by decide, by decide⟩

/-! ## `parse_format`: the remaining paths -/

/-- Claim C14. For every stream whose first byte is not `g` (the empty stream
included), `parse_format` hands the whole stream to the JSON library as text:
it returns what `stream >> j` yields on it, with no binary chunk; so the text
`[]`, which the library reads as the empty array, gives the empty array and
no binary chunk. -/
theorem parse_format_json_text (lib : json_reader) (uninit : Nat → UInt8) (data : List UInt8)
    (hg : data.head? ≠ some 103) :
    parse_format lib uninit data
        = (lib.extract data).map (fun j => { json := j, binary := none })
    ∧ (data = [91, 93] → lib.extract data = Except.ok (Json.array []) →
        parse_format lib uninit data = Except.ok { json := Json.array [], binary := none }) := by
  have h : parse_format lib uninit data
      = (lib.extract data).map (fun j => { json := j, binary := none }) := by
    unfold parse_format
    cases data with
    | nil =>
      simp only [istream.peek, istream.good, Bool.not_false, Bool.and_self, if_true]
      rw [if_neg (by decide)]
      cases lib.extract [] <;> rfl
    | cons c t =>
      have hc : ¬ (some c = some (103 : UInt8)) := by
        simpa using hg
      simp only [istream.peek, istream.good, Bool.not_false, Bool.and_self, if_true]
      rw [if_neg hc]
      cases lib.extract (c :: t) <;> rfl
  refine ⟨h, ?_⟩
  intro _ hx
  rw [h, hx]
  rfl

theorem parse_format_json_text_witness :
    parse_format
        ⟨fun _ => Except.error Err.parse_error,
         fun text => if text = [91, 93] then Except.ok (Json.array []) else
           Except.error Err.parse_error⟩
        (fun _ => 0) [91, 93]
      = Except.ok { json := Json.array [], binary := none } :=
  (parse_format_json_text _ (fun _ => 0) [91, 93] (by decide)).2 rfl rfl

/-- Claim C15. For every GLB stream with a valid header and a JSON chunk that
parses, and with nothing after the JSON chunk, `parse_format` succeeds and the
binary chunk is absent (not present and empty). -/
theorem parse_format_glb_without_bin_chunk (lib : json_reader) (uninit : Nat → UInt8)
    (header json : List UInt8) (j : Json)
    (hlen : header.length = 20)
    (hmagic : word header 0 = 0x46546C67) (hversion : word header 1 = 2)
    (hjson_len : word header 3 = json.length) (hjson_type : word header 4 = 0x4E4F534A)
    (hjson : lib.parse json = Except.ok j) :
    parse_format lib uninit (header ++ json) = Except.ok { json := j, binary := none } := by
  have h := parse_format_glb_aux lib uninit header json [] hlen hmagic hversion hjson_len
    hjson_type
  rw [List.append_nil] at h
  rw [h, read_at_end _ 8 (by decide), hjson]
  rfl

theorem parse_format_glb_without_bin_chunk_witness :
    parse_format ⟨fun _ => Except.ok (Json.object []), fun _ => Except.error Err.parse_error⟩
        (fun _ => 0)
        ([103, 108, 84, 70, 2, 0, 0, 0, 0, 0, 0, 0, 2, 0, 0, 0, 74, 83, 79, 78] ++ [123, 125])
      = Except.ok { json := Json.object [], binary := none } :=
  parse_format_glb_without_bin_chunk _ (fun _ => 0)
    [103, 108, 84, 70, 2, 0, 0, 0, 0, 0, 0, 0, 2, 0, 0, 0, 74, 83, 79, 78] [123, 125]
    (Json.object []) rfl (by decide) (by decide) (by decide) (by decide) rfl

/-- Claim C16. For every GLB stream (twenty bytes or more) with the right magic
and version whose fifth header word is not `0x4E4F534A`, `parse_format` throws
`Expected json chunk`, whatever follows the header. -/
theorem parse_format_expected_json_chunk (lib : json_reader) (uninit : Nat → UInt8)
    (data : List UInt8) (hlen : 20 ≤ data.length)
    (hmagic : word data 0 = 0x46546C67) (hversion : word data 1 = 2)
    (hjson_type : word data 4 ≠ 0x4E4F534A) :
    parse_format lib uninit data = Except.error (Err.runtime_error "Expected json chunk") := by
  obtain ⟨t, ht⟩ := first_byte_of_magic data hmagic
  have hpeek : istream.peek { rest := data, eofbit := false, failbit := false }
      = (some 103, { rest := data, eofbit := false, failbit := false }) := by
    rw [ht]; rfl
  have hw0 := word_read data ((List.range 20).map uninit) 20 0 (by decide) (by omega)
  have hw1 := word_read data ((List.range 20).map uninit) 20 1 (by decide) (by omega)
  have hw4 := word_read data ((List.range 20).map uninit) 20 4 (by decide) (by omega)
  rw [← hw0] at hmagic
  rw [← hw1] at hversion
  rw [← hw4] at hjson_type
  unfold parse_format
  simp only [hpeek, if_true, ne_eq, hmagic, hversion, hjson_type, not_true_eq_false,
    not_false_eq_true, if_false]
  rfl

theorem parse_format_expected_json_chunk_witness :
    parse_format ⟨fun _ => Except.ok (Json.object []), fun _ => Except.error Err.parse_error⟩
        (fun _ => 0)
        [103, 108, 84, 70, 2, 0, 0, 0, 0, 0, 0, 0, 2, 0, 0, 0, 66, 73, 78, 0, 123, 125]
      = Except.error (Err.runtime_error "Expected json chunk") :=
  parse_format_expected_json_chunk _ (fun _ => 0)
    [103, 108, 84, 70, 2, 0, 0, 0, 0, 0, 0, 0, 2, 0, 0, 0, 66, 73, 78, 0, 123, 125]
    (by decide) (by decide) (by decide) (by decide)

/-- Claim C17. For every GLB stream with a valid header and JSON chunk followed
by a complete eight-byte second chunk header whose type word is not
`0x004E4942`, `parse_format` throws `Expected bin chunk`, whether or not the
JSON chunk is well-formed and whatever follows. -/
theorem parse_format_expected_bin_chunk (lib : json_reader) (uninit : Nat → UInt8)
    (header json header2 rest : List UInt8)
    (hlen : header.length = 20)
    (hmagic : word header 0 = 0x46546C67) (hversion : word header 1 = 2)
    (hjson_len : word header 3 = json.length) (hjson_type : word header 4 = 0x4E4F534A)
    (h2len : header2.length = 8) (hbin_type : word header2 1 ≠ 0x004E4942) :
    parse_format lib uninit (header ++ json ++ header2 ++ rest)
      = Except.error (Err.runtime_error "Expected bin chunk") := by
  have h := parse_format_glb_aux lib uninit header json (header2 ++ rest) hlen hmagic hversion
    hjson_len hjson_type
  have e : header ++ json ++ header2 ++ rest = header ++ (json ++ (header2 ++ rest)) := by
    simp only [List.append_assoc]
  rw [e, h, read_exact header2 rest _ 8 h2len (by simp)]
  simp only [ne_eq, hbin_type, not_false_eq_true, if_true, Bool.not_false]
  rfl

theorem parse_format_expected_bin_chunk_witness :
    parse_format ⟨fun _ => Except.ok (Json.object []), fun _ => Except.error Err.parse_error⟩
        (fun _ => 0)
        ([103, 108, 84, 70, 2, 0, 0, 0, 0, 0, 0, 0, 2, 0, 0, 0, 74, 83, 79, 78] ++ [123, 125]
          ++ [1, 0, 0, 0, 74, 83, 79, 78] ++ [7])
      = Except.error (Err.runtime_error "Expected bin chunk") :=
  parse_format_expected_bin_chunk _ (fun _ => 0)
    [103, 108, 84, 70, 2, 0, 0, 0, 0, 0, 0, 0, 2, 0, 0, 0, 74, 83, 79, 78] [123, 125]
    [1, 0, 0, 0, 74, 83, 79, 78] [7] rfl (by decide) (by decide) (by decide) (by decide) rfl
    (by decide)

theorem read_short (payload : List UInt8) (n : Nat) (h : payload.length < n) :
    (istream.read { rest := payload, eofbit := false, failbit := false }
      (List.replicate n 0) n).2 = payload ++ List.replicate (n - payload.length) 0 := by
  have ht : payload.take n = payload := List.take_of_length_le (by omega)
  have hne : ¬ (payload.length = n) := by omega
  simp only [istream.read, istream.good, Bool.not_false, Bool.and_self, if_true, ht, hne,
    if_false, List.drop_replicate]

/-- Claim C18, as stated, fails: the second chunk header declares three
payload bytes, one follows, and `parse_format` returns a binary payload (that
byte and two zero bytes) instead of failing. -/
theorem parse_format_truncated_payload_accepted :
    parse_format ⟨fun _ => Except.ok (Json.object []), fun _ => Except.error Err.parse_error⟩
        (fun _ => 0)
        ([103, 108, 84, 70, 2, 0, 0, 0, 0, 0, 0, 0, 2, 0, 0, 0, 74, 83, 79, 78] ++ [123, 125]
          ++ [3, 0, 0, 0, 66, 73, 78, 0] ++ [7])
      = Except.ok { json := Json.object [], binary := some [7, 0, 0] } := by
  rfl

/-- Claim C18, amended. For every GLB stream whose second chunk header
declares `L` payload bytes but which has fewer than `L` bytes after that
header, `parse_format` does not report the truncation: it returns what
parsing the JSON chunk returns, with a binary payload of exactly `L` bytes,
the bytes present followed by zero bytes. -/
theorem parse_format_truncated_payload (lib : json_reader) (uninit : Nat → UInt8)
    (header json header2 payload : List UInt8)
    (hlen : header.length = 20)
    (hmagic : word header 0 = 0x46546C67) (hversion : word header 1 = 2)
    (hjson_len : word header 3 = json.length) (hjson_type : word header 4 = 0x4E4F534A)
    (h2len : header2.length = 8) (hbin_type : word header2 1 = 0x004E4942)
    (hshort : payload.length < word header2 0) :
    parse_format lib uninit (header ++ json ++ header2 ++ payload)
      = (lib.parse json).map (fun j =>
          { json := j,
            binary := some (payload
              ++ List.replicate (word header2 0 - payload.length) 0) }) := by
  have h := parse_format_glb_aux lib uninit header json (header2 ++ payload) hlen hmagic
    hversion hjson_len hjson_type
  have e : header ++ json ++ header2 ++ payload = header ++ (json ++ (header2 ++ payload)) := by
    simp only [List.append_assoc]
  rw [e, h, read_exact header2 payload _ 8 h2len (by simp)]
  simp only [hbin_type, ne_eq, not_true_eq_false, if_false, Bool.not_false, if_true]
  rw [read_short payload _ hshort]
  cases lib.parse json <;> rfl

theorem parse_format_truncated_payload_witness :
    parse_format ⟨fun _ => Except.ok (Json.object []), fun _ => Except.error Err.parse_error⟩
        (fun _ => 0)
        ([103, 108, 84, 70, 2, 0, 0, 0, 0, 0, 0, 0, 2, 0, 0, 0, 74, 83, 79, 78] ++ [123, 125]
          ++ [3, 0, 0, 0, 66, 73, 78, 0] ++ [7])
      = (Except.ok (Json.object []) : Except Err Json).map (fun j =>
          { json := j, binary := some ([7] ++ List.replicate (3 - 1) 0) }) :=
  parse_format_truncated_payload _ (fun _ => 0)
    [103, 108, 84, 70, 2, 0, 0, 0, 0, 0, 0, 0, 2, 0, 0, 0, 74, 83, 79, 78] [123, 125]
    [3, 0, 0, 0, 66, 73, 78, 0] [7] rfl (by decide) (by decide) (by decide) (by decide) rfl
    (by decide) (by decide)

theorem read_good (data buf : List UInt8) (n : Nat) :
    istream.read { rest := data, eofbit := false, failbit := false } buf n
      = if (data.take n).length = n then
          ({ rest := data.drop n, eofbit := false, failbit := false }, data.take n ++ buf.drop n)
        else
          ({ rest := data.drop n, eofbit := true, failbit := true },
            data.take n ++ buf.drop (data.take n).length) := by
  simp only [istream.read, istream.good, Bool.not_false, Bool.and_self, if_true]

theorem getD_total_length (a t c : List UInt8) (k : Nat) (ha : a.length = 8) (ht : t.length = 4)
    (hk : k < 8 ∨ 12 ≤ k) :
    (a ++ t ++ c).getD k 0 = (a ++ List.replicate 4 0 ++ c).getD k 0 := by
  rcases hk with hk | hk
  · rw [List.append_assoc, List.append_assoc, List.getD_append _ _ _ _ (by omega),
      List.getD_append _ _ _ _ (by omega)]
  · rw [List.getD_append_right _ _ _ _ (by simp; omega),
      List.getD_append_right _ _ _ _ (by simp; omega)]
    simp [ha, ht]

theorem word_total_length (a t c : List UInt8) (i : Nat) (ha : a.length = 8)
    (ht : t.length = 4) (hi : i ≠ 2) :
    word (a ++ t ++ c) i = word (a ++ List.replicate 4 0 ++ c) i := by
  unfold word
  have hk : ∀ j, j < 4 → (4 * i + j < 8 ∨ 12 ≤ 4 * i + j) := by
    intro j hj; omega
  rw [getD_total_length a t c _ ha ht (by have := hk 0 (by decide); simpa using this),
    getD_total_length a t c _ ha ht (hk 1 (by decide)),
    getD_total_length a t c _ ha ht (hk 2 (by decide)),
    getD_total_length a t c _ ha ht (hk 3 (by decide))]

theorem read_header (a t b buf : List UInt8) (ha : a.length = 8) (ht : t.length = 4) :
    istream.read { rest := a ++ t ++ b, eofbit := false, failbit := false } buf 20
      = (if 8 ≤ b.length then { rest := b.drop 8, eofbit := false, failbit := false }
         else { rest := b.drop 8, eofbit := true, failbit := true },
         a ++ t ++ (b.take 8 ++ buf.drop (12 + min 8 b.length))) := by
  have htake : (a ++ t ++ b).take 20 = a ++ t ++ b.take 8 := by
    have h12 : (a ++ t).length = 12 := by simp [ha, ht]
    rw [List.take_append_eq_append_take, h12, List.take_of_length_le (by omega)]
  have hdrop : (a ++ t ++ b).drop 20 = b.drop 8 := by
    have h12 : (a ++ t).length = 12 := by simp [ha, ht]
    rw [List.drop_append_eq_append_drop, h12, List.drop_of_length_le (by omega)]
    simp
  have hlen : (a ++ t ++ b.take 8).length = 12 + min 8 b.length := by
    simp [ha, ht, List.length_take]; omega
  rw [read_good, htake, hdrop, hlen]
  by_cases h8 : 8 ≤ b.length
  · have hm : min 8 b.length = 8 := by omega
    simp only [hm, h8, if_true, List.append_assoc]
  · have hm : min 8 b.length = b.length := by omega
    have hne : ¬ (12 + b.length = 20) := by omega
    simp only [hm, h8, hne, if_false, List.append_assoc]

theorem parse_format_total_length_aux (lib : json_reader) (uninit : Nat → UInt8)
    (a t b : List UInt8) (ha : a.length = 8) (ht : t.length = 4)
    (hg : a.head? = some 103) :
    parse_format lib uninit (a ++ t ++ b)
      = parse_format lib uninit (a ++ List.replicate 4 0 ++ b) := by
  have hpeek : ∀ t1 : List UInt8,
      istream.peek { rest := a ++ t1 ++ b, eofbit := false, failbit := false }
        = (some 103, { rest := a ++ t1 ++ b, eofbit := false, failbit := false }) := by
    intro t1
    cases a with
    | nil => simp at hg
    | cons c r =>
      simp only [List.head?_cons, Option.some.injEq] at hg
      rw [hg]; rfl
  unfold parse_format
  simp only [hpeek, if_true]
  rw [read_header a t b _ ha ht, read_header a (List.replicate 4 0) b _ ha (by simp)]
  simp only [word_total_length a t _ 0 ha ht (by decide),
    word_total_length a t _ 1 ha ht (by decide), word_total_length a t _ 3 ha ht (by decide),
    word_total_length a t _ 4 ha ht (by decide)]

/-- Claim C19. The result of `parse_format` does not depend on the third
header word: two GLB streams that differ only in bytes 8 to 11 give the same
result, the same error or equal format pairs. -/
theorem parse_format_ignores_total_length (lib : json_reader) (uninit : Nat → UInt8)
    (a t1 t2 b : List UInt8) (ha : a.length = 8) (ht1 : t1.length = 4) (ht2 : t2.length = 4)
    (hg : a.head? = some 103) :
    parse_format lib uninit (a ++ t1 ++ b) = parse_format lib uninit (a ++ t2 ++ b) := by
  rw [parse_format_total_length_aux lib uninit a t1 b ha ht1 hg,
    parse_format_total_length_aux lib uninit a t2 b ha ht2 hg]

theorem parse_format_ignores_total_length_witness :
    parse_format ⟨fun _ => Except.ok (Json.object []), fun _ => Except.error Err.parse_error⟩
        (fun _ => 0)
        ([103, 108, 84, 70, 2, 0, 0, 0] ++ [0, 0, 0, 0] ++ [2, 0, 0, 0, 74, 83, 79, 78, 123, 125])
      = parse_format ⟨fun _ => Except.ok (Json.object []), fun _ => Except.error Err.parse_error⟩
        (fun _ => 0)
        ([103, 108, 84, 70, 2, 0, 0, 0] ++ [22, 0, 0, 0]
          ++ [2, 0, 0, 0, 74, 83, 79, 78, 123, 125]) :=
  parse_format_ignores_total_length _ (fun _ => 0) [103, 108, 84, 70, 2, 0, 0, 0] [0, 0, 0, 0]
    [22, 0, 0, 0] [2, 0, 0, 0, 74, 83, 79, 78, 123, 125] rfl rfl rfl rfl

/-! ## `uri_type`: the only failure -/

set_option maxRecDepth 4000

theorem eq_string_iff (j : Json) (text : String) :
    j.eq_string text = true ↔ j = Json.string text := by
  cases j <;> simp [Json.eq_string]

theorem subscript_eq_ok (j : Json) (key : String) (v : Json)
    (h : j.subscript key = Except.ok v) : j.find key = some v := by
  cases j <;> simp only [Json.subscript, Json.find] at h ⊢ <;> try cases h
  rename_i members
  cases hl : members.lookup key with
  | none => rw [hl] at h; cases h
  | some w =>
    rw [hl] at h
    simp only [pure_eq_ok] at h
    rw [h]

theorem optional_cast_of_find {α : Type} (get : Json → Except Err α) (json : Json)
    (key : String) (r : Option α) (h : optional_cast get json key = Except.ok r) :
    (json.find key = none → r = none)
    ∧ ∀ v, json.find key = some v → ∃ x, r = some x ∧ get v = Except.ok x := by
  unfold optional_cast at h
  constructor
  · intro hnone
    simp only [hnone, pure_eq_ok] at h
    exact h.symm
  · intro v hsome
    simp only [hsome, bind_eq_ok, pure_eq_ok] at h
    obtain ⟨x, hx, rfl⟩ := h
    exact ⟨x, rfl, hx⟩

theorem get_string_eq_ok (j : Json) (s : String) (h : j.get_string = Except.ok s) :
    j = Json.string s := by
  cases j with
  | string t =>
    simp only [Json.get_string, pure_eq_ok] at h
    rw [h]
  | _ => cases h

theorem transform_ok_getElem {α β : Type} (f : α → Except Err β) :
    ∀ (xs : List α) (ys : List β), transform f xs = Except.ok ys →
      ∀ (i : Nat) (x : α), xs[i]? = some x → ∃ y, ys[i]? = some y ∧ f x = Except.ok y := by
  intro xs
  induction xs with
  | nil => intro ys _ i x hx; simp at hx
  | cons x0 xs ih =>
    intro ys h i x hx
    simp only [transform, bind_eq_ok, pure_eq_ok] at h
    obtain ⟨y0, h0, ys0, h1, rfl⟩ := h
    cases i with
    | zero =>
      simp only [List.getElem?_cons_zero, Option.some.injEq] at hx
      subst hx
      exact ⟨y0, List.getElem?_cons_zero, h0⟩
    | succ i =>
      simp only [List.getElem?_cons_succ] at hx ⊢
      exact ih ys0 h1 i x hx

theorem zip_foreach_getElem {α β : Type} (f : α → β → Except Err β) :
    ∀ (xs : List α) (seq seq1 : List β), zip_foreach f xs seq = Except.ok seq1 →
      seq1.length = seq.length
      ∧ ∀ (i : Nat) (x : α) (y : β), xs[i]? = some x → seq[i]? = some y →
          ∃ y1, seq1[i]? = some y1 ∧ f x y = Except.ok y1 := by
  intro xs
  induction xs with
  | nil =>
    intro seq seq1 h
    simp only [zip_foreach, pure_eq_ok] at h
    subst h
    exact ⟨rfl, fun i x y hx _ => by simp at hx⟩
  | cons x0 xs ih =>
    intro seq seq1 h
    cases seq with
    | nil => simp [zip_foreach, throw, throwThe, MonadExceptOf.throw] at h
    | cons y0 seq =>
      simp only [zip_foreach, bind_eq_ok, pure_eq_ok] at h
      obtain ⟨y1, hy1, rest, hrest, rfl⟩ := h
      obtain ⟨hlen, hpos⟩ := ih seq rest hrest
      refine ⟨by simp [hlen], ?_⟩
      intro i x y hx hy
      cases i with
      | zero =>
        simp only [List.getElem?_cons_zero, Option.some.injEq] at hx hy
        subst hx
        subst hy
        exact ⟨y1, List.getElem?_cons_zero, hy1⟩
      | succ i =>
        simp only [List.getElem?_cons_succ] at hx hy ⊢
        exact hpos i x y hx hy

theorem container_of_find {β : Type} (json : Json) (key : String) (f : Json → Except Err β)
    (ys : List β) (array : Json) (h : parse.container json key f = Except.ok ys)
    (hfind : json.find key = some array) : transform f array.elems = Except.ok ys := by
  simp only [parse.container, optional_ref, hfind, map, transform_json_array_to_container,
    bind_eq_ok, pure_eq_ok] at h
  obtain ⟨_, ⟨l, hl, rfl⟩, rfl⟩ := h
  exact hl

theorem patch_of_find {β : Type} (json : Json) (key : String) (f : Json → β → Except Err β)
    (seq seq1 : List β) (array : Json) (h : parse.patch json key f seq = Except.ok seq1)
    (hfind : json.find key = some array) : zip_foreach f array.elems seq = Except.ok seq1 := by
  simp only [parse.patch, optional_ref, hfind] at h
  exact h

theorem patch_length {β : Type} (json : Json) (key : String) (f : Json → β → Except Err β)
    (seq seq1 : List β) (h : parse.patch json key f seq = Except.ok seq1) :
    seq1.length = seq.length := by
  unfold parse.patch at h
  split at h
  · exact (zip_foreach_getElem f _ _ _ h).1
  · simp only [pure_eq_ok] at h
    subst h
    rfl

/-- An array of the document built by `parse.container` and completed by
`parse.patch`: the element at each position is the first-pass value of the
JSON element there, patched with that JSON element. -/
theorem two_pass_getElem {β : Type} (json : Json) (key : String) (f : Json → Except Err β)
    (g : Json → β → Except Err β) (seq seq1 : List β) (array : Json)
    (h0 : parse.container json key f = Except.ok seq)
    (h1 : parse.patch json key g seq = Except.ok seq1)
    (hfind : json.find key = some array) :
    seq1.length = array.elems.length
    ∧ ∀ (i : Nat) (x : Json) (y1 : β), array.elems[i]? = some x → seq1[i]? = some y1 →
        ∃ y, f x = Except.ok y ∧ g x y = Except.ok y1 := by
  have ht := container_of_find json key f seq array h0 hfind
  have hz := zip_foreach_getElem g _ _ _ (patch_of_find json key g seq seq1 array h1 hfind)
  refine ⟨by rw [hz.1, transform_ok_length _ _ _ ht], ?_⟩
  intro i x y1 hx hy1
  obtain ⟨y, hy, hfy⟩ := transform_ok_getElem f _ _ ht i x hx
  obtain ⟨y2, hy2, hg⟩ := hz.2 i x y hx hy
  rw [hy1] at hy2
  cases hy2
  exact ⟨y, hfy, hg⟩

theorem index_to_iterator_json_length {S T : Type} (c1 : List S) (c2 : List T) (index : Json)
    (h : c1.length = c2.length) :
    index_to_iterator_json c1 index = index_to_iterator_json c2 index := by
  simp only [index_to_iterator_json, index_to_iterator, h]

theorem index_to_iterator_unsigned {T : Type} (container : List T) (v p : Nat)
    (hv : v < 2 ^ 64)
    (h : index_to_iterator_json container (Json.number_unsigned v) = Except.ok p) :
    p = v ∧ v < container.length := by
  simp only [index_to_iterator_json, Json.get_int64, pure_bind_ok, index_to_iterator,
    wrapU_wrapS, wrapU_of_lt v hv] at h
  split at h
  · rename_i hlt
    simp only [pure_eq_ok] at h
    exact ⟨h.symm, hlt⟩
  · cases h

/-- The positions that `index_to_iterator` gives for the elements of a JSON
array of indices, in order. -/
theorem indices_getElem {T : Type} (container : List T) (array : Json) (l : List Nat)
    (h : transform_json_array_to_container array (index_to_iterator_json container)
      = Except.ok l) :
    l.length = array.elems.length
    ∧ ∀ (k : Nat) (c : Json), array.elems[k]? = some c →
        ∃ p, l[k]? = some p ∧ index_to_iterator_json container c = Except.ok p
          ∧ p < container.length
          ∧ ∀ v, c = Json.number_unsigned v → v < 2 ^ 64 → p = v := by
  refine ⟨transform_ok_length _ _ _ h, ?_⟩
  intro k c hc
  obtain ⟨p, hp, hf⟩ := transform_ok_getElem _ _ _ h k c hc
  refine ⟨p, hp, hf, index_to_iterator_json_lt _ _ _ hf, ?_⟩
  intro v hcv hv
  subst hcv
  exact (index_to_iterator_unsigned container v p hv hf).1

theorem optional_index_of_json {T : Type} (json : Json) (field : String) (container : List T)
    (r : Option Nat) (h : optional_index_to_iterator json field container = Except.ok r) :
    (json.find field = none → r = none)
    ∧ ∀ c, json.find field = some c →
        ∃ p, r = some p ∧ index_to_iterator_json container c = Except.ok p
          ∧ p < container.length
          ∧ ∀ v, c = Json.number_unsigned v → v < 2 ^ 64 → p = v := by
  simp only [optional_index_to_iterator, optional_cast, bind_eq_ok] at h
  obtain ⟨o, ho, hr⟩ := h
  constructor
  · intro hnone
    simp only [hnone, pure_eq_ok] at ho
    subst ho
    simp only [map, pure_eq_ok] at hr
    exact hr.symm
  · intro c hsome
    simp only [hsome, bind_eq_ok, pure_eq_ok] at ho
    obtain ⟨i, hi, rfl⟩ := ho
    simp only [map, bind_eq_ok, pure_eq_ok] at hr
    obtain ⟨p, hp, rfl⟩ := hr
    have hf : index_to_iterator_json container c = Except.ok p := by
      simp only [index_to_iterator_json, hi, ok_bind, hp]
    refine ⟨p, rfl, hf, index_to_iterator_lt _ _ _ hp, ?_⟩
    intro v hcv hv
    subst hcv
    exact (index_to_iterator_unsigned container v p hv hf).1

theorem container_length_of_key {β : Type} (doc : Json) (key : String)
    (f : Json → Except Err β) (ys : List β) (h : parse.container doc key f = Except.ok ys) :
    ys.length = match doc.find key with
      | some array => array.elems.length
      | none => 0 := by
  simp only [parse.container, optional_ref, bind_eq_ok, pure_eq_ok] at h
  obtain ⟨c, hc, rfl⟩ := h
  cases hf : doc.find key with
  | none =>
    rw [hf] at hc
    simp only [map, pure_eq_ok] at hc
    subst hc
    rfl
  | some b =>
    rw [hf] at hc
    simp only [map, bind_eq_ok, pure_eq_ok] at hc
    obtain ⟨l, hl, rfl⟩ := hc
    exact transform_ok_length _ _ _ hl

/-! ## `parse`: the interpolation of animation samplers -/

theorem interpolation_values (value : Json) (t : animation_sampler_type.interpolation_type)
    (h : animation_sampler_interpolation_from_json value = Except.ok t) :
    t = animation_sampler_type.interpolation_type.LINEAR
      ∨ t = animation_sampler_type.interpolation_type.CUBICSPLINE := by
  unfold animation_sampler_interpolation_from_json at h
  split at h
  · cases h; exact Or.inl rfl
  · split at h
    · cases h; exact Or.inl rfl
    · split at h
      · cases h; exact Or.inl rfl
      · split at h
        · cases h; exact Or.inr rfl
        · cases h

theorem animation_sampler_interpolation (accessors : List accessor_type) (j : Json)
    (s : animation_sampler_type) (h : parse.animation_sampler accessors j = Except.ok s) :
    (s.interpolation = animation_sampler_type.interpolation_type.LINEAR
      ∨ s.interpolation = animation_sampler_type.interpolation_type.CUBICSPLINE)
    ∧ (j.find "interpolation" = none →
        s.interpolation = animation_sampler_type.interpolation_type.LINEAR) := by
  simp only [parse.animation_sampler, bind_eq_ok, pure_eq_ok] at h
  obtain ⟨_, _, _, _, o, ho, i, hi, h⟩ := h
  repeat (obtain ⟨_, _, h⟩ := h)
  constructor
  · cases i with
    | none => exact Or.inl rfl
    | some t =>
      obtain ⟨x, _, hx⟩ := map_eq_ok _ _ _ hi t rfl
      exact interpolation_values _ _ hx
  · intro hnone
    simp only [optional_cast, hnone, pure_eq_ok] at ho
    subst ho
    simp only [map, pure_eq_ok] at hi
    subst hi
    rfl

/-- Claim C21. `animation_sampler_interpolation_from_json` maps "LINEAR",
"STEP" and "CATMULLROMSPLINE" to `LINEAR` and "CUBICSPLINE" to `CUBICSPLINE`;
hence no animation sampler of a parsed model has the interpolation `STEP` or
`CATMULLROMSPLINE`, and a sampler without an `interpolation` member gets
`LINEAR`. -/
theorem interpolation_is_linear_or_cubicspline :
    animation_sampler_interpolation_from_json (Json.string "LINEAR")
        = Except.ok animation_sampler_type.interpolation_type.LINEAR
    ∧ animation_sampler_interpolation_from_json (Json.string "STEP")
        = Except.ok animation_sampler_type.interpolation_type.LINEAR
    ∧ animation_sampler_interpolation_from_json (Json.string "CATMULLROMSPLINE")
        = Except.ok animation_sampler_type.interpolation_type.LINEAR
    ∧ animation_sampler_interpolation_from_json (Json.string "CUBICSPLINE")
        = Except.ok animation_sampler_type.interpolation_type.CUBICSPLINE
    ∧ (∀ (decode : String → Except Err (List UInt8)) (format : format_type) (m : model_type),
        parse decode format = Except.ok m → ∀ a ∈ m.animations, ∀ s ∈ a.samplers,
          s.interpolation ≠ animation_sampler_type.interpolation_type.STEP
          ∧ s.interpolation ≠ animation_sampler_type.interpolation_type.CATMULLROMSPLINE)
    ∧ (∀ (accessors : List accessor_type) (sampler : Json) (s : animation_sampler_type),
        parse.animation_sampler accessors sampler = Except.ok s →
        sampler.find "interpolation" = none →
        s.interpolation = animation_sampler_type.interpolation_type.LINEAR) := by
  refine ⟨rfl, rfl, rfl, rfl, ?_, ?_⟩
  · intro decode format m h a ha s hs
    simp only [parse, bind_eq_ok, pure_eq_ok] at h
    obtain ⟨_, _, _, _, _, _, _, _, accessors, _, _, _, _, _, _, _, _, _, _, _, _, _,
      _, _, _, _, nodes, _, _, _, animations, hanim, h⟩ := h
    repeat (obtain ⟨_, _, h⟩ := h)
    obtain ⟨x, hx⟩ := container_ok_mem _ _ _ _ hanim a ha
    simp only [parse.animation, transform_json_array_to_container, bind_eq_ok, pure_eq_ok] at hx
    obtain ⟨_, _, ss, hss, hx⟩ := hx
    repeat (obtain ⟨_, _, hx⟩ := hx)
    obtain ⟨y, _, hy⟩ := transform_ok_mem _ _ _ hss s hs
    rcases (animation_sampler_interpolation _ _ _ hy).1 with h1 | h1
    · rw [h1]; exact ⟨by decide, by decide⟩
    · rw [h1]; exact ⟨by decide, by decide⟩
  · intro accessors sampler s h hnone
    exact (animation_sampler_interpolation _ _ _ h).2 hnone

theorem interpolation_is_linear_or_cubicspline_witness :
    (∃ m, parse (fun _ => Except.ok []) { json := scene_document, binary := none } = Except.ok m
      ∧ ∀ a ∈ m.animations, ∀ s ∈ a.samplers,
          s.interpolation ≠ animation_sampler_type.interpolation_type.STEP
          ∧ s.interpolation ≠ animation_sampler_type.interpolation_type.CATMULLROMSPLINE)
    ∧ ∃ s, parse.animation_sampler
          [{ buffer_view := none, byte_offset := 0,
             component_type := accessor_type.component_type_type.FLOAT, normalized := false,
             count := 1, type := accessor_type.type_type.SCALAR, max := none, min := none,
             sparse := Json.null, name := none, extensions := Json.empty_object,
             extras := Json.null }]
          (Json.object [("input", Json.number_unsigned 0), ("output", Json.number_unsigned 0)])
        = Except.ok s
      ∧ s.interpolation = animation_sampler_type.interpolation_type.LINEAR :=
  ⟨⟨_, rfl,
      interpolation_is_linear_or_cubicspline.2.2.2.2.1 (fun _ => Except.ok [])
        { json := scene_document, binary := none } _ rfl⟩,
    _, rfl,
    interpolation_is_linear_or_cubicspline.2.2.2.2.2
      [{ buffer_view := none, byte_offset := 0,
         component_type := accessor_type.component_type_type.FLOAT, normalized := false,
         count := 1, type := accessor_type.type_type.SCALAR, max := none, min := none,
         sparse := Json.null, name := none, extensions := Json.empty_object,
         extras := Json.null }]
      (Json.object [("input", Json.number_unsigned 0), ("output", Json.number_unsigned 0)])
      _ rfl rfl⟩

/-! ## `parse`: the draw mode of a primitive -/

theorem primitive_mode_of_json (accessors : List accessor_type) (materials : List material_type)
    (mesh primitive : Json) (p : primitive_type)
    (h : parse.primitive accessors materials mesh primitive = Except.ok p) :
    (primitive.find "mode" = none → p.mode = primitive_type.TRIANGLES)
    ∧ ∀ v, primitive.find "mode" = some v → v.get_enum = Except.ok p.mode := by
  simp only [parse.primitive, bind_eq_ok, pure_eq_ok] at h
  obtain ⟨_, _, _, _, _, _, _, _, _, _, mode, hmode, _, _, _, _, rfl⟩ := h
  have hm := optional_cast_of_find _ _ _ _ hmode
  constructor
  · intro hnone
    rw [hm.1 hnone]
    rfl
  · intro v hv
    obtain ⟨x, rfl, hx⟩ := hm.2 v hv
    exact hx

/-- Claim C22, which the code does not meet. The `mode` of a primitive is
converted to the enum by a cast, with no check against the enumerators: the
document below, whose first primitive has `"mode": 7`, is parsed and 7 is
stored. In general a parsed primitive with `"mode": v` (an unsigned integer
of 32 bits) has the mode `v`. A primitive without `mode` gets `TRIANGLES`,
which is 4. -/
theorem parse_stores_mode_out_of_range :
    (∀ (decode : String → Except Err (List UInt8)) (binary : Option (List UInt8)),
      ∃ m, parse decode
          { json := Json.object [
              ("asset", Json.object [("version", Json.string "2.0")]),
              ("meshes", Json.array [Json.object [
                ("primitives", Json.array [
                  Json.object [("attributes", Json.object []),
                               ("mode", Json.number_unsigned 7)],
                  Json.object [("attributes", Json.object [])]])]])],
            binary := binary } = Except.ok m
        ∧ m.meshes.map (fun mesh => mesh.primitives.map (fun p => p.mode)) = [[7, 4]])
    ∧ (∀ (accessors : List accessor_type) (materials : List material_type)
        (mesh primitive : Json) (p : primitive_type) (v : Nat),
        parse.primitive accessors materials mesh primitive = Except.ok p →
        primitive.find "mode" = some (Json.number_unsigned v) → v < 2 ^ 32 → p.mode = v)
    ∧ (∀ (accessors : List accessor_type) (materials : List material_type)
        (mesh primitive : Json) (p : primitive_type),
        parse.primitive accessors materials mesh primitive = Except.ok p →
        primitive.find "mode" = none → p.mode = primitive_type.TRIANGLES)
    ∧ primitive_type.TRIANGLES = 4 := by
  refine ⟨fun _ _ => ⟨_, rfl, rfl⟩, ?_, ?_, rfl⟩
  · intro accessors materials mesh primitive p v h hv hlt
    have := (primitive_mode_of_json _ _ _ _ _ h).2 _ hv
    simp only [Json.get_enum, pure_eq_ok] at this
    rw [← this]
    exact wrapU32_of_lt v hlt
  · intro accessors materials mesh primitive p h hnone
    exact (primitive_mode_of_json _ _ _ _ _ h).1 hnone

/-! ## `accessor_type_from_json` -/

theorem accessor_type_from_json_error (j : Json) (e : Err)
    (h : accessor_type_from_json j = Except.error e) :
    e = Err.invalid_argument_ptr "type"
    ∧ ∀ name ∈ ["SCALAR", "VEC2", "VEC3", "VEC4", "MAT2", "MAT3", "MAT4"],
        j ≠ Json.string name := by
  unfold accessor_type_from_json at h
  split at h
  · cases h
  rename_i h1
  split at h
  · cases h
  rename_i h2
  split at h
  · cases h
  rename_i h3
  split at h
  · cases h
  rename_i h4
  split at h
  · cases h
  rename_i h5
  split at h
  · cases h
  rename_i h6
  split at h
  · cases h
  rename_i h7
  cases h
  refine ⟨rfl, ?_⟩
  intro name hname hj
  subst hj
  simp only [Json.eq_string, beq_iff_eq] at h1 h2 h3 h4 h5 h6 h7
  simp only [List.mem_cons, List.mem_singleton, List.not_mem_nil, or_false] at hname
  rcases hname with r | r | r | r | r | r | r
  · exact h1 r
  · exact h2 r
  · exact h3 r
  · exact h4 r
  · exact h5 r
  · exact h6 r
  · exact h7 r

theorem accessor_type_from_json_other (j : Json)
    (h : ∀ name ∈ ["SCALAR", "VEC2", "VEC3", "VEC4", "MAT2", "MAT3", "MAT4"],
      j ≠ Json.string name) :
    accessor_type_from_json j = Except.error (Err.invalid_argument_ptr "type") := by
  have h1 : j.eq_string "SCALAR" = false := by
    cases hb : j.eq_string "SCALAR" with
    | false => rfl
    | true => exact absurd ((eq_string_iff _ _).mp hb) (h _ (by simp))
  have h2 : j.eq_string "VEC2" = false := by
    cases hb : j.eq_string "VEC2" with
    | false => rfl
    | true => exact absurd ((eq_string_iff _ _).mp hb) (h _ (by simp))
  have h3 : j.eq_string "VEC3" = false := by
    cases hb : j.eq_string "VEC3" with
    | false => rfl
    | true => exact absurd ((eq_string_iff _ _).mp hb) (h _ (by simp))
  have h4 : j.eq_string "VEC4" = false := by
    cases hb : j.eq_string "VEC4" with
    | false => rfl
    | true => exact absurd ((eq_string_iff _ _).mp hb) (h _ (by simp))
  have h5 : j.eq_string "MAT2" = false := by
    cases hb : j.eq_string "MAT2" with
    | false => rfl
    | true => exact absurd ((eq_string_iff _ _).mp hb) (h _ (by simp))
  have h6 : j.eq_string "MAT3" = false := by
    cases hb : j.eq_string "MAT3" with
    | false => rfl
    | true => exact absurd ((eq_string_iff _ _).mp hb) (h _ (by simp))
  have h7 : j.eq_string "MAT4" = false := by
    cases hb : j.eq_string "MAT4" with
    | false => rfl
    | true => exact absurd ((eq_string_iff _ _).mp hb) (h _ (by simp))
  simp only [accessor_type_from_json, h1, h2, h3, h4, h5, h6, h7, Bool.false_eq_true, if_false]
  rfl

/-- Claim C23, which the code does not meet. `accessor_type_from_json` maps
the seven names to their enumerators, and for every other JSON value it
executes `throw new std::invalid_argument("type")`: what is thrown is a
pointer, never the `std::invalid_argument` that the other conversions
(`material_alpha_mode_from_json`, `attribute_from_json`) throw by value. -/
theorem accessor_type_from_json_throws_pointer :
    (accessor_type_from_json (Json.string "SCALAR") = Except.ok accessor_type.type_type.SCALAR
      ∧ accessor_type_from_json (Json.string "VEC2") = Except.ok accessor_type.type_type.VEC2
      ∧ accessor_type_from_json (Json.string "VEC3") = Except.ok accessor_type.type_type.VEC3
      ∧ accessor_type_from_json (Json.string "VEC4") = Except.ok accessor_type.type_type.VEC4
      ∧ accessor_type_from_json (Json.string "MAT2") = Except.ok accessor_type.type_type.MAT2
      ∧ accessor_type_from_json (Json.string "MAT3") = Except.ok accessor_type.type_type.MAT3
      ∧ accessor_type_from_json (Json.string "MAT4") = Except.ok accessor_type.type_type.MAT4)
    ∧ accessor_type_from_json (Json.string "VEC5")
        = Except.error (Err.invalid_argument_ptr "type")
    ∧ material_alpha_mode_from_json (Json.string "VEC5")
        = Except.error (Err.invalid_argument "alphaMode")
    ∧ attribute_from_json (Json.string "VEC5") = Except.error (Err.invalid_argument "attribute")
    ∧ (∀ (j : Json) (e : Err), accessor_type_from_json j = Except.error e →
        e = Err.invalid_argument_ptr "type" ∧ ∀ what, e ≠ Err.invalid_argument what)
    ∧ (∀ j : Json,
        (∀ name ∈ ["SCALAR", "VEC2", "VEC3", "VEC4", "MAT2", "MAT3", "MAT4"],
          j ≠ Json.string name) →
        accessor_type_from_json j = Except.error (Err.invalid_argument_ptr "type")) := by
  refine ⟨⟨rfl, rfl, rfl, rfl, rfl, rfl, rfl⟩, rfl, rfl, rfl, ?_, accessor_type_from_json_other⟩
  · intro j e h
    have := (accessor_type_from_json_error j e h).1
    subst this
    exact ⟨rfl, fun _ hw => by cases hw⟩

/-! ## `parse`: the attributes of a primitive -/

/-- The names that `attribute_from_json` accepts, with their enumerators. -/
theorem attribute_from_json_ok (j : Json) (a : attribute_type)
    (h : attribute_from_json j = Except.ok a) :
    (j = Json.string "POSITION" ∧ a = attribute_type.POSITION)
    ∨ (j = Json.string "NORMAL" ∧ a = attribute_type.NORMAL)
    ∨ (j = Json.string "TANGENT" ∧ a = attribute_type.TANGENT)
    ∨ (j = Json.string "TEXCOORD_0" ∧ a = attribute_type.TEXCOORD_0)
    ∨ (j = Json.string "TEXCOORD_1" ∧ a = attribute_type.TEXCOORD_1)
    ∨ (j = Json.string "COLOR_0" ∧ a = attribute_type.COLOR_0)
    ∨ (j = Json.string "JOINTS_0" ∧ a = attribute_type.JOINTS_0)
    ∨ (j = Json.string "WEIGHTS_0" ∧ a = attribute_type.WEIGHTS_0) := by
  unfold attribute_from_json at h
  split at h
  · rename_i hj; cases h; exact Or.inl ⟨(eq_string_iff _ _).mp hj, rfl⟩
  split at h
  · rename_i hj; cases h; exact Or.inr (Or.inl ⟨(eq_string_iff _ _).mp hj, rfl⟩)
  split at h
  · rename_i hj; cases h; exact Or.inr (Or.inr (Or.inl ⟨(eq_string_iff _ _).mp hj, rfl⟩))
  split at h
  · rename_i hj; cases h
    exact Or.inr (Or.inr (Or.inr (Or.inl ⟨(eq_string_iff _ _).mp hj, rfl⟩)))
  split at h
  · rename_i hj; cases h
    exact Or.inr (Or.inr (Or.inr (Or.inr (Or.inl ⟨(eq_string_iff _ _).mp hj, rfl⟩))))
  split at h
  · rename_i hj; cases h
    exact Or.inr (Or.inr (Or.inr (Or.inr (Or.inr (Or.inl ⟨(eq_string_iff _ _).mp hj, rfl⟩)))))
  split at h
  · rename_i hj; cases h
    exact Or.inr (Or.inr (Or.inr (Or.inr (Or.inr (Or.inr
      (Or.inl ⟨(eq_string_iff _ _).mp hj, rfl⟩))))))
  split at h
  · rename_i hj; cases h
    exact Or.inr (Or.inr (Or.inr (Or.inr (Or.inr (Or.inr
      (Or.inr ⟨(eq_string_iff _ _).mp hj, rfl⟩))))))
  · cases h

theorem attribute_from_json_name (j : Json) (a : attribute_type)
    (h : attribute_from_json j = Except.ok a) :
    ∃ name ∈ ["POSITION", "NORMAL", "TANGENT", "TEXCOORD_0", "TEXCOORD_1", "COLOR_0",
      "JOINTS_0", "WEIGHTS_0"], j = Json.string name := by
  rcases attribute_from_json_ok j a h with h | h | h | h | h | h | h | h <;>
    exact ⟨_, by simp, h.1⟩

theorem attribute_from_json_injective (j1 j2 : Json) (a : attribute_type)
    (h1 : attribute_from_json j1 = Except.ok a) (h2 : attribute_from_json j2 = Except.ok a) :
    j1 = j2 := by
  rcases attribute_from_json_ok j1 a h1 with h | h | h | h | h | h | h | h <;>
    rcases attribute_from_json_ok j2 a h2 with g | g | g | g | g | g | g | g <;>
    first
      | (exfalso; have := h.2.symm.trans g.2; cases this; done)
      | (rw [h.1, g.1])

theorem attribute_from_json_other (j : Json)
    (h : ∀ name ∈ ["POSITION", "NORMAL", "TANGENT", "TEXCOORD_0", "TEXCOORD_1", "COLOR_0",
      "JOINTS_0", "WEIGHTS_0"], j ≠ Json.string name) :
    attribute_from_json j = Except.error (Err.invalid_argument "attribute") := by
  cases hr : attribute_from_json j with
  | ok a =>
    obtain ⟨name, hmem, hj⟩ := attribute_from_json_name j a hr
    exact absurd hj (h name hmem)
  | error e =>
    unfold attribute_from_json at hr
    repeat (split at hr; · cases hr)
    cases hr
    rfl

theorem attribute_val_injective (a b : attribute_type) (h : a.val = b.val) : a = b := by
  cases a <;> cases b <;> first | rfl | (simp [attribute_type.val] at h)

theorem emplace_new {K V : Type} (val : K → Nat) (hval : ∀ a b, val a = val b → a = b)
    (k : K) (v : V) :
    ∀ m : map_type K V, (∀ e ∈ m, e.1 ≠ k) →
      (map_type.emplace val m k v).length = m.length + 1
      ∧ (k, v) ∈ map_type.emplace val m k v
      ∧ ∀ e ∈ m, e ∈ map_type.emplace val m k v := by
  intro m
  induction m with
  | nil =>
    intro _
    simp [map_type.emplace]
  | cons kv rest ih =>
    obtain ⟨k0, v0⟩ := kv
    intro hnew
    have hne : ¬ (val k = val k0) := fun h =>
      hnew (k0, v0) (List.mem_cons_self _ _) (hval _ _ h).symm
    simp only [map_type.emplace, hne, if_false]
    split
    · refine ⟨by simp, List.mem_cons_self _ _, ?_⟩
      intro e he
      exact List.mem_cons_of_mem _ he
    · obtain ⟨h1, h2, h3⟩ := ih (fun e he => hnew e (List.mem_cons_of_mem _ he))
      refine ⟨by simp [h1], List.mem_cons_of_mem _ h2, ?_⟩
      intro e he
      rcases List.mem_cons.mp he with rfl | he
      · exact List.mem_cons_self _ _
      · exact List.mem_cons_of_mem _ (h3 e he)

/-- The loop over the members of `attributes`: with distinct member names,
each member adds one entry, under the enumerator of its name and with the
position of its accessor. -/
theorem attributes_entries (accessors : List accessor_type) :
    ∀ (members : List (String × Json)) (m0 m : map_type attribute_type Nat),
      parse.attributes accessors (members.map (fun kv => (some kv.1, kv.2))) m0 = Except.ok m →
      (members.map Prod.fst).Nodup →
      (∀ kv ∈ members, ∀ a, attribute_from_json (Json.string kv.1) = Except.ok a →
        ∀ e ∈ m0, e.1 ≠ a) →
      m.length = m0.length + members.length
      ∧ (∀ e ∈ m0, e ∈ m)
      ∧ ∀ kv ∈ members, ∃ a it, attribute_from_json (Json.string kv.1) = Except.ok a
          ∧ index_to_iterator_json accessors kv.2 = Except.ok it ∧ (a, it) ∈ m := by
  intro members
  induction members with
  | nil =>
    intro m0 m h _ _
    simp only [List.map_nil, parse.attributes, pure_eq_ok] at h
    subst h
    exact ⟨rfl, fun e he => he, fun kv hkv => by cases hkv⟩
  | cons kv rest ih =>
    obtain ⟨key, v⟩ := kv
    intro m0 m h hnodup hfresh
    simp only [List.map_cons, parse.attributes, iterator_key, bind_eq_ok, pure_eq_ok] at h
    obtain ⟨_, rfl, a, ha, it, hit, h⟩ := h
    simp only [List.map_cons, List.nodup_cons] at hnodup
    obtain ⟨h1, h2, h3⟩ := emplace_new attribute_type.val attribute_val_injective a it m0
      (hfresh (key, v) (List.mem_cons_self _ _) a ha)
    obtain ⟨g1, g2, g3⟩ := ih _ m h hnodup.2 (by
      intro kv hkv b hb e he
      rcases emplace_mem _ _ _ _ e he with he | he
      · exact hfresh kv (List.mem_cons_of_mem _ hkv) b hb e he
      · subst he
        intro hab
        have hab1 : a = b := hab
        subst hab1
        have := attribute_from_json_injective _ _ _ ha hb
        simp only [Json.string.injEq] at this
        exact hnodup.1 (this ▸ List.mem_map_of_mem Prod.fst hkv))
    refine ⟨by simp [g1, h1]; omega, fun e he => g2 e (h3 e he), ?_⟩
    intro kv hkv
    rcases List.mem_cons.mp hkv with rfl | hkv
    · exact ⟨a, it, ha, hit, g2 _ h2⟩
    · exact g3 kv hkv

theorem attributes_keys_ok (accessors : List accessor_type) :
    ∀ (items : List (Option String × Json)) (m0 m : map_type attribute_type Nat),
      parse.attributes accessors items m0 = Except.ok m →
      ∀ kv ∈ items, ∃ key a, kv.1 = some key
        ∧ attribute_from_json (Json.string key) = Except.ok a := by
  intro items
  induction items with
  | nil => intro m0 m _ kv hkv; cases hkv
  | cons kv0 rest ih =>
    obtain ⟨k, v⟩ := kv0
    intro m0 m h kv hkv
    simp only [parse.attributes, bind_eq_ok] at h
    obtain ⟨key, hkey, a, ha, it, _, h⟩ := h
    rcases List.mem_cons.mp hkv with rfl | hkv
    · cases k with
      | none => cases hkey
      | some key1 =>
        simp only [iterator_key, pure_eq_ok] at hkey
        subst hkey
        exact ⟨key1, a, rfl, ha⟩
    · exact ih _ m h kv hkv

theorem primitive_attributes (accessors : List accessor_type) (materials : List material_type)
    (mesh primitive : Json) (p : primitive_type)
    (h : parse.primitive accessors materials mesh primitive = Except.ok p) :
    ∃ attributes_json, primitive.find "attributes" = some attributes_json
      ∧ parse.attributes accessors attributes_json.items [] = Except.ok p.attributes := by
  simp only [parse.primitive, bind_eq_ok, pure_eq_ok] at h
  obtain ⟨attributes_json, hsub, attrs, hattrs, h⟩ := h
  repeat (obtain ⟨_, _, h⟩ := h)
  exact ⟨attributes_json, subscript_eq_ok _ _ _ hsub, hattrs⟩

/-- The primitive that `parse` stores at position `j` of the mesh at position
`i` is what the lambda over `primitives` returns for the JSON primitive there. -/
theorem parse_primitive_getElem (decode : String → Except Err (List UInt8)) (format : format_type)
    (m : model_type) (h : parse decode format = Except.ok m) (meshes_json : Json)
    (hmeshes : format.json.find "meshes" = some meshes_json) :
    m.meshes.length = meshes_json.elems.length
    ∧ ∀ (i : Nat) (mesh_json : Json) (mesh : mesh_type),
        meshes_json.elems[i]? = some mesh_json → m.meshes[i]? = some mesh →
        ∃ primitives_json, mesh_json.find "primitives" = some primitives_json
          ∧ mesh.primitives.length = primitives_json.elems.length
          ∧ ∀ (j : Nat) (primitive_json : Json) (p : primitive_type),
              primitives_json.elems[j]? = some primitive_json → mesh.primitives[j]? = some p →
              parse.primitive m.accessors m.materials mesh_json primitive_json
                = Except.ok p := by
  simp only [parse, bind_eq_ok, pure_eq_ok] at h
  obtain ⟨_, _, _, _, _, _, _, _, accessors, _, _, _, _, _, _, _, _, _, materials, _,
    meshes, hm, h⟩ := h
  repeat (obtain ⟨_, _, h⟩ := h)
  have ht := container_of_find _ _ _ _ _ hm hmeshes
  refine ⟨transform_ok_length _ _ _ ht, ?_⟩
  intro i mesh_json mesh hi hmesh
  obtain ⟨mesh1, hmesh1, hf⟩ := transform_ok_getElem _ _ _ ht i mesh_json hi
  have hmesh2 : meshes[i]? = some mesh := hmesh
  rw [hmesh2] at hmesh1
  cases hmesh1
  simp only [parse.mesh, transform_json_array_to_container, bind_eq_ok, pure_eq_ok] at hf
  obtain ⟨primitives_json, hsub, ps, hps, hf⟩ := hf
  repeat (obtain ⟨_, _, hf⟩ := hf)
  refine ⟨primitives_json, subscript_eq_ok _ _ _ hsub, transform_ok_length _ _ _ hps, ?_⟩
  intro j primitive_json p hj hp
  obtain ⟨p1, hp1, hfp⟩ := transform_ok_getElem _ _ _ hps j primitive_json hj
  have hp2 : ps[j]? = some p := hp
  rw [hp2] at hp1
  cases hp1
  exact hfp

/-- Claim C24. `attribute_from_json` maps the eight names to their
enumerators, two JSON values mapped to the same enumerator are equal, and
every other JSON value makes it throw `std::invalid_argument("attribute")`.
A document with a primitive whose `attributes` object has a member name
outside the eight makes `parse` fail. In a parsed model, the attribute map
of the primitive `j` of the mesh `i` has as many entries as the `attributes`
object of that JSON primitive has members, one for each member: under the
enumerator of its name, with the position of its accessor. -/
theorem attribute_from_json_eight_names :
    (attribute_from_json (Json.string "POSITION") = Except.ok attribute_type.POSITION
      ∧ attribute_from_json (Json.string "NORMAL") = Except.ok attribute_type.NORMAL
      ∧ attribute_from_json (Json.string "TANGENT") = Except.ok attribute_type.TANGENT
      ∧ attribute_from_json (Json.string "TEXCOORD_0") = Except.ok attribute_type.TEXCOORD_0
      ∧ attribute_from_json (Json.string "TEXCOORD_1") = Except.ok attribute_type.TEXCOORD_1
      ∧ attribute_from_json (Json.string "COLOR_0") = Except.ok attribute_type.COLOR_0
      ∧ attribute_from_json (Json.string "JOINTS_0") = Except.ok attribute_type.JOINTS_0
      ∧ attribute_from_json (Json.string "WEIGHTS_0") = Except.ok attribute_type.WEIGHTS_0)
    ∧ (∀ (j1 j2 : Json) (a : attribute_type), attribute_from_json j1 = Except.ok a →
        attribute_from_json j2 = Except.ok a → j1 = j2)
    ∧ (∀ j : Json,
        (∀ name ∈ ["POSITION", "NORMAL", "TANGENT", "TEXCOORD_0", "TEXCOORD_1", "COLOR_0",
          "JOINTS_0", "WEIGHTS_0"], j ≠ Json.string name) →
        attribute_from_json j = Except.error (Err.invalid_argument "attribute"))
    ∧ (∀ (decode : String → Except Err (List UInt8)) (format : format_type)
        (meshes_json mesh_json primitives_json primitive_json : Json)
        (members : List (String × Json)) (key : String),
        format.json.find "meshes" = some meshes_json → mesh_json ∈ meshes_json.elems →
        mesh_json.find "primitives" = some primitives_json →
        primitive_json ∈ primitives_json.elems →
        primitive_json.find "attributes" = some (Json.object members) →
        key ∈ members.map Prod.fst →
        key ∉ ["POSITION", "NORMAL", "TANGENT", "TEXCOORD_0", "TEXCOORD_1", "COLOR_0",
          "JOINTS_0", "WEIGHTS_0"] →
        ∃ e, parse decode format = Except.error e)
    ∧ (∀ (decode : String → Except Err (List UInt8)) (format : format_type) (m : model_type)
        (meshes_json mesh_json primitives_json primitive_json : Json) (mesh : mesh_type)
        (p : primitive_type) (members : List (String × Json)) (i j : Nat),
        parse decode format = Except.ok m →
        format.json.find "meshes" = some meshes_json →
        meshes_json.elems[i]? = some mesh_json → m.meshes[i]? = some mesh →
        mesh_json.find "primitives" = some primitives_json →
        primitives_json.elems[j]? = some primitive_json → mesh.primitives[j]? = some p →
        primitive_json.find "attributes" = some (Json.object members) →
        (members.map Prod.fst).Nodup →
        p.attributes.length = members.length
        ∧ ∀ kv ∈ members, ∃ a it, attribute_from_json (Json.string kv.1) = Except.ok a
            ∧ index_to_iterator_json m.accessors kv.2 = Except.ok it
            ∧ (a, it) ∈ p.attributes) := by
  refine ⟨⟨rfl, rfl, rfl, rfl, rfl, rfl, rfl, rfl⟩, attribute_from_json_injective,
    attribute_from_json_other, ?_, ?_⟩
  · intro decode format meshes_json mesh_json primitives_json primitive_json members key
      hmeshes hmesh hprims hprim hattrs hkey hout
    apply error_of_not_ok
    intro m h
    obtain ⟨hlen, hpos⟩ := parse_primitive_getElem decode format m h meshes_json hmeshes
    obtain ⟨i, hi⟩ := List.getElem?_of_mem hmesh
    have hlt : i < m.meshes.length := by
      rw [hlen]
      exact (List.getElem?_eq_some_iff.mp hi).1
    obtain ⟨primitives_json1, hp1, hplen, hppos⟩ :=
      hpos i mesh_json _ hi (List.getElem?_eq_getElem hlt)
    rw [hprims] at hp1
    cases hp1
    obtain ⟨j, hj⟩ := List.getElem?_of_mem hprim
    have hjlt : j < (m.meshes[i]).primitives.length := by
      rw [hplen]
      exact (List.getElem?_eq_some_iff.mp hj).1
    have hp := hppos j primitive_json _ hj (List.getElem?_eq_getElem hjlt)
    obtain ⟨attributes_json, ha, hloop⟩ := primitive_attributes _ _ _ _ _ hp
    rw [hattrs] at ha
    cases ha
    obtain ⟨kv, hkv, rfl⟩ := List.mem_map.mp hkey
    obtain ⟨key1, a, hk1, hok⟩ := attributes_keys_ok _ _ _ _ hloop (some kv.1, kv.2)
      (by
        simp only [Json.items]
        exact List.mem_map_of_mem (fun kv : String × Json => (some kv.1, kv.2)) hkv)
    simp only [Option.some.injEq] at hk1
    subst hk1
    obtain ⟨name, hname, hj1⟩ := attribute_from_json_name _ _ hok
    simp only [Json.string.injEq] at hj1
    rw [hj1] at hout
    exact hout hname
  · intro decode format m meshes_json mesh_json primitives_json primitive_json mesh p members
      i j h hmeshes hi hmesh hprims hj hp hattrs hnodup
    obtain ⟨_, hpos⟩ := parse_primitive_getElem decode format m h meshes_json hmeshes
    obtain ⟨primitives_json1, hp1, _, hppos⟩ := hpos i mesh_json mesh hi hmesh
    rw [hprims] at hp1
    cases hp1
    obtain ⟨attributes_json, ha, hloop⟩ := primitive_attributes _ _ _ _ _
      (hppos j primitive_json p hj hp)
    rw [hattrs] at ha
    cases ha
    obtain ⟨h1, _, h3⟩ := attributes_entries _ members [] _ hloop hnodup
      (fun _ _ _ _ e he => by cases he)
    exact ⟨by simpa using h1, h3⟩

theorem attribute_from_json_eight_names_witness :
    ∃ m, parse (fun _ => Except.ok []) { json := scene_document, binary := none } = Except.ok m
      ∧ ∃ mesh p, m.meshes[0]? = some mesh ∧ mesh.primitives[0]? = some p
        ∧ p.attributes.length = 1
        ∧ (∃ e, parse (fun _ => Except.ok [])
            { json := Json.object [
                ("asset", Json.object [("version", Json.string "2.0")]),
                ("meshes", Json.array [Json.object [
                  ("primitives", Json.array [
                    Json.object [("attributes",
                      Json.object [("TEXCOORD_2", Json.number_unsigned 0)])]])]])],
              binary := none } = Except.error e) :=
  ⟨_, rfl, _, _, rfl, rfl,
    (attribute_from_json_eight_names.2.2.2.2 (fun _ => Except.ok [])
      { json := scene_document, binary := none } _
      (Json.array [
        Json.object [
          ("primitives", Json.array [
            Json.object [
              ("attributes", Json.object [("POSITION", Json.number_unsigned 0)]),
              ("indices", Json.number_unsigned 1),
              ("material", Json.number_unsigned 0),
              ("targets", Json.object [("POSITION", Json.number_unsigned 0)])]])]])
      _ _ _ _ _ [("POSITION", Json.number_unsigned 0)] 0 0 rfl rfl rfl rfl rfl rfl rfl rfl
      (by decide)).1,
    attribute_from_json_eight_names.2.2.2.1 (fun _ => Except.ok []) _ _ _ _ _
      [("TEXCOORD_2", Json.number_unsigned 0)] "TEXCOORD_2" rfl
      (List.mem_cons_self _ _) rfl (List.mem_cons_self _ _) rfl (by decide) (by decide)⟩

/-! ## `parse`: the source and the MIME type of an image -/

theorem image_mime_type_values (j : Json) (t : mime_type)
    (h : image_mime_type_from_json j = Except.ok t) :
    j = Json.string "image/jpeg" ∨ j = Json.string "image/png" := by
  unfold image_mime_type_from_json at h
  split at h
  · rename_i hj; exact Or.inl ((eq_string_iff _ _).mp hj)
  · split at h
    · rename_i hj; exact Or.inr ((eq_string_iff _ _).mp hj)
    · cases h

/-- What a successful call of the lambda over `images` tells about the JSON image. -/
theorem image_of_json (decode : String → Except Err (List UInt8)) (buffer_views : List buffer_view_type)
    (image : Json) (img : image_type)
    (h : parse.image decode buffer_views image = Except.ok img) :
    (∀ v, image.find "mimeType" = some v →
      v = Json.string "image/jpeg" ∨ v = Json.string "image/png")
    ∧ (image.find "uri" = none →
        image.find "bufferView" ≠ none ∧ image.find "mimeType" ≠ none)
    ∧ (∀ v, image.find "uri" = some v → ∃ s u, v = Json.string s
        ∧ uri_type.uri_type decode s = Except.ok u
        ∧ img.uri_buffer_view = image_type.variant.uri u)
    ∧ (image.find "mimeType" = none → img.mime_type = none) := by
  simp only [parse.image, bind_eq_ok, pure_eq_ok] at h
  obtain ⟨ouri, houri, uri, huri, bv, hbv, omime, homime, mime, hmime, _, _, _, _, _, _, h⟩ := h
  have hu := optional_cast_of_find _ _ _ _ houri
  have hm := optional_cast_of_find _ _ _ _ homime
  have hb := optional_index_of_json _ _ _ _ hbv
  have hmnone : image.find "mimeType" = none → mime = none := by
    intro hnone
    have := hm.1 hnone
    subst this
    simp only [map, pure_eq_ok] at hmime
    exact hmime.symm
  refine ⟨?_, ?_, ?_, ?_⟩
  · intro v hv
    obtain ⟨s, rfl, hs⟩ := hm.2 v hv
    have := get_string_eq_ok _ _ hs
    subst this
    simp only [map, bind_eq_ok, pure_eq_ok] at hmime
    obtain ⟨t, ht, _⟩ := hmime
    exact image_mime_type_values _ _ ht
  · intro hnone
    have := hu.1 hnone
    subst this
    simp only [map, pure_eq_ok] at huri
    subst huri
    cases bv with
    | none => cases h
    | some b =>
      simp only at h
      split at h
      · cases h
      · rename_i hsome
        constructor
        · intro hbnone
          have := hb.1 hbnone
          cases this
        · intro hmn
          rw [hmnone hmn] at hsome
          exact hsome rfl
  · intro v hv
    obtain ⟨s, rfl, hs⟩ := hu.2 v hv
    have := get_string_eq_ok _ _ hs
    subst this
    simp only [map, bind_eq_ok, pure_eq_ok] at huri
    obtain ⟨u, hu1, rfl⟩ := huri
    simp only [pure_eq_ok] at h
    subst h
    exact ⟨s, u, rfl, hu1, rfl⟩
  · intro hnone
    have hmn := hmnone hnone
    subst hmn
    cases uri with
    | some u =>
      simp only [pure_eq_ok] at h
      subst h
      rfl
    | none =>
      cases bv with
      | none => cases h
      | some b =>
        simp only at h
        split at h
        · cases h
        · rename_i hsome
          exact absurd rfl hsome

/-- Every image of the `images` array goes through the lambda when `parse` succeeds. -/
theorem parse_image_getElem (decode : String → Except Err (List UInt8)) (format : format_type)
    (m : model_type) (h : parse decode format = Except.ok m) (images_json : Json)
    (himages : format.json.find "images" = some images_json) :
    m.images.length = images_json.elems.length
    ∧ ∀ (i : Nat) (image : Json) (img : image_type),
        images_json.elems[i]? = some image → m.images[i]? = some img →
        parse.image decode m.buffer_views image = Except.ok img := by
  simp only [parse, bind_eq_ok, pure_eq_ok] at h
  obtain ⟨_, _, _, _, _, _, buffer_views, _, _, _, _, _, _, _, images, himg, h⟩ := h
  repeat (obtain ⟨_, _, h⟩ := h)
  have ht := container_of_find _ _ _ _ _ himg himages
  refine ⟨transform_ok_length _ _ _ ht, ?_⟩
  intro i image img hi himg1
  obtain ⟨img1, h1, hf⟩ := transform_ok_getElem _ _ _ ht i image hi
  have h2 : images[i]? = some img := himg1
  rw [h2] at h1
  cases h1
  exact hf

theorem parse_image_of_mem (decode : String → Except Err (List UInt8)) (format : format_type)
    (m : model_type) (h : parse decode format = Except.ok m) (images_json image : Json)
    (himages : format.json.find "images" = some images_json)
    (hmem : image ∈ images_json.elems) :
    ∃ img, parse.image decode m.buffer_views image = Except.ok img := by
  obtain ⟨hlen, hpos⟩ := parse_image_getElem decode format m h images_json himages
  obtain ⟨i, hi⟩ := List.getElem?_of_mem hmem
  have hlt : i < m.images.length := by
    rw [hlen]
    exact (List.getElem?_eq_some_iff.mp hi).1
  exact ⟨_, hpos i image _ hi (List.getElem?_eq_getElem hlt)⟩

/-- Claim C25, as stated, fails: an image with a `uri` and no `mimeType`
does not always parse. With `"bufferView": 0` beside the `uri` in a document
without buffer views, `parse` throws `std::out_of_range`, and with a `uri`
that is a number it throws `type_error` 302. -/
theorem parse_image_with_uri_fails :
    Json.find (Json.object [("bufferView", Json.number_unsigned 0),
        ("uri", Json.string "a.png")]) "uri" = some (Json.string "a.png")
    ∧ Json.find (Json.object [("bufferView", Json.number_unsigned 0),
        ("uri", Json.string "a.png")]) "mimeType" = none
    ∧ parse (fun _ => Except.ok [])
        { json := Json.object [
            ("asset", Json.object [("version", Json.string "2.0")]),
            ("images", Json.array [
              Json.object [("bufferView", Json.number_unsigned 0),
                           ("uri", Json.string "a.png")]])],
          binary := none } = Except.error (Err.out_of_range "container")
    ∧ parse (fun _ => Except.ok [])
        { json := Json.object [
            ("asset", Json.object [("version", Json.string "2.0")]),
            ("images", Json.array [Json.object [("uri", Json.number_unsigned 7)]])],
          binary := none } = Except.error (Err.type_error 302) :=
  ⟨rfl, rfl, rfl, rfl⟩

/-- Claim C25, amended. `parse` fails for a document with an image that has
neither `uri` nor `mimeType` (so also for one with a `bufferView` only), with
an image that has neither `uri` nor `bufferView`, or with an image whose
`mimeType` is anything but "image/jpeg" or "image/png". An image of a parsed
model whose JSON has a `uri` and no `mimeType` is URI-sourced, from the URI
that the string denotes, and has no `mime_type`. The lambda over `images`
returns such an image whenever the `uri` is a string that the constructor of
`uri_type` accepts, the `bufferView` (if any) is in range and the `name` (if
any) is a string. -/
theorem parse_image_source_and_mime_type :
    (∀ (decode : String → Except Err (List UInt8)) (format : format_type) (images_json image : Json),
        format.json.find "images" = some images_json → image ∈ images_json.elems →
        image.find "uri" = none → image.find "mimeType" = none →
        ∃ e, parse decode format = Except.error e)
    ∧ (∀ (decode : String → Except Err (List UInt8)) (format : format_type) (images_json image : Json),
        format.json.find "images" = some images_json → image ∈ images_json.elems →
        image.find "uri" = none → image.find "bufferView" = none →
        ∃ e, parse decode format = Except.error e)
    ∧ (∀ (decode : String → Except Err (List UInt8)) (format : format_type) (images_json image v : Json),
        format.json.find "images" = some images_json → image ∈ images_json.elems →
        image.find "mimeType" = some v →
        v ≠ Json.string "image/jpeg" → v ≠ Json.string "image/png" →
        ∃ e, parse decode format = Except.error e)
    ∧ (∀ (decode : String → Except Err (List UInt8)) (format : format_type) (m : model_type)
        (images_json image v : Json) (img : image_type) (i : Nat),
        parse decode format = Except.ok m →
        format.json.find "images" = some images_json →
        images_json.elems[i]? = some image → m.images[i]? = some img →
        image.find "uri" = some v → image.find "mimeType" = none →
        (∃ s u, v = Json.string s ∧ uri_type.uri_type decode s = Except.ok u
          ∧ img.uri_buffer_view = image_type.variant.uri u)
        ∧ img.mime_type = none)
    ∧ (∀ (decode : String → Except Err (List UInt8)) (buffer_views : List buffer_view_type) (image : Json)
        (s : String) (u : uri_type) (bv : Option Nat) (name : Option String),
        image.find "uri" = some (Json.string s) → image.find "mimeType" = none →
        uri_type.uri_type decode s = Except.ok u →
        optional_index_to_iterator image "bufferView" buffer_views = Except.ok bv →
        optional_cast Json.get_string image "name" = Except.ok name →
        ∃ img, parse.image decode buffer_views image = Except.ok img
          ∧ img.uri_buffer_view = image_type.variant.uri u ∧ img.mime_type = none) := by
  refine ⟨?_, ?_, ?_, ?_, ?_⟩
  · intro decode format images_json image himages hmem huri hmime
    apply error_of_not_ok
    intro m h
    obtain ⟨img, himg⟩ := parse_image_of_mem decode format m h images_json image himages hmem
    exact ((image_of_json _ _ _ _ himg).2.1 huri).2 hmime
  · intro decode format images_json image himages hmem huri hbv
    apply error_of_not_ok
    intro m h
    obtain ⟨img, himg⟩ := parse_image_of_mem decode format m h images_json image himages hmem
    exact ((image_of_json _ _ _ _ himg).2.1 huri).1 hbv
  · intro decode format images_json image v himages hmem hmime h1 h2
    apply error_of_not_ok
    intro m h
    obtain ⟨img, himg⟩ := parse_image_of_mem decode format m h images_json image himages hmem
    rcases (image_of_json _ _ _ _ himg).1 v hmime with h3 | h3
    · exact h1 h3
    · exact h2 h3
  · intro decode format m images_json image v img i h himages hi himg huri hmime
    have hf := (parse_image_getElem decode format m h images_json himages).2 i image img hi himg
    have hinv := image_of_json _ _ _ _ hf
    exact ⟨hinv.2.2.1 v huri, hinv.2.2.2 hmime⟩
  · intro decode buffer_views image s u bv name huri hmime hu hbv hname
    cases image with
    | object members =>
      simp only [parse.image, optional_cast, huri, hmime, Json.get_string, pure_bind_ok, map,
        hu, ok_bind, hbv] at hname ⊢
      simp only [hname, ok_bind, Json.value]
      cases members.lookup "extensions" <;> cases members.lookup "extras" <;>
        exact ⟨_, rfl, rfl, rfl⟩
    | _ => simp [Json.find] at huri

theorem parse_image_source_and_mime_type_witness :
    (∃ e, parse (fun _ => Except.ok [])
        { json := Json.object [
            ("asset", Json.object [("version", Json.string "2.0")]),
            ("images", Json.array [Json.object [("bufferView", Json.number_unsigned 0)]])],
          binary := none } = Except.error e)
    ∧ (∃ img, parse.image (fun _ => Except.ok []) []
          (Json.object [("name", Json.string "n"), ("uri", Json.string "a.png")])
        = Except.ok img
      ∧ img.uri_buffer_view
          = image_type.variant.uri (uri_type.external ⟨"a.png"⟩)
      ∧ img.mime_type = none) :=
  ⟨parse_image_source_and_mime_type.1 (fun _ => Except.ok []) _ _
      (Json.object [("bufferView", Json.number_unsigned 0)]) rfl (List.mem_cons_self _ _)
      rfl rfl,
   parse_image_source_and_mime_type.2.2.2.2 (fun _ => Except.ok []) [] _ "a.png" _ none (some "n")
      rfl rfl rfl rfl rfl⟩

/-! ## `parse`: `extensions` and `extras` of a primitive -/

theorem mesh_primitive_extras (accessors : List accessor_type) (materials : List material_type)
    (mesh_json : Json) (mesh : mesh_type)
    (h : parse.mesh accessors materials mesh_json = Except.ok mesh) :
    ∀ p ∈ mesh.primitives, p.extensions = mesh.extensions ∧ p.extras = mesh.extras := by
  simp only [parse.mesh, transform_json_array_to_container, bind_eq_ok, pure_eq_ok] at h
  obtain ⟨_, _, ps, hps, _, _, _, _, e, he, x, hx, rfl⟩ := h
  intro p hp
  obtain ⟨j, _, hj⟩ := transform_ok_mem _ _ _ hps p hp
  simp only [parse.primitive, bind_eq_ok, pure_eq_ok] at hj
  obtain ⟨_, _, _, _, _, _, _, _, _, _, _, _, e1, he1, x1, hx1, rfl⟩ := hj
  rw [he] at he1
  rw [hx] at hx1
  cases he1
  cases hx1
  exact ⟨rfl, rfl⟩

/-- Claim C26, which the code does not meet. The lambda over `primitives`
reads `extensions` and `extras` from the enclosing `mesh`, never from the
primitive: in the document below the primitive has its own `extensions` and
`extras`, and the parsed primitive has those of the mesh. In every parsed
model each primitive has the `extensions` and `extras` of its mesh. -/
theorem primitive_extras_come_from_mesh :
    (∀ (decode : String → Except Err (List UInt8)) (binary : Option (List UInt8)),
      ∃ m, parse decode
          { json := Json.object [
              ("asset", Json.object [("version", Json.string "2.0")]),
              ("meshes", Json.array [Json.object [
                ("extensions", Json.object [("MESH_ext", Json.null)]),
                ("extras", Json.string "of the mesh"),
                ("primitives", Json.array [
                  Json.object [("attributes", Json.object []),
                               ("extensions", Json.object [("PRIM_ext", Json.null)]),
                               ("extras", Json.string "of the primitive")]])]])],
            binary := binary } = Except.ok m
        ∧ m.meshes.map (fun mesh => mesh.primitives.map (fun p => (p.extensions, p.extras)))
            = [[(Json.object [("MESH_ext", Json.null)], Json.string "of the mesh")]])
    ∧ (∀ (decode : String → Except Err (List UInt8)) (format : format_type) (m : model_type),
        parse decode format = Except.ok m → ∀ mesh ∈ m.meshes, ∀ p ∈ mesh.primitives,
          p.extensions = mesh.extensions ∧ p.extras = mesh.extras) := by
  refine ⟨fun _ _ => ⟨_, rfl, rfl⟩, ?_⟩
  intro decode format m h mesh hmesh
  simp only [parse, bind_eq_ok, pure_eq_ok] at h
  obtain ⟨_, _, _, _, _, _, _, _, _, _, _, _, _, _, _, _, _, _, _, _, meshes, hm, h⟩ := h
  repeat (obtain ⟨_, _, h⟩ := h)
  obtain ⟨x, hx⟩ := container_ok_mem _ _ _ _ hm mesh hmesh
  exact mesh_primitive_extras _ _ _ _ hx

/-! ## `parse`: the children of a node -/

theorem node_children_of_json (nodes : List node_type) (node_json : Json) (n n1 : node_type)
    (h : parse.node_children nodes node_json n = Except.ok n1) :
    (node_json.find "children" = none → n1.children = [])
    ∧ ∀ children_json, node_json.find "children" = some children_json →
        transform_json_array_to_container children_json (index_to_iterator_json nodes)
          = Except.ok n1.children := by
  simp only [parse.node_children, bind_eq_ok, pure_eq_ok] at h
  obtain ⟨children, hchildren, rfl⟩ := h
  constructor
  · intro hnone
    simp only [optional_ref, hnone, map, pure_eq_ok] at hchildren
    subst hchildren
    rfl
  · intro children_json hsome
    simp only [optional_ref, hsome, map, Json.subscript, bind_eq_ok, pure_eq_ok] at hchildren
    obtain ⟨l, ⟨c, hc, hl⟩, rfl⟩ := hchildren
    have : c = children_json := by
      cases node_json <;> simp only [Json.find] at hsome <;> try cases hsome
      rename_i members
      simp only [hsome, pure_eq_ok] at hc
      exact hc.symm
    subst this
    exact hl

/-- What `parse` stores in `children` of the node at position `i`. -/
theorem parse_node_children (decode : String → Except Err (List UInt8)) (format : format_type)
    (m : model_type) (h : parse decode format = Except.ok m) (nodes_json : Json)
    (hnodes : format.json.find "nodes" = some nodes_json) :
    m.nodes.length = nodes_json.elems.length
    ∧ ∀ (i : Nat) (node_json : Json) (n : node_type),
        nodes_json.elems[i]? = some node_json → m.nodes[i]? = some n →
        (node_json.find "children" = none → n.children = [])
        ∧ ∀ children_json, node_json.find "children" = some children_json →
            transform_json_array_to_container children_json (index_to_iterator_json m.nodes)
              = Except.ok n.children := by
  simp only [parse, bind_eq_ok, pure_eq_ok] at h
  obtain ⟨_, _, _, _, _, _, _, _, _, _, _, _, _, _, _, _, _, _, _, _, _, _,
    _, _, nodes0, hnodes0, nodes, hpatch, h⟩ := h
  repeat (obtain ⟨_, _, h⟩ := h)
  obtain ⟨hlen, hpos⟩ := two_pass_getElem _ _ _ _ _ _ _ hnodes0 hpatch hnodes
  refine ⟨hlen, ?_⟩
  intro i node_json n hi hn
  obtain ⟨n0, _, hg⟩ := hpos i node_json n hi hn
  have hc := node_children_of_json _ _ _ _ hg
  refine ⟨hc.1, ?_⟩
  intro children_json hsome
  have := hc.2 children_json hsome
  have hl : nodes0.length = nodes.length := (patch_length _ _ _ _ _ hpatch).symm
  simp only [transform_json_array_to_container] at this ⊢
  rw [show index_to_iterator_json nodes = index_to_iterator_json nodes0 from
    funext (fun c => index_to_iterator_json_length nodes nodes0 c hl.symm)]
  exact this

/-- Claim C27. In a parsed model there are as many nodes as the `nodes`
array has elements, and the node at position `i` has as `children` the
positions given by the `children` of the JSON node `i`: none when the member
is absent, else the same number, and at each place `k` the position that
`index_to_iterator` gives for the JSON element `k` (for an unsigned integer
`v` that is `v`), which is below the number of nodes. A child may come later
in the array or be the node itself: the document below gives node 0 the
children `[1, 0]`. A document with a child index that is not below the number
of nodes makes `parse` fail. -/
theorem node_children_are_json_children :
    (∀ (decode : String → Except Err (List UInt8)) (format : format_type) (m : model_type)
        (nodes_json : Json),
        parse decode format = Except.ok m → format.json.find "nodes" = some nodes_json →
        m.nodes.length = nodes_json.elems.length
        ∧ ∀ (i : Nat) (node_json : Json) (n : node_type),
            nodes_json.elems[i]? = some node_json → m.nodes[i]? = some n →
            (node_json.find "children" = none → n.children = [])
            ∧ ∀ children_json, node_json.find "children" = some children_json →
                n.children.length = children_json.elems.length
                ∧ ∀ (k : Nat) (c : Json), children_json.elems[k]? = some c →
                    ∃ p, n.children[k]? = some p
                      ∧ index_to_iterator_json m.nodes c = Except.ok p
                      ∧ p < m.nodes.length
                      ∧ ∀ v, c = Json.number_unsigned v → v < 2 ^ 64 → p = v)
    ∧ (∀ (decode : String → Except Err (List UInt8)) (binary : Option (List UInt8)),
        ∃ m, parse decode
            { json := Json.object [
                ("asset", Json.object [("version", Json.string "2.0")]),
                ("nodes", Json.array [
                  Json.object [("children",
                    Json.array [Json.number_unsigned 1, Json.number_unsigned 0])],
                  Json.object []])],
              binary := binary } = Except.ok m
          ∧ m.nodes.map (fun n => n.children) = [[1, 0], []])
    ∧ (∀ (decode : String → Except Err (List UInt8)) (format : format_type)
        (nodes_json node_json children_json : Json) (v : Nat),
        format.json.find "nodes" = some nodes_json → node_json ∈ nodes_json.elems →
        node_json.find "children" = some children_json →
        Json.number_unsigned v ∈ children_json.elems → v < 2 ^ 64 →
        nodes_json.elems.length ≤ v →
        ∃ e, parse decode format = Except.error e) := by
  refine ⟨?_, fun _ _ => ⟨_, rfl, rfl⟩, ?_⟩
  · intro decode format m nodes_json h hnodes
    obtain ⟨hlen, hpos⟩ := parse_node_children decode format m h nodes_json hnodes
    refine ⟨hlen, ?_⟩
    intro i node_json n hi hn
    obtain ⟨hnone, hsome⟩ := hpos i node_json n hi hn
    refine ⟨hnone, ?_⟩
    intro children_json hc
    exact indices_getElem _ _ _ (hsome children_json hc)
  · intro decode format nodes_json node_json children_json v hnodes hmem hc hv hv64 hge
    apply error_of_not_ok
    intro m h
    obtain ⟨hlen, hpos⟩ := parse_node_children decode format m h nodes_json hnodes
    obtain ⟨i, hi⟩ := List.getElem?_of_mem hmem
    have hlt : i < m.nodes.length := by
      rw [hlen]
      exact (List.getElem?_eq_some_iff.mp hi).1
    have hn : m.nodes[i]? = some m.nodes[i] := List.getElem?_eq_getElem hlt
    obtain ⟨_, hsome⟩ := hpos i node_json _ hi hn
    obtain ⟨_, hk⟩ := indices_getElem _ _ _ (hsome children_json hc)
    obtain ⟨k, hk1⟩ := List.getElem?_of_mem hv
    obtain ⟨p, _, _, hp, hpv⟩ := hk k _ hk1
    have := hpv v rfl hv64
    omega

theorem node_children_are_json_children_witness :
    ∃ m, parse (fun _ => Except.ok []) { json := scene_document, binary := none } = Except.ok m
      ∧ m.nodes.length = 2
      ∧ ∃ n, m.nodes[0]? = some n ∧ n.children.length = 1 ∧ n.children[0]? = some 1 :=
  have h := node_children_are_json_children.1 (fun _ => Except.ok [])
    { json := scene_document, binary := none } _
    (Json.array [
      Json.object [("camera", Json.number_unsigned 0),
                   ("children", Json.array [Json.number_unsigned 1]),
                   ("mesh", Json.number_unsigned 0),
                   ("skin", Json.number_unsigned 0)],
      Json.object []]) rfl rfl
  have h0 := (h.2 0 _ _ rfl rfl).2 (Json.array [Json.number_unsigned 1]) rfl
  ⟨_, rfl, h.1, _, rfl, h0.1, by
    obtain ⟨p, hp, _, _, hv⟩ := h0.2 0 _ rfl
    rw [hp, hv 1 rfl (by norm_num)]⟩

/-! ## `parse`: the joints and the skeleton of a skin -/

theorem skin_joints_of_json (nodes : List node_type) (skin_json : Json) (s s1 : skin_type)
    (h : parse.skin_joints nodes skin_json s = Except.ok s1) :
    optional_index_to_iterator skin_json "skeleton" nodes = Except.ok s1.skeleton
    ∧ ∃ joints_json, skin_json.find "joints" = some joints_json
        ∧ transform_json_array_to_container joints_json (index_to_iterator_json nodes)
            = Except.ok s1.joints := by
  simp only [parse.skin_joints, bind_eq_ok, pure_eq_ok] at h
  obtain ⟨sk, hsk, joints_json, hj, joints, hjoints, rfl⟩ := h
  exact ⟨hsk, joints_json, subscript_eq_ok _ _ _ hj, hjoints⟩

/-- What `parse` stores in `joints` and `skeleton` of the skin at position `k`,
and the number of nodes of the model. -/
theorem parse_skin_joints (decode : String → Except Err (List UInt8)) (format : format_type)
    (m : model_type) (h : parse decode format = Except.ok m) :
    m.nodes.length = nodes_count format.json
    ∧ ∀ skins_json, format.json.find "skins" = some skins_json →
        m.skins.length = skins_json.elems.length
        ∧ ∀ (k : Nat) (skin_json : Json) (s : skin_type),
            skins_json.elems[k]? = some skin_json → m.skins[k]? = some s →
            optional_index_to_iterator skin_json "skeleton" m.nodes = Except.ok s.skeleton
            ∧ ∃ joints_json, skin_json.find "joints" = some joints_json
                ∧ transform_json_array_to_container joints_json
                    (index_to_iterator_json m.nodes) = Except.ok s.joints := by
  simp only [parse, bind_eq_ok, pure_eq_ok] at h
  obtain ⟨_, _, _, _, _, _, _, _, _, _, _, _, _, _, _, _, _, _, _, _, _, _,
    skins0, hskins0, nodes0, hnodes0, nodes, hnodes, skins, hskins, h⟩ := h
  repeat (obtain ⟨_, _, h⟩ := h)
  constructor
  · show nodes.length = nodes_count format.json
    rw [patch_length _ _ _ _ _ hnodes, container_length_of_key _ _ _ _ hnodes0]
    rfl
  · intro skins_json hfind
    obtain ⟨hlen, hpos⟩ := two_pass_getElem _ _ _ _ _ _ _ hskins0 hskins hfind
    refine ⟨hlen, ?_⟩
    intro k skin_json s hk hs
    obtain ⟨s0, _, hg⟩ := hpos k skin_json s hk hs
    exact skin_joints_of_json _ _ _ _ hg

/-- Claim C28. In a parsed model the skin at position `k` has as `joints`
the positions given by the `joints` of the JSON skin `k`, in the same order
and number (for an unsigned integer `v` the position `v`, below the number of
nodes), and as `skeleton` the position given by the member `skeleton`, or
nothing when that member is absent. A document with a joint index or a
skeleton index that is not below the number of nodes makes `parse` fail. -/
theorem skin_joints_are_json_joints :
    (∀ (decode : String → Except Err (List UInt8)) (format : format_type) (m : model_type)
        (skins_json : Json),
        parse decode format = Except.ok m → format.json.find "skins" = some skins_json →
        m.nodes.length = nodes_count format.json
        ∧ m.skins.length = skins_json.elems.length
        ∧ ∀ (k : Nat) (skin_json : Json) (s : skin_type),
            skins_json.elems[k]? = some skin_json → m.skins[k]? = some s →
            (∃ joints_json, skin_json.find "joints" = some joints_json
              ∧ s.joints.length = joints_json.elems.length
              ∧ ∀ (j : Nat) (c : Json), joints_json.elems[j]? = some c →
                  ∃ p, s.joints[j]? = some p
                    ∧ index_to_iterator_json m.nodes c = Except.ok p
                    ∧ p < m.nodes.length
                    ∧ ∀ v, c = Json.number_unsigned v → v < 2 ^ 64 → p = v)
            ∧ (skin_json.find "skeleton" = none → s.skeleton = none)
            ∧ ∀ c, skin_json.find "skeleton" = some c →
                ∃ p, s.skeleton = some p
                  ∧ index_to_iterator_json m.nodes c = Except.ok p
                  ∧ p < m.nodes.length
                  ∧ ∀ v, c = Json.number_unsigned v → v < 2 ^ 64 → p = v)
    ∧ (∀ (decode : String → Except Err (List UInt8)) (format : format_type)
        (skins_json skin_json joints_json : Json) (v : Nat),
        format.json.find "skins" = some skins_json → skin_json ∈ skins_json.elems →
        skin_json.find "joints" = some joints_json →
        Json.number_unsigned v ∈ joints_json.elems → v < 2 ^ 64 →
        nodes_count format.json ≤ v →
        ∃ e, parse decode format = Except.error e)
    ∧ (∀ (decode : String → Except Err (List UInt8)) (format : format_type)
        (skins_json skin_json : Json) (v : Nat),
        format.json.find "skins" = some skins_json → skin_json ∈ skins_json.elems →
        skin_json.find "skeleton" = some (Json.number_unsigned v) → v < 2 ^ 64 →
        nodes_count format.json ≤ v →
        ∃ e, parse decode format = Except.error e) := by
  refine ⟨?_, ?_, ?_⟩
  · intro decode format m skins_json h hskins
    obtain ⟨hn, hs⟩ := parse_skin_joints decode format m h
    obtain ⟨hlen, hpos⟩ := hs skins_json hskins
    refine ⟨hn, hlen, ?_⟩
    intro k skin_json s hk hsk
    obtain ⟨hskel, joints_json, hj, hjoints⟩ := hpos k skin_json s hk hsk
    obtain ⟨h1, h2⟩ := indices_getElem _ _ _ hjoints
    obtain ⟨h3, h4⟩ := optional_index_of_json _ _ _ _ hskel
    exact ⟨⟨joints_json, hj, h1, h2⟩, h3, h4⟩
  · intro decode format skins_json skin_json joints_json v hskins hmem hj hv hv64 hge
    apply error_of_not_ok
    intro m h
    obtain ⟨hn, hs⟩ := parse_skin_joints decode format m h
    obtain ⟨hlen, hpos⟩ := hs skins_json hskins
    obtain ⟨k, hk⟩ := List.getElem?_of_mem hmem
    have hlt : k < m.skins.length := by
      rw [hlen]
      exact (List.getElem?_eq_some_iff.mp hk).1
    obtain ⟨_, joints_json1, hj1, hjoints⟩ :=
      hpos k skin_json _ hk (List.getElem?_eq_getElem hlt)
    rw [hj] at hj1
    cases hj1
    obtain ⟨_, h2⟩ := indices_getElem _ _ _ hjoints
    obtain ⟨j, hj2⟩ := List.getElem?_of_mem hv
    obtain ⟨p, _, _, hp, hpv⟩ := h2 j _ hj2
    have := hpv v rfl hv64
    omega
  · intro decode format skins_json skin_json v hskins hmem hsk hv64 hge
    apply error_of_not_ok
    intro m h
    obtain ⟨hn, hs⟩ := parse_skin_joints decode format m h
    obtain ⟨hlen, hpos⟩ := hs skins_json hskins
    obtain ⟨k, hk⟩ := List.getElem?_of_mem hmem
    have hlt : k < m.skins.length := by
      rw [hlen]
      exact (List.getElem?_eq_some_iff.mp hk).1
    obtain ⟨hskel, _⟩ := hpos k skin_json _ hk (List.getElem?_eq_getElem hlt)
    obtain ⟨p, _, _, hp, hpv⟩ := (optional_index_of_json _ _ _ _ hskel).2 _ hsk
    have := hpv v rfl hv64
    omega

theorem skin_joints_are_json_joints_witness :
    ∃ m, parse (fun _ => Except.ok []) { json := scene_document, binary := none } = Except.ok m
      ∧ m.nodes.length = 2 ∧ m.skins.length = 1
      ∧ ∃ s, m.skins[0]? = some s ∧ s.joints.length = 1 ∧ s.joints[0]? = some 1
          ∧ s.skeleton = some 0 :=
  have h := skin_joints_are_json_joints.1 (fun _ => Except.ok [])
    { json := scene_document, binary := none } _
    (Json.array [
      Json.object [("inverseBindMatrices", Json.number_unsigned 0),
                   ("joints", Json.array [Json.number_unsigned 1]),
                   ("skeleton", Json.number_unsigned 0)]]) rfl rfl
  have h0 := h.2.2 0 _ _ rfl rfl
  ⟨_, rfl, h.1, h.2.1, _, rfl, by
    obtain ⟨joints_json, hj, hlen, hpos⟩ := h0.1
    cases hj
    refine ⟨hlen, ?_, ?_⟩
    · obtain ⟨p, hp, _, _, hv⟩ := hpos 0 _ rfl
      rw [hp, hv 1 rfl (by norm_num)]
    · obtain ⟨p, hp, _, _, hv⟩ := h0.2.2 _ rfl
      rw [hp, hv 0 rfl (by norm_num)]⟩

/-! ## `number_type` -/

/-- Claim C29, which the code does not meet. `as_integer` compares a stored
unsigned value with `<` against the largest `integer_type`, so for
2147483647, which an `integer_type` holds, it returns no value; it returns
`u` exactly for the stored unsigned values `u < 2147483647`. A stored signed
value is returned as it is, a stored float gives no value, and the function
throws nowhere. The opposite conversion accepts its boundary:
`as_unsigned_integer` of the signed 2147483647 is that number. -/
theorem as_integer_rejects_int_max :
    (number_type.unsigned_integer 2147483647).as_integer = none
    ∧ (∀ u : Nat, (number_type.unsigned_integer u).as_integer
        = if u < 2147483647 then some (u : Int) else none)
    ∧ (∀ i : Int, (number_type.integer i).as_integer = some i)
    ∧ (∀ d : decimal_type, (number_type.decimal d).as_integer = none)
    ∧ (number_type.integer 2147483647).as_unsigned_integer = some 2147483647 := by
  refine ⟨by decide, ?_, fun _ => rfl, fun _ => rfl, by decide⟩
  intro u
  simp only [number_type.as_integer]
  split
  · rename_i h
    rw [wrapS32_of_range u (by omega) (by omega)]
  · rfl

/-- Claim C30, as stated, fails: the negative integer -4294967296 is stored
under the signed tag as 0 (the JSON library converts it to `integer_type` by
a cast, modulo `2 ^ 32`), and `as_unsigned_integer` returns 0 for it, not
"no value". -/
theorem number_type_negative_narrowed :
    number_type.number_type (Json.number_integer (-4294967296))
        = Except.ok (number_type.integer 0)
    ∧ (number_type.integer 0).as_unsigned_integer = some 0 :=
  ⟨rfl, rfl⟩

/-- Claim C30, amended. The constructor of `number_type` from JSON stores a
float under the decimal tag, a signed integer under the signed tag and an
unsigned integer under the unsigned tag, with the value itself where it fits
the 32 bits of the tag (a wider value is stored modulo `2 ^ 32`), and throws
`std::invalid_argument` for a string, a boolean, `null`, an array or an
object. Hence `as_unsigned_integer` returns `n` for every unsigned `n` of 32
bits and no value for every negative integer of 32 bits (from `-2 ^ 31`). -/
theorem number_type_keeps_representation :
    (∀ d : Dbl, number_type.number_type (Json.number_float d)
        = Except.ok (number_type.decimal (decimal_type.of_double d)))
    ∧ (∀ i : Int, ∃ v, number_type.number_type (Json.number_integer i)
        = Except.ok (number_type.integer v))
    ∧ (∀ n : Nat, ∃ v, number_type.number_type (Json.number_unsigned n)
        = Except.ok (number_type.unsigned_integer v))
    ∧ (∀ i : Int, -(2 ^ 31) ≤ i → i < 0 →
        number_type.number_type (Json.number_integer i) = Except.ok (number_type.integer i)
        ∧ (number_type.integer i).as_unsigned_integer = none)
    ∧ (∀ n : Nat, n < 2 ^ 32 →
        number_type.number_type (Json.number_unsigned n)
          = Except.ok (number_type.unsigned_integer n)
        ∧ (number_type.unsigned_integer n).as_unsigned_integer = some n)
    ∧ (∀ s, number_type.number_type (Json.string s)
        = Except.error (Err.invalid_argument "Not a number"))
    ∧ (∀ b, number_type.number_type (Json.boolean b)
        = Except.error (Err.invalid_argument "Not a number"))
    ∧ number_type.number_type Json.null = Except.error (Err.invalid_argument "Not a number")
    ∧ (∀ xs, number_type.number_type (Json.array xs)
        = Except.error (Err.invalid_argument "Not a number"))
    ∧ (∀ members, number_type.number_type (Json.object members)
        = Except.error (Err.invalid_argument "Not a number")) := by
  refine ⟨fun _ => rfl, fun _ => ⟨_, rfl⟩, fun _ => ⟨_, rfl⟩, ?_, ?_, fun _ => rfl,
    fun _ => rfl, rfl, fun _ => rfl, fun _ => rfl⟩
  · intro i h0 h1
    constructor
    · simp only [number_type.number_type, wrapS32_of_range i h0 (by omega)]
      rfl
    · have : ¬ (0 ≤ i) := by omega
      simp only [number_type.as_unsigned_integer, this, if_false]
  · intro n hn
    constructor
    · simp only [number_type.number_type, wrapU32_of_lt n hn]
      rfl
    · rfl

theorem number_type_keeps_representation_witness :
    (number_type.number_type (Json.number_integer (-3)) = Except.ok (number_type.integer (-3))
      ∧ (number_type.integer (-3)).as_unsigned_integer = none)
    ∧ (number_type.number_type (Json.number_unsigned 7)
        = Except.ok (number_type.unsigned_integer 7)
      ∧ (number_type.unsigned_integer 7).as_unsigned_integer = some 7) :=
  ⟨number_type_keeps_representation.2.2.2.1 (-3) (by decide) (by decide),
   number_type_keeps_representation.2.2.2.2.1 7 (by decide)⟩

/-! ## `open`: a data URI -/

theorem open_uri_data (read_file : String → String → Option (List UInt8)) (wd : String)
    (value : uri_type.data_type) (offset : Int) (length : Option Nat) :
    open_uri read_file wd (uri_type.data value) offset length
      = Except.ok (Sum.inl
          { data := { base := value.value, offset := offset,
                      size := match length with
                        | some n => n
                        | none => wrapU 64 (value.value.length - offset) },
            mime_type := value.mime_type }) := rfl

/-- Claim C31, which the code does not meet. For a data URI `open` checks
nothing: whatever `offset` and `length` are, it returns a view, the window of
`length` bytes at `data() + offset`. With three decoded bytes, offset 2 and
length 5 it returns the window `[2, 7)`, and with offset 5 and no length the
window of `2 ^ 64 - 2` bytes at 5; neither lies inside the decoded bytes. -/
theorem open_data_uri_is_not_bounds_checked :
    (∀ (read_file : String → String → Option (List UInt8)) (wd : String)
        (value : uri_type.data_type) (offset : Int) (length : Option Nat),
        ∃ v, open_uri read_file wd (uri_type.data value) offset length
          = Except.ok (Sum.inl v))
    ∧ (∀ (read_file : String → String → Option (List UInt8)) (wd : String),
        open_uri read_file wd
            (uri_type.data { value := [1, 2, 3],
                             mime_type := uri_type.mime_type_type.application_octet_stream })
            2 (some 5)
          = Except.ok (Sum.inl
              { data := { base := [1, 2, 3], offset := 2, size := 5 },
                mime_type := uri_type.mime_type_type.application_octet_stream }))
    ∧ string_view.bytes { base := [1, 2, 3], offset := 2, size := 5 } = none
    ∧ (∀ (read_file : String → String → Option (List UInt8)) (wd : String),
        open_uri read_file wd
            (uri_type.data { value := [1, 2, 3],
                             mime_type := uri_type.mime_type_type.application_octet_stream })
            5 none
          = Except.ok (Sum.inl
              { data := { base := [1, 2, 3], offset := 5, size := 2 ^ 64 - 2 },
                mime_type := uri_type.mime_type_type.application_octet_stream }))
    ∧ string_view.bytes { base := [1, 2, 3], offset := 5, size := 2 ^ 64 - 2 } = none := by
  refine ⟨fun _ _ _ _ _ => ⟨_, rfl⟩, fun _ _ => rfl, by decide, fun _ _ => ?_, by decide⟩
  rw [open_uri_data]
  have : wrapU 64 (([1, 2, 3] : List UInt8).length - 5) = 2 ^ 64 - 2 := by
    unfold wrapU
    norm_num
    rfl
  simp only [this]

theorem wrapU_sub_of_le (n : Nat) (offset : Int) (h0 : 0 ≤ offset) (h1 : offset ≤ n)
    (hn : n < 2 ^ 64) : wrapU 64 (n - offset) = n - offset.toNat := by
  unfold wrapU
  norm_num at hn ⊢
  omega

/-- Claim C32. For a data URI with decoded bytes `d` and MIME type `m`, and
an offset that is not negative: with a length such that `offset + length` is
at most the number of bytes, `open` returns a view that shows
`d[offset, offset + length)` and carries `m`; with no length and an offset of
at most the number of bytes (a `std::string` has fewer than `2 ^ 64`), a view
that shows `d[offset, |d|)` and carries `m`. The result is the same for every
working directory and file system. -/
theorem open_data_uri_in_range (value : uri_type.data_type) (offset : Int) (h0 : 0 ≤ offset) :
    (∀ (read_file : String → String → Option (List UInt8)) (wd : String) (length : Nat),
        offset + length ≤ value.value.length →
        ∃ v, open_uri read_file wd (uri_type.data value) offset (some length)
            = Except.ok (Sum.inl v)
          ∧ v.data.bytes = some ((value.value.drop offset.toNat).take length)
          ∧ v.mime_type = value.mime_type)
    ∧ (∀ (read_file : String → String → Option (List UInt8)) (wd : String),
        offset ≤ value.value.length → value.value.length < 2 ^ 64 →
        ∃ v, open_uri read_file wd (uri_type.data value) offset none
            = Except.ok (Sum.inl v)
          ∧ v.data.bytes = some (value.value.drop offset.toNat)
          ∧ v.mime_type = value.mime_type)
    ∧ (∀ (read_file1 read_file2 : String → String → Option (List UInt8)) (wd1 wd2 : String)
        (length : Option Nat),
        open_uri read_file1 wd1 (uri_type.data value) offset length
          = open_uri read_file2 wd2 (uri_type.data value) offset length) := by
  refine ⟨?_, ?_, fun _ _ _ _ _ => rfl⟩
  · intro read_file wd length h
    refine ⟨_, rfl, ?_, rfl⟩
    simp only [string_view.bytes]
    rw [if_pos ⟨h0, h⟩]
  · intro read_file wd h hlen
    refine ⟨_, rfl, ?_, rfl⟩
    simp only [string_view.bytes]
    rw [wrapU_sub_of_le _ offset h0 h hlen]
    rw [if_pos ⟨h0, by omega⟩]
    congr 1
    apply List.take_of_length_le
    simp only [List.length_drop]
    exact le_refl _

theorem open_data_uri_in_range_witness :
    (∃ v, open_uri (fun _ _ => none) "wd"
          (uri_type.data { value := [10, 11, 12, 13],
                           mime_type := uri_type.mime_type_type.image_png }) 1 (some 2)
        = Except.ok (Sum.inl v)
      ∧ v.data.bytes = some [11, 12] ∧ v.mime_type = uri_type.mime_type_type.image_png)
    ∧ (∃ v, open_uri (fun _ _ => none) "wd"
          (uri_type.data { value := [10, 11, 12, 13],
                           mime_type := uri_type.mime_type_type.image_png }) 1 none
        = Except.ok (Sum.inl v)
      ∧ v.data.bytes = some [11, 12, 13] ∧ v.mime_type = uri_type.mime_type_type.image_png) :=
  have h := open_data_uri_in_range
    { value := [10, 11, 12, 13], mime_type := uri_type.mime_type_type.image_png } 1 (by decide)
  ⟨h.1 (fun _ _ => none) "wd" 2 (by decide),
   h.2.1 (fun _ _ => none) "wd" (by decide) (by norm_num)⟩

/-! ## `parse`: texture samplers -/

theorem channel_sampler_of_json (samplers : List animation_sampler_type)
    (nodes : List node_type) (channel : Json) (c : channel_type)
    (h : parse.channel samplers nodes channel = Except.ok c) :
    ∃ index, channel.find "sampler" = some index
      ∧ index_to_iterator_json samplers index = Except.ok c.sampler
      ∧ c.sampler < samplers.length
      ∧ ∀ v, index = Json.number_unsigned v → v < 2 ^ 64 → c.sampler = v := by
  simp only [parse.channel, bind_eq_ok, pure_eq_ok] at h
  obtain ⟨_, _, index, hsub, s, hs, h⟩ := h
  repeat (obtain ⟨_, _, h⟩ := h)
  refine ⟨index, subscript_eq_ok _ _ _ hsub, hs, index_to_iterator_json_lt _ _ _ hs, ?_⟩
  intro v hv hlt
  subst hv
  exact (index_to_iterator_unsigned samplers v s hlt hs).1

/-- The animation that `parse` stores at position `i`: its samplers and
channels are those of the JSON animation there, and each channel went through
the lambda over `channels` with the samplers of this animation. -/
theorem parse_animation_getElem (decode : String → Except Err (List UInt8)) (format : format_type)
    (m : model_type) (h : parse decode format = Except.ok m) (animations_json : Json)
    (hfind : format.json.find "animations" = some animations_json) :
    m.animations.length = animations_json.elems.length
    ∧ ∀ (i : Nat) (animation : Json) (a : animation_type),
        animations_json.elems[i]? = some animation → m.animations[i]? = some a →
        ∃ samplers_json channels_json,
          animation.find "samplers" = some samplers_json
          ∧ a.samplers.length = samplers_json.elems.length
          ∧ animation.find "channels" = some channels_json
          ∧ a.channels.length = channels_json.elems.length
          ∧ ∀ (k : Nat) (channel : Json) (c : channel_type),
              channels_json.elems[k]? = some channel → a.channels[k]? = some c →
              parse.channel a.samplers m.nodes channel = Except.ok c := by
  simp only [parse, bind_eq_ok, pure_eq_ok] at h
  obtain ⟨_, _, _, _, _, _, _, _, accessors, _, _, _, _, _, _, _, _, _, _, _, _, _,
    _, _, _, _, nodes, _, _, _, animations, hanim, h⟩ := h
  repeat (obtain ⟨_, _, h⟩ := h)
  have ht := container_of_find _ _ _ _ _ hanim hfind
  refine ⟨transform_ok_length _ _ _ ht, ?_⟩
  intro i animation a hi ha
  obtain ⟨a1, h1, hf⟩ := transform_ok_getElem _ _ _ ht i animation hi
  have h2 : animations[i]? = some a := ha
  rw [h2] at h1
  cases h1
  simp only [parse.animation, transform_json_array_to_container, bind_eq_ok, pure_eq_ok] at hf
  obtain ⟨samplers_json, hsj, samplers, hss, channels_json, hcj, channels, hcs, hf⟩ := hf
  repeat (obtain ⟨_, _, hf⟩ := hf)
  refine ⟨samplers_json, channels_json, subscript_eq_ok _ _ _ hsj,
    transform_ok_length _ _ _ hss, subscript_eq_ok _ _ _ hcj, transform_ok_length _ _ _ hcs, ?_⟩
  intro k channel c hk hc
  obtain ⟨c1, hc1, hfc⟩ := transform_ok_getElem _ _ _ hcs k channel hk
  have hc2 : channels[k]? = some c := hc
  rw [hc2] at hc1
  cases hc1
  exact hfc

/-- Claim C34. In a parsed model the animation at position `i` has as many
samplers as the `samplers` array of the JSON animation `i` has elements, and
the `sampler` of each of its channels is the position given by the member
`sampler` of the JSON channel (for an unsigned integer `v`, `v`), a position
below the number of samplers of this animation. A document with an animation
of `n` samplers and a channel whose `sampler` is an unsigned integer not
below `n` makes `parse` fail, whatever the other animations and the
top-level `samplers` array hold. -/
theorem channel_sampler_is_of_its_animation :
    (∀ (decode : String → Except Err (List UInt8)) (format : format_type) (m : model_type)
        (animations_json animation : Json) (a : animation_type) (i : Nat),
        parse decode format = Except.ok m →
        format.json.find "animations" = some animations_json →
        animations_json.elems[i]? = some animation → m.animations[i]? = some a →
        ∃ samplers_json channels_json,
          animation.find "samplers" = some samplers_json
          ∧ a.samplers.length = samplers_json.elems.length
          ∧ animation.find "channels" = some channels_json
          ∧ a.channels.length = channels_json.elems.length
          ∧ ∀ (k : Nat) (channel : Json) (c : channel_type),
              channels_json.elems[k]? = some channel → a.channels[k]? = some c →
              ∃ index, channel.find "sampler" = some index
                ∧ index_to_iterator_json a.samplers index = Except.ok c.sampler
                ∧ c.sampler < a.samplers.length
                ∧ ∀ v, index = Json.number_unsigned v → v < 2 ^ 64 → c.sampler = v)
    ∧ (∀ (decode : String → Except Err (List UInt8)) (format : format_type)
        (animations_json animation samplers_json channels_json channel : Json) (v : Nat),
        format.json.find "animations" = some animations_json →
        animation ∈ animations_json.elems →
        animation.find "samplers" = some samplers_json →
        animation.find "channels" = some channels_json →
        channel ∈ channels_json.elems →
        channel.find "sampler" = some (Json.number_unsigned v) → v < 2 ^ 64 →
        samplers_json.elems.length ≤ v →
        ∃ e, parse decode format = Except.error e) := by
  constructor
  · intro decode format m animations_json animation a i h hfind hi ha
    obtain ⟨samplers_json, channels_json, h1, h2, h3, h4, h5⟩ :=
      (parse_animation_getElem decode format m h animations_json hfind).2 i animation a hi ha
    refine ⟨samplers_json, channels_json, h1, h2, h3, h4, ?_⟩
    intro k channel c hk hc
    exact channel_sampler_of_json _ _ _ _ (h5 k channel c hk hc)
  · intro decode format animations_json animation samplers_json channels_json channel v
      hfind hmem hs hc hchan hv hlt hge
    apply error_of_not_ok
    intro m h
    obtain ⟨hlen, hpos⟩ := parse_animation_getElem decode format m h animations_json hfind
    obtain ⟨i, hi⟩ := List.getElem?_of_mem hmem
    have hilt : i < m.animations.length := by
      rw [hlen]
      exact (List.getElem?_eq_some_iff.mp hi).1
    obtain ⟨samplers_json1, channels_json1, h1, h2, h3, h4, h5⟩ :=
      hpos i animation _ hi (List.getElem?_eq_getElem hilt)
    rw [hs] at h1
    rw [hc] at h3
    cases h1
    cases h3
    obtain ⟨k, hk⟩ := List.getElem?_of_mem hchan
    have hklt : k < (m.animations[i]).channels.length := by
      rw [h4]
      exact (List.getElem?_eq_some_iff.mp hk).1
    obtain ⟨index, hidx, _, hbound, hval⟩ :=
      channel_sampler_of_json _ _ _ _ (h5 k channel _ hk (List.getElem?_eq_getElem hklt))
    rw [hv] at hidx
    cases hidx
    have := hval v rfl hlt
    omega

theorem channel_sampler_is_of_its_animation_witness :
    (∃ m, parse (fun _ => Except.ok []) { json := scene_document, binary := none } = Except.ok m
      ∧ ∃ a c, m.animations[0]? = some a ∧ a.channels[0]? = some c
        ∧ a.samplers.length = 1 ∧ c.sampler = 0)
    ∧ (∃ e, parse (fun _ => Except.ok []) { json := two_animations_document, binary := none }
        = Except.error e)
    ∧ parse (fun _ => Except.ok []) { json := two_animations_document, binary := none }
        = Except.error (Err.out_of_range "container") :=
  ⟨⟨_, rfl, _, _, rfl, rfl, by
      obtain ⟨sj, cj, h1, h2, h3, _, h5⟩ := channel_sampler_is_of_its_animation.1 (fun _ => Except.ok [])
        { json := scene_document, binary := none } _
        (Json.array [
          Json.object [
            ("channels", Json.array [
              Json.object [("sampler", Json.number_unsigned 0),
                           ("target", Json.object [("node", Json.number_unsigned 1),
                                                   ("path", Json.string "translation")])]]),
            ("samplers", Json.array [
              Json.object [("input", Json.number_unsigned 1),
                           ("output", Json.number_unsigned 0)]])]])
        _ _ 0 rfl rfl rfl rfl
      cases h1
      cases h3
      obtain ⟨index, hi, _, _, hv⟩ := h5 0 _ _ rfl rfl
      cases hi
      exact ⟨h2, hv 0 rfl (by norm_num)⟩⟩,
   channel_sampler_is_of_its_animation.2 (fun _ => Except.ok []) _ _
     (Json.object [
        ("channels", Json.array [
          Json.object [("sampler", Json.number_unsigned 1),
                       ("target", Json.object [("path", Json.string "scale")])]]),
        ("samplers", Json.array [
          Json.object [("input", Json.number_unsigned 0), ("output", Json.number_unsigned 0)]])])
     (Json.array [
          Json.object [("input", Json.number_unsigned 0), ("output", Json.number_unsigned 0)]])
     (Json.array [
          Json.object [("sampler", Json.number_unsigned 1),
                       ("target", Json.object [("path", Json.string "scale")])]])
     _ 1 rfl (List.mem_cons_of_mem _ (List.mem_cons_self _ _)) rfl rfl
     (List.mem_cons_self _ _) rfl (by norm_num) (by decide),
   rfl⟩

/-! ## `uri_type`: the first semicolon and the first comma -/

theorem data_uri_parts (m e p : String) :
    ("data:" ++ m ++ ";" ++ e ++ "," ++ p).data
      = "data:".data ++ m.data ++ ';' :: e.data ++ ',' :: p.data := by
  have h1 : ";".data = [';'] := rfl
  have h2 : ",".data = [','] := rfl
  simp only [String.data_append, h1, h2, List.append_assoc, List.cons_append, List.nil_append]

/-- Claim C35. Let a string be `data:` + m + `;` + e + `,` + p, where `m`
has no semicolon and `e` no comma, so that the semicolon after `m` is the
first one after `data:` and the comma after `e` the first one after it. When
`e` is not `base64` (as with further parameters, `charset=utf-8;base64`) the
constructor yields the external variant whose path is the whole string. When
`e` is `base64`, what `base64::decode` receives is `p`, all that follows that
comma, whatever commas and semicolons `p` holds: the result is the data
variant with the bytes that `decode` returns for `p`, or the exception of
`decode`, or after it that of `uri_mime_type`. -/
theorem uri_first_semicolon_and_comma (decode : String → Except Err (List UInt8)) (m e p : String)
    (hm : ';' ∉ m.data) (he : ',' ∉ e.data) :
    (e ≠ "base64" →
      uri_type.uri_type decode ("data:" ++ m ++ ";" ++ e ++ "," ++ p)
        = Except.ok (uri_type.external { path := "data:" ++ m ++ ";" ++ e ++ "," ++ p }))
    ∧ (e = "base64" →
      uri_type.uri_type decode ("data:" ++ m ++ ";" ++ e ++ "," ++ p)
        = (do
            let decoded ← decode p
            let mime ← uri_mime_type m
            pure (uri_type.data { value := decoded, mime_type := mime }))) := by
  have h := uri_type_of_parts decode _ m.data e.data p.data (data_uri_parts m e p) hm he
  constructor
  · intro hne
    have : ¬ (e.data = "base64".data) := fun hc => hne (String.ext hc)
    rw [h, if_neg this]
  · intro heq
    subst heq
    rw [h, if_pos rfl]

theorem uri_first_semicolon_and_comma_witness :
    uri_type.uri_type (fun s => Except.ok (latin1_decode s))
        "data:image/png;charset=utf-8;base64,AAAA"
        = Except.ok (uri_type.external { path := "data:image/png;charset=utf-8;base64,AAAA" })
    ∧ uri_type.uri_type (fun s => Except.ok (latin1_decode s)) "data:image/png;base64,A,B;C"
        = Except.ok (uri_type.data
            { value := latin1_decode "A,B;C",
              mime_type := uri_type.mime_type_type.image_png }) :=
  ⟨(uri_first_semicolon_and_comma (fun s => Except.ok (latin1_decode s)) "image/png"
      "charset=utf-8;base64" "AAAA" (by decide) (by decide)).1 (by decide),
   (uri_first_semicolon_and_comma (fun s => Except.ok (latin1_decode s)) "image/png" "base64"
      "A,B;C" (by decide) (by decide)).2 rfl⟩

/-! ## `parse_format`: an incomplete second chunk header -/

theorem read_too_short (rest buf : List UInt8) (n : Nat) (h : rest.length < n) :
    (istream.read { rest := rest, eofbit := false, failbit := false } buf n).1.failbit
      = true := by
  have ht : rest.take n = rest := List.take_of_length_le (by omega)
  have hne : ¬ (rest.length = n) := by omega
  simp only [istream.read, istream.good, Bool.not_false, Bool.and_self, if_true, ht, hne,
    if_false]

/-- Claim C36. For every GLB stream with a valid header, a JSON chunk of the
declared length that parses, and then one to seven further bytes,
`parse_format` succeeds, with no binary chunk and with the JSON of the
stream without those bytes: the read of the second chunk header comes up
short, which the function takes as the absence of a second chunk. -/
theorem parse_format_ignores_short_trailer (lib : json_reader) (uninit : Nat → UInt8)
    (header json trailer : List UInt8) (j : Json)
    (hlen : header.length = 20)
    (hmagic : word header 0 = 0x46546C67) (hversion : word header 1 = 2)
    (hjson_len : word header 3 = json.length) (hjson_type : word header 4 = 0x4E4F534A)
    (hjson : lib.parse json = Except.ok j)
    (h1 : 1 ≤ trailer.length) (h7 : trailer.length ≤ 7) :
    parse_format lib uninit (header ++ json ++ trailer)
        = Except.ok { json := j, binary := none }
    ∧ parse_format lib uninit (header ++ json ++ trailer)
        = parse_format lib uninit (header ++ json) := by
  have h := parse_format_glb_aux lib uninit header json trailer hlen hmagic hversion hjson_len
    hjson_type
  have h0 := parse_format_glb_aux lib uninit header json [] hlen hmagic hversion hjson_len
    hjson_type
  rw [List.append_nil] at h0
  rw [List.append_assoc, h, h0, read_too_short trailer _ 8 (by omega),
    read_at_end _ 8 (by decide), hjson]
  exact ⟨rfl, rfl⟩

theorem parse_format_ignores_short_trailer_witness :
    parse_format ⟨fun _ => Except.ok (Json.object []), fun _ => Except.error Err.parse_error⟩
        (fun _ => 0)
        ([103, 108, 84, 70, 2, 0, 0, 0, 0, 0, 0, 0, 2, 0, 0, 0, 74, 83, 79, 78] ++ [123, 125]
          ++ [3, 0, 0, 0, 66, 73, 78])
      = Except.ok { json := Json.object [], binary := none } :=
  (parse_format_ignores_short_trailer _ (fun _ => 0)
    [103, 108, 84, 70, 2, 0, 0, 0, 0, 0, 0, 0, 2, 0, 0, 0, 74, 83, 79, 78] [123, 125]
    [3, 0, 0, 0, 66, 73, 78] (Json.object []) rfl (by decide) (by decide) (by decide)
    (by decide) rfl (by decide) (by decide)).1

/-! ## `parse`: the transformation of a node -/

theorem transform_map {α β γ : Type} (f : β → Except Err γ) (g : α → β) :
    ∀ l : List α, transform f (l.map g) = transform (fun a => f (g a)) l := by
  intro l
  induction l with
  | nil => rfl
  | cons a l ih => simp only [List.map_cons, transform, ih]

theorem transform_congr {α β : Type} (f g : α → Except Err β) :
    ∀ l : List α, (∀ a ∈ l, f a = g a) → transform f l = transform g l := by
  intro l
  induction l with
  | nil => intro _; rfl
  | cons a l ih =>
    intro h
    simp only [transform, h a (List.mem_cons_self _ _),
      ih (fun b hb => h b (List.mem_cons_of_mem _ hb))]

/-- The arguments that `json_array_to_glm_type` hands to a constructor for
the index sequence `0, ..., n - 1`: the first `n` elements of the array,
converted to `float` from left to right. -/
theorem glm_type_of_range (n : Nat) :
    ∀ xs : List Json, n ≤ xs.length →
      transform (fun i => do
          let x ← (Json.array xs).begin_subscript i
          x.get_float) (List.range n)
        = transform Json.get_float (xs.take n) := by
  induction n with
  | zero => intro xs _; rfl
  | succ n ih =>
    intro xs h
    cases xs with
    | nil => simp at h
    | cons x xs =>
      have hlen : n ≤ xs.length := by simpa using h
      rw [List.range_succ_eq_map, List.take_succ_cons]
      simp only [transform]
      have h0 : (Json.array (x :: xs)).begin_subscript 0 = Except.ok x := by
        simp only [Json.begin_subscript, List.getElem?_cons_zero]
        rfl
      have hs : ∀ a : Nat,
          ((Json.array (x :: xs)).begin_subscript a.succ >>= fun y => y.get_float)
            = ((Json.array xs).begin_subscript a >>= fun y => y.get_float) := by
        intro a
        simp only [Json.begin_subscript, List.getElem?_cons_succ]
      rw [h0, ok_bind, transform_map, ← ih xs hlen]
      simp only [hs]

theorem json_array_to_mat_of_array (xs : List Json) (h : 16 ≤ xs.length) :
    json_array_to_mat 4 4 (Json.array xs) = transform Json.get_float (xs.take 16) := by
  have hs : ¬ ((Json.array xs).size < (List.range (4 * 4)).length) := by
    simp only [Json.size, List.length_range]
    omega
  simp only [json_array_to_mat, json_array_to_glm_type, hs, if_false]
  exact glm_type_of_range 16 xs h

theorem glm_type_too_short (xs : List Json) (I : List Nat) (h : xs.length < I.length) :
    json_array_to_glm_type (Json.array xs) I
      = Except.error (Err.invalid_argument "not enough fields for glm type") := by
  have hs : (Json.array xs).size < I.length := h
  simp only [json_array_to_glm_type, hs, if_true]
  rfl

theorem map_none_iff {α β : Type} (o : Option α) (f : α → Except Err β) (r : Option β)
    (h : map o f = Except.ok r) : r = none ↔ o = none := by
  cases o with
  | none =>
    simp only [map, pure_eq_ok] at h
    subst h
    exact ⟨fun _ => rfl, fun _ => rfl⟩
  | some x =>
    simp only [map, bind_eq_ok, pure_eq_ok] at h
    obtain ⟨y, _, rfl⟩ := h
    exact ⟨fun hc => (by cases hc), fun hc => (by cases hc)⟩

/-- What a successful call of the lambda over `nodes` tells about the
transformation: all four members were converted, and the matrix is chosen
when there is one. -/
theorem node_transformation_of_json (cameras : List camera_type) (skins : List skin_type)
    (meshes : List mesh_type) (node : Json) (n : node_type)
    (h : parse.node cameras skins meshes node = Except.ok n) :
    ∃ matrix translation rotation scale,
      map (node.find "matrix") (json_array_to_mat 4 4) = Except.ok matrix
      ∧ map (node.find "translation") (json_array_to_vec 3) = Except.ok translation
      ∧ map (node.find "rotation") json_array_to_quat = Except.ok rotation
      ∧ map (node.find "scale") (json_array_to_vec 3) = Except.ok scale
      ∧ n.transformation = match matrix with
          | some m => node_type.variant.matrix m
          | none => node_type.variant.trs
              { translation := translation, rotation := rotation, scale := scale } := by
  simp only [parse.node, optional_ref, bind_eq_ok, pure_eq_ok] at h
  obtain ⟨matrix, hm, translation, ht, rotation, hr, scale, hs, h⟩ := h
  repeat (obtain ⟨_, _, h⟩ := h)
  exact ⟨matrix, translation, rotation, scale, hm, ht, hr, hs, rfl⟩

theorem node_children_keeps_transformation (nodes : List node_type) (node_json : Json)
    (n n1 : node_type) (h : parse.node_children nodes node_json n = Except.ok n1) :
    n1.transformation = n.transformation := by
  simp only [parse.node_children, bind_eq_ok, pure_eq_ok] at h
  obtain ⟨_, _, rfl⟩ := h
  rfl

/-- The transformation of the node that `parse` stores at position `i`. -/
theorem parse_node_transformation (decode : String → Except Err (List UInt8)) (format : format_type)
    (m : model_type) (h : parse decode format = Except.ok m) (nodes_json : Json)
    (hnodes : format.json.find "nodes" = some nodes_json) :
    ∀ (i : Nat) (node : Json) (n : node_type),
      nodes_json.elems[i]? = some node → m.nodes[i]? = some n →
      ∃ matrix translation rotation scale,
        map (node.find "matrix") (json_array_to_mat 4 4) = Except.ok matrix
        ∧ map (node.find "translation") (json_array_to_vec 3) = Except.ok translation
        ∧ map (node.find "rotation") json_array_to_quat = Except.ok rotation
        ∧ map (node.find "scale") (json_array_to_vec 3) = Except.ok scale
        ∧ n.transformation = match matrix with
            | some m => node_type.variant.matrix m
            | none => node_type.variant.trs
                { translation := translation, rotation := rotation, scale := scale } := by
  simp only [parse, bind_eq_ok, pure_eq_ok] at h
  obtain ⟨_, _, _, _, _, _, _, _, _, _, _, _, _, _, _, _, _, _, _, _, _, _,
    _, _, nodes0, hnodes0, nodes, hpatch, h⟩ := h
  repeat (obtain ⟨_, _, h⟩ := h)
  obtain ⟨_, hpos⟩ := two_pass_getElem _ _ _ _ _ _ _ hnodes0 hpatch hnodes
  intro i node n hi hn
  obtain ⟨n0, hf, hg⟩ := hpos i node n hi hn
  rw [node_children_keeps_transformation _ _ _ _ hg]
  exact node_transformation_of_json _ _ _ _ _ hf

theorem parse_node_of_mem (decode : String → Except Err (List UInt8)) (format : format_type)
    (m : model_type) (h : parse decode format = Except.ok m) (nodes_json node : Json)
    (hnodes : format.json.find "nodes" = some nodes_json) (hmem : node ∈ nodes_json.elems) :
    ∃ n matrix translation rotation scale,
      map (node.find "matrix") (json_array_to_mat 4 4) = Except.ok matrix
      ∧ map (node.find "translation") (json_array_to_vec 3) = Except.ok translation
      ∧ map (node.find "rotation") json_array_to_quat = Except.ok rotation
      ∧ map (node.find "scale") (json_array_to_vec 3) = Except.ok scale
      ∧ n = match matrix with
          | some m => node_type.variant.matrix m
          | none => node_type.variant.trs
              { translation := translation, rotation := rotation, scale := scale } := by
  obtain ⟨hlen, _⟩ := parse_node_children decode format m h nodes_json hnodes
  obtain ⟨i, hi⟩ := List.getElem?_of_mem hmem
  have hlt : i < m.nodes.length := by
    rw [hlen]
    exact (List.getElem?_eq_some_iff.mp hi).1
  exact ⟨_, parse_node_transformation decode format m h nodes_json hnodes i node _ hi
    (List.getElem?_eq_getElem hlt)⟩

/-- Claim C37. In a parsed model the node at position `i` has, when the
JSON node has a `matrix`, the matrix variant with what `json_array_to_mat`
returns for that member (for an array of sixteen or more elements, its first
sixteen converted to `float`), whatever `translation`, `rotation` and `scale`
it has besides; when it has no `matrix`, the TRS variant, in which each of
the three is absent exactly when its member is absent. A document with a node
whose `translation` or `scale` is an array of fewer than three elements, or
whose `rotation` is one of fewer than four, makes `parse` fail, with or
without a `matrix`. In the document below the node has a `matrix` of
seventeen elements and a `translation`: the parsed node has the matrix of the
first sixteen. -/
theorem node_matrix_overrides_trs :
    (∀ (decode : String → Except Err (List UInt8)) (format : format_type) (m : model_type)
        (nodes_json node : Json) (n : node_type) (i : Nat),
        parse decode format = Except.ok m → format.json.find "nodes" = some nodes_json →
        nodes_json.elems[i]? = some node → m.nodes[i]? = some n →
        (∀ matrix_json, node.find "matrix" = some matrix_json →
          ∃ l, json_array_to_mat 4 4 matrix_json = Except.ok l
            ∧ n.transformation = node_type.variant.matrix l)
        ∧ (node.find "matrix" = none →
            ∃ t, n.transformation = node_type.variant.trs t
              ∧ (t.translation = none ↔ node.find "translation" = none)
              ∧ (t.rotation = none ↔ node.find "rotation" = none)
              ∧ (t.scale = none ↔ node.find "scale" = none)))
    ∧ (∀ xs : List Json, 16 ≤ xs.length →
        json_array_to_mat 4 4 (Json.array xs) = transform Json.get_float (xs.take 16))
    ∧ (∀ (decode : String → Except Err (List UInt8)) (format : format_type) (nodes_json node : Json)
        (key : String) (xs : List Json),
        format.json.find "nodes" = some nodes_json → node ∈ nodes_json.elems →
        (key = "translation" ∧ xs.length < 3) ∨ (key = "rotation" ∧ xs.length < 4)
          ∨ (key = "scale" ∧ xs.length < 3) →
        node.find key = some (Json.array xs) →
        ∃ e, parse decode format = Except.error e)
    ∧ (∀ (decode : String → Except Err (List UInt8)) (binary : Option (List UInt8)),
        ∃ m, parse decode
            { json := Json.object [
                ("asset", Json.object [("version", Json.string "2.0")]),
                ("nodes", Json.array [
                  Json.object [
                    ("matrix", Json.array ([1, 0, 0, 0, 0, 1, 0, 0, 0, 0, 1, 0, 5, 6, 7, 1, 9].map
                      Json.number_unsigned)),
                    ("translation", Json.array ([1, 2, 3].map Json.number_unsigned))]])],
              binary := binary } = Except.ok m
          ∧ m.nodes.map (fun n => n.transformation)
              = [node_type.variant.matrix
                  ([1, 0, 0, 0, 0, 1, 0, 0, 0, 0, 1, 0, 5, 6, 7, 1].map
                    decimal_type.of_unsigned)]) := by
  refine ⟨?_, json_array_to_mat_of_array, ?_, fun _ _ => ⟨_, rfl, rfl⟩⟩
  · intro decode format m nodes_json node n i h hnodes hi hn
    obtain ⟨matrix, translation, rotation, scale, hm, ht, hr, hs, htr⟩ :=
      parse_node_transformation decode format m h nodes_json hnodes i node n hi hn
    constructor
    · intro matrix_json hfind
      rw [hfind] at hm
      simp only [map, bind_eq_ok, pure_eq_ok] at hm
      obtain ⟨l, hl, rfl⟩ := hm
      exact ⟨l, hl, htr⟩
    · intro hnone
      have hmn : matrix = none := (map_none_iff _ _ _ hm).mpr hnone
      subst hmn
      exact ⟨_, htr, map_none_iff _ _ _ ht, map_none_iff _ _ _ hr, map_none_iff _ _ _ hs⟩
  · intro decode format nodes_json node key xs hnodes hmem hkey hfind
    apply error_of_not_ok
    intro m h
    obtain ⟨_, matrix, translation, rotation, scale, _, ht, hr, hs, _⟩ :=
      parse_node_of_mem decode format m h nodes_json node hnodes hmem
    rcases hkey with ⟨rfl, hlen⟩ | ⟨rfl, hlen⟩ | ⟨rfl, hlen⟩
    · rw [hfind] at ht
      simp only [map, json_array_to_vec, glm_type_too_short xs (List.range 3)
        (by simpa using hlen), error_bind] at ht
      cases ht
    · rw [hfind] at hr
      simp only [map, json_array_to_quat, glm_type_too_short xs [3, 0, 1, 2]
        (by simpa using hlen), error_bind] at hr
      cases hr
    · rw [hfind] at hs
      simp only [map, json_array_to_vec, glm_type_too_short xs (List.range 3)
        (by simpa using hlen), error_bind] at hs
      cases hs

theorem node_matrix_overrides_trs_witness :
    (∃ m, parse (fun _ => Except.ok []) { json := scene_document, binary := none } = Except.ok m
      ∧ ∃ n t, m.nodes[1]? = some n ∧ n.transformation = node_type.variant.trs t
        ∧ t.translation = none ∧ t.rotation = none ∧ t.scale = none)
    ∧ ∃ e, parse (fun _ => Except.ok [])
        { json := Json.object [
            ("asset", Json.object [("version", Json.string "2.0")]),
            ("nodes", Json.array [
              Json.object [
                ("matrix", Json.array ([1, 0, 0, 0, 0, 1, 0, 0, 0, 0, 1, 0, 5, 6, 7, 1].map
                  Json.number_unsigned)),
                ("scale", Json.array ([1, 2].map Json.number_unsigned))]])],
          binary := none } = Except.error e :=
  ⟨⟨_, rfl, by
      obtain ⟨t, ht, h1, h2, h3⟩ := (node_matrix_overrides_trs.1 (fun _ => Except.ok [])
        { json := scene_document, binary := none } _
        (Json.array [
          Json.object [("camera", Json.number_unsigned 0),
                       ("children", Json.array [Json.number_unsigned 1]),
                       ("mesh", Json.number_unsigned 0),
                       ("skin", Json.number_unsigned 0)],
          Json.object []])
        (Json.object []) _ 1 rfl rfl rfl rfl).2 rfl
      exact ⟨_, t, rfl, ht, h1.mpr rfl, h2.mpr rfl, h3.mpr rfl⟩⟩,
   node_matrix_overrides_trs.2.2.1 (fun _ => Except.ok []) _ _
     (Json.object [
        ("matrix", Json.array ([1, 0, 0, 0, 0, 1, 0, 0, 0, 0, 1, 0, 5, 6, 7, 1].map
          Json.number_unsigned)),
        ("scale", Json.array ([1, 2].map Json.number_unsigned))])
     "scale" ([1, 2].map Json.number_unsigned) rfl (List.mem_cons_self _ _)
     (Or.inr (Or.inr ⟨rfl, by decide⟩)) rfl⟩

/-! ## `parse`: the rotation of a node -/

theorem json_array_to_quat_of_array (x y z w : Json) (rest : List Json)
    (fx fy fz fw : decimal_type) (hx : x.get_float = Except.ok fx)
    (hy : y.get_float = Except.ok fy) (hz : z.get_float = Except.ok fz)
    (hw : w.get_float = Except.ok fw) :
    json_array_to_quat (Json.array (x :: y :: z :: w :: rest))
      = Except.ok { w := fw, x := fx, y := fy, z := fz } := by
  have hs : ¬ ((Json.array (x :: y :: z :: w :: rest)).size < [3, 0, 1, 2].length) := by
    simp [Json.size]
  have h0 : (Json.array (x :: y :: z :: w :: rest)).begin_subscript 0 = Except.ok x := by
    simp only [Json.begin_subscript, List.getElem?_cons_succ, List.getElem?_cons_zero]
    rfl
  have h1 : (Json.array (x :: y :: z :: w :: rest)).begin_subscript 1 = Except.ok y := by
    simp only [Json.begin_subscript, List.getElem?_cons_succ, List.getElem?_cons_zero]
    rfl
  have h2 : (Json.array (x :: y :: z :: w :: rest)).begin_subscript 2 = Except.ok z := by
    simp only [Json.begin_subscript, List.getElem?_cons_succ, List.getElem?_cons_zero]
    rfl
  have h3 : (Json.array (x :: y :: z :: w :: rest)).begin_subscript 3 = Except.ok w := by
    simp only [Json.begin_subscript, List.getElem?_cons_succ, List.getElem?_cons_zero]
    rfl
  simp only [json_array_to_quat, json_array_to_glm_type, hs, if_false, transform, h0, h1, h2,
    h3, hx, hy, hz, hw, ok_bind, pure_bind_ok]
  rfl

theorem json_array_to_quat_too_short (xs : List Json) (h : xs.length < 4) :
    json_array_to_quat (Json.array xs)
      = Except.error (Err.invalid_argument "not enough fields for glm type") := by
  simp only [json_array_to_quat, glm_type_too_short xs [3, 0, 1, 2] (by simpa using h),
    error_bind]

theorem container_error_at {β : Type} (doc : Json) (key : String) (f : Json → Except Err β)
    (array x : Json) (before after : List Json) (e : Err)
    (hfind : doc.find key = some array) (hsplit : array.elems = before ++ x :: after)
    (hbefore : ∀ v ∈ before, ∃ r, f v = Except.ok r) (hx : f x = Except.error e) :
    parse.container doc key f = Except.error e := by
  have he := transform_error_at f x e after hx before hbefore
  simp only [parse.container, optional_ref, hfind, map, transform_json_array_to_container,
    hsplit, he, error_bind]

/-- Claim C38, as stated, fails: the node of the document below has a
`rotation` of three elements, and `parse` fails with `type_error` 302 of the
JSON library, thrown for its `translation`, which is converted first; it
throws no `std::invalid_argument`. -/
theorem parse_short_rotation_other_error :
    parse (fun _ => Except.ok [])
        { json := Json.object [
            ("asset", Json.object [("version", Json.string "2.0")]),
            ("nodes", Json.array [
              Json.object [
                ("rotation", Json.array ([0, 0, 0].map Json.number_unsigned)),
                ("translation", Json.array (["a", "b", "c"].map Json.string))]])],
          binary := none } = Except.error (Err.type_error 302)
    ∧ ∀ what, parse (fun _ => Except.ok [])
        { json := Json.object [
            ("asset", Json.object [("version", Json.string "2.0")]),
            ("nodes", Json.array [
              Json.object [
                ("rotation", Json.array ([0, 0, 0].map Json.number_unsigned)),
                ("translation", Json.array (["a", "b", "c"].map Json.string))]])],
          binary := none } ≠ Except.error (Err.invalid_argument what) :=
  ⟨rfl, fun _ h => by cases h⟩

/-- Claim C38, amended. For a `rotation` array whose first four elements
convert to `float`, `json_array_to_quat` builds the quaternion with `w` from
element 3 and `x`, `y`, `z` from elements 0, 1, 2, whatever follows the
fourth element; for an array of fewer than four elements it throws
`std::invalid_argument`. In a parsed model a node without `matrix` and with
`rotation` has the quaternion that `json_array_to_quat` returns for it. A
document with a node whose `rotation` is an array of fewer than four elements
makes `parse` fail; the exception is that `std::invalid_argument` whenever
all that `parse` converts before it does not throw: the extension lists, the
ten vectors before `nodes`, the nodes before this one, and the `matrix` and
`translation` of this node. -/
theorem rotation_is_quat_of_xyzw :
    (∀ (x y z w : Json) (rest : List Json) (fx fy fz fw : decimal_type),
        x.get_float = Except.ok fx → y.get_float = Except.ok fy →
        z.get_float = Except.ok fz → w.get_float = Except.ok fw →
        json_array_to_quat (Json.array (x :: y :: z :: w :: rest))
          = Except.ok { w := fw, x := fx, y := fy, z := fz })
    ∧ (∀ xs : List Json, xs.length < 4 →
        json_array_to_quat (Json.array xs)
          = Except.error (Err.invalid_argument "not enough fields for glm type"))
    ∧ (∀ (decode : String → Except Err (List UInt8)) (format : format_type) (m : model_type)
        (nodes_json node rotation_json : Json) (n : node_type) (i : Nat),
        parse decode format = Except.ok m → format.json.find "nodes" = some nodes_json →
        nodes_json.elems[i]? = some node → m.nodes[i]? = some n →
        node.find "matrix" = none → node.find "rotation" = some rotation_json →
        ∃ q t, json_array_to_quat rotation_json = Except.ok q
          ∧ n.transformation = node_type.variant.trs t ∧ t.rotation = some q)
    ∧ (∀ (decode : String → Except Err (List UInt8)) (format : format_type) (nodes_json node : Json)
        (xs : List Json),
        format.json.find "nodes" = some nodes_json → node ∈ nodes_json.elems →
        node.find "rotation" = some (Json.array xs) → xs.length < 4 →
        ∃ e, parse decode format = Except.error e)
    ∧ (∀ (decode : String → Except Err (List UInt8)) (format : format_type) (nodes_json node : Json)
        (xs before after : List Json) (used required : List String)
        (buffers : List buffer_type) (buffer_views : List buffer_view_type)
        (accessors : List accessor_type) (cameras : List camera_type)
        (samplers : List sampler_type) (images : List image_type)
        (textures : List texture_type) (materials : List material_type)
        (meshes : List mesh_type) (skins : List skin_type)
        (matrix translation : Option (List decimal_type)),
        parse.extensions format.json "extensionsUsed" = Except.ok used →
        parse.extensions format.json "extensionsRequired" = Except.ok required →
        parse.container format.json "buffers" (parse.buffer decode) = Except.ok buffers →
        parse.container format.json "bufferViews" (parse.buffer_view buffers)
          = Except.ok buffer_views →
        parse.container format.json "accessors" (parse.accessor buffer_views)
          = Except.ok accessors →
        parse.container format.json "cameras" parse.camera = Except.ok cameras →
        parse.container format.json "samplers" parse.sampler = Except.ok samplers →
        parse.container format.json "images" (parse.image decode buffer_views)
          = Except.ok images →
        parse.container format.json "textures" (parse.texture samplers images)
          = Except.ok textures →
        parse.container format.json "materials" (parse.material textures)
          = Except.ok materials →
        parse.container format.json "meshes" (parse.mesh accessors materials)
          = Except.ok meshes →
        parse.container format.json "skins" (parse.skin accessors) = Except.ok skins →
        format.json.find "nodes" = some nodes_json →
        nodes_json.elems = before ++ node :: after →
        (∀ v ∈ before, ∃ r, parse.node cameras skins meshes v = Except.ok r) →
        map (node.find "matrix") (json_array_to_mat 4 4) = Except.ok matrix →
        map (node.find "translation") (json_array_to_vec 3) = Except.ok translation →
        node.find "rotation" = some (Json.array xs) → xs.length < 4 →
        parse decode format
          = Except.error (Err.invalid_argument "not enough fields for glm type")) := by
  refine ⟨json_array_to_quat_of_array, json_array_to_quat_too_short, ?_, ?_, ?_⟩
  · intro decode format m nodes_json node rotation_json n i h hnodes hi hn hmat hrot
    obtain ⟨matrix, translation, rotation, scale, hm, _, hr, _, htr⟩ :=
      parse_node_transformation decode format m h nodes_json hnodes i node n hi hn
    have hmn : matrix = none := (map_none_iff _ _ _ hm).mpr hmat
    subst hmn
    rw [hrot] at hr
    simp only [map, bind_eq_ok, pure_eq_ok] at hr
    obtain ⟨q, hq, rfl⟩ := hr
    exact ⟨q, _, hq, htr, rfl⟩
  · intro decode format nodes_json node xs hnodes hmem hfind hlen
    apply error_of_not_ok
    intro m h
    obtain ⟨_, _, _, _, _, _, _, hr, _, _⟩ :=
      parse_node_of_mem decode format m h nodes_json node hnodes hmem
    rw [hfind] at hr
    simp only [map, json_array_to_quat_too_short xs hlen, error_bind] at hr
    cases hr
  · intro decode format nodes_json node xs before after used required buffers buffer_views
      accessors cameras samplers images textures materials meshes skins matrix translation
      h1 h2 h3 h4 h5 h6 h7 h8 h9 h10 h11 h12 hnodes hsplit hbefore hmat htrans hrot hlen
    have hnode : parse.node cameras skins meshes node
        = Except.error (Err.invalid_argument "not enough fields for glm type") := by
      simp only [parse.node, optional_ref, hmat, htrans, ok_bind]
      simp only [hrot, map, json_array_to_quat_too_short xs hlen, error_bind]
    have h13 := container_error_at format.json "nodes" (parse.node cameras skins meshes)
      nodes_json node before after _ hnodes hsplit hbefore hnode
    simp only [parse, h1, h2, h3, h4, h5, h6, h7, h8, h9, h10, h11, h12, h13, ok_bind,
      error_bind]

theorem rotation_is_quat_of_xyzw_witness :
    json_array_to_quat (Json.array ([10, 11, 12, 13, 14].map Json.number_unsigned))
        = Except.ok { w := decimal_type.of_unsigned 13, x := decimal_type.of_unsigned 10,
                      y := decimal_type.of_unsigned 11, z := decimal_type.of_unsigned 12 }
    ∧ parse (fun _ => Except.ok [])
        { json := Json.object [
            ("asset", Json.object [("version", Json.string "2.0")]),
            ("nodes", Json.array [
              Json.object [],
              Json.object [
                ("rotation", Json.array ([0, 0, 0].map Json.number_unsigned)),
                ("translation", Json.array ([1, 2, 3].map Json.number_unsigned))]])],
          binary := none }
        = Except.error (Err.invalid_argument "not enough fields for glm type") :=
  ⟨rotation_is_quat_of_xyzw.1 _ _ _ _ [Json.number_unsigned 14] _ _ _ _ rfl rfl rfl rfl,
   rotation_is_quat_of_xyzw.2.2.2.2 (fun _ => Except.ok []) _
     (Json.array [
        Json.object [],
        Json.object [
          ("rotation", Json.array ([0, 0, 0].map Json.number_unsigned)),
          ("translation", Json.array ([1, 2, 3].map Json.number_unsigned))]])
     (Json.object [
        ("rotation", Json.array ([0, 0, 0].map Json.number_unsigned)),
        ("translation", Json.array ([1, 2, 3].map Json.number_unsigned))])
     ([0, 0, 0].map Json.number_unsigned) [Json.object []] [] [] [] [] [] [] [] [] [] [] [] []
     [] none (some ([1, 2, 3].map decimal_type.of_unsigned))
     rfl rfl rfl rfl rfl rfl rfl rfl rfl rfl rfl rfl rfl rfl
     (by
       intro v hv
       simp only [List.mem_singleton] at hv
       subst hv
       exact ⟨_, rfl⟩)
     rfl rfl rfl (by decide)⟩

/-! ## `parse`: `extensions` and `extras` of the model -/

/-- Claim C39. In every parsed model the `extensions` and `extras` of the
model are those of its `asset` (both are initialised with
`asset.value("extensions", ..)` and `asset.value("extras", ..)`). Two
documents that differ at most in the members `extensions` and `extras` of
the root object give the same result of `parse`. -/
theorem model_extras_are_asset_extras :
    (∀ (decode : String → Except Err (List UInt8)) (format : format_type) (m : model_type),
        parse decode format = Except.ok m →
        m.extensions = m.asset.extensions ∧ m.extras = m.asset.extras)
    ∧ (∀ (decode : String → Except Err (List UInt8)) (members1 members2 : List (String × Json))
        (binary1 binary2 : Option (List UInt8)),
        (∀ key, key ≠ "extensions" → key ≠ "extras" →
          members1.lookup key = members2.lookup key) →
        parse decode { json := Json.object members1, binary := binary1 }
          = parse decode { json := Json.object members2, binary := binary2 }) := by
  constructor
  · intro decode format m h
    simp only [parse, bind_eq_ok, pure_eq_ok] at h
    obtain ⟨_, _, _, _, _, _, _, _, _, _, _, _, _, _, _, _, _, _, _, _, _, _,
      _, _, _, _, _, _, _, _, _, _, _, _, asset, _, _, _, _, _, _, _, _, _, _, _, _, _,
      e1, he1, x1, hx1, e2, he2, x2, hx2, rfl⟩ := h
    rw [he1] at he2
    rw [hx1] at hx2
    cases he2
    cases hx2
    exact ⟨rfl, rfl⟩
  · intro decode members1 members2 binary1 binary2 h
    simp only [parse, parse.extensions, parse.container, parse.patch, optional_ref,
      optional_index_to_iterator, optional_cast, Json.find, Json.value, Json.subscript,
      h "extensionsUsed" (by decide) (by decide),
      h "extensionsRequired" (by decide) (by decide),
      h "buffers" (by decide) (by decide), h "bufferViews" (by decide) (by decide),
      h "accessors" (by decide) (by decide), h "cameras" (by decide) (by decide),
      h "samplers" (by decide) (by decide), h "images" (by decide) (by decide),
      h "textures" (by decide) (by decide), h "materials" (by decide) (by decide),
      h "meshes" (by decide) (by decide), h "skins" (by decide) (by decide),
      h "nodes" (by decide) (by decide), h "animations" (by decide) (by decide),
      h "scenes" (by decide) (by decide), h "asset" (by decide) (by decide),
      h "scene" (by decide) (by decide)]

theorem model_extras_are_asset_extras_witness :
    (∃ m, parse (fun _ => Except.ok []) { json := root_extras_document, binary := none } = Except.ok m
      ∧ m.extensions = m.asset.extensions ∧ m.extras = m.asset.extras
      ∧ m.extras = Json.string "of the asset" ∧ m.extensions = Json.object [])
    ∧ parse (fun _ => Except.ok []) { json := root_extras_document, binary := none }
        = parse (fun _ => Except.ok [])
            { json := Json.object [
                ("asset", Json.object [("extras", Json.string "of the asset"),
                                       ("version", Json.string "2.0")])],
              binary := none } :=
  ⟨⟨_, rfl,
      (model_extras_are_asset_extras.1 (fun _ => Except.ok [])
        { json := root_extras_document, binary := none } _ rfl).1,
      (model_extras_are_asset_extras.1 (fun _ => Except.ok [])
        { json := root_extras_document, binary := none } _ rfl).2, rfl, rfl⟩,
    model_extras_are_asset_extras.2 (fun _ => Except.ok []) _ _ none none (by
      intro key h1 h2
      by_cases ha : key = "asset"
      · subst ha
        rfl
      · have e1 : (key == "asset") = false := beq_false_of_ne ha
        have e2 : (key == "extensions") = false := beq_false_of_ne h1
        have e3 : (key == "extras") = false := beq_false_of_ne h2
        simp only [List.lookup, e1, e2, e3])⟩

/-! ## `parse`: an image with both `uri` and `bufferView` -/

theorem image_buffer_view_checked (decode : String → Except Err (List UInt8))
    (buffer_views : List buffer_view_type) (image : Json) (img : image_type)
    (h : parse.image decode buffer_views image = Except.ok img) :
    ∃ bv, optional_index_to_iterator image "bufferView" buffer_views = Except.ok bv := by
  simp only [parse.image, bind_eq_ok, pure_eq_ok] at h
  obtain ⟨_, _, _, _, bv, hbv, _⟩ := h
  exact ⟨bv, hbv⟩

theorem parse_buffer_views_length (decode : String → Except Err (List UInt8)) (format : format_type)
    (m : model_type) (h : parse decode format = Except.ok m) :
    m.buffer_views.length = buffer_views_count format.json := by
  simp only [parse, bind_eq_ok, pure_eq_ok] at h
  obtain ⟨_, _, _, _, _, _, buffer_views, hbv, h⟩ := h
  repeat (obtain ⟨_, _, h⟩ := h)
  exact container_length_of_key _ _ _ _ hbv

/-- Claim C40. In a parsed model an image whose JSON has both a `uri` and a
`bufferView` is URI-sourced, from the URI that the string denotes (the
variant holds no buffer view), and its `bufferView` passed the bounds check:
it denotes a position below the number of buffer views. A document with an
image whose `bufferView` is an unsigned integer not below the number of
buffer views makes `parse` fail, with or without a `uri`. The document below
parses to a URI-sourced image; with its buffer views removed it fails. -/
theorem image_uri_wins_after_view_check :
    (∀ (decode : String → Except Err (List UInt8)) (format : format_type) (m : model_type)
        (images_json image uri_json view_json : Json) (img : image_type) (i : Nat),
        parse decode format = Except.ok m →
        format.json.find "images" = some images_json →
        images_json.elems[i]? = some image → m.images[i]? = some img →
        image.find "uri" = some uri_json → image.find "bufferView" = some view_json →
        (∃ s u, uri_json = Json.string s ∧ uri_type.uri_type decode s = Except.ok u
          ∧ img.uri_buffer_view = image_type.variant.uri u)
        ∧ ∃ p, index_to_iterator_json m.buffer_views view_json = Except.ok p
            ∧ p < m.buffer_views.length)
    ∧ (∀ (decode : String → Except Err (List UInt8)) (format : format_type) (images_json image : Json)
        (v : Nat),
        format.json.find "images" = some images_json → image ∈ images_json.elems →
        image.find "bufferView" = some (Json.number_unsigned v) → v < 2 ^ 64 →
        buffer_views_count format.json ≤ v →
        ∃ e, parse decode format = Except.error e)
    ∧ (∀ (decode : String → Except Err (List UInt8)) (binary : Option (List UInt8)),
        ∃ m, parse decode { json := image_with_uri_and_view_document, binary := binary }
            = Except.ok m
          ∧ m.images.map (fun img => img.uri_buffer_view)
              = [image_type.variant.uri (uri_type.external { path := "a.png" })])
    ∧ (∀ (decode : String → Except Err (List UInt8)) (binary : Option (List UInt8)),
        parse decode
            { json := Json.object [
                ("asset", Json.object [("version", Json.string "2.0")]),
                ("images", Json.array [
                  Json.object [("bufferView", Json.number_unsigned 0),
                               ("uri", Json.string "a.png")]])],
              binary := binary } = Except.error (Err.out_of_range "container")) := by
  refine ⟨?_, ?_, fun _ _ => ⟨_, rfl, rfl⟩, fun _ _ => rfl⟩
  · intro decode format m images_json image uri_json view_json img i h hfind hi himg huri hview
    have hf := (parse_image_getElem decode format m h images_json hfind).2 i image img hi himg
    refine ⟨(image_of_json _ _ _ _ hf).2.2.1 uri_json huri, ?_⟩
    obtain ⟨bv, hbv⟩ := image_buffer_view_checked _ _ _ _ hf
    obtain ⟨p, _, hp, hlt, _⟩ := (optional_index_of_json _ _ _ _ hbv).2 view_json hview
    exact ⟨p, hp, hlt⟩
  · intro decode format images_json image v hfind hmem hview hv hge
    apply error_of_not_ok
    intro m h
    obtain ⟨img, himg⟩ := parse_image_of_mem decode format m h images_json image hfind hmem
    obtain ⟨bv, hbv⟩ := image_buffer_view_checked _ _ _ _ himg
    obtain ⟨p, _, _, hlt, hval⟩ := (optional_index_of_json _ _ _ _ hbv).2 _ hview
    have := hval v rfl hv
    have hlen := parse_buffer_views_length decode format m h
    omega

theorem image_uri_wins_after_view_check_witness :
    (∃ m img, parse (fun _ => Except.ok []) { json := image_with_uri_and_view_document, binary := none }
        = Except.ok m
      ∧ m.images[0]? = some img
      ∧ (∃ s u, Json.string "a.png" = Json.string s
          ∧ uri_type.uri_type (fun _ => Except.ok []) s = Except.ok u
          ∧ img.uri_buffer_view = image_type.variant.uri u)
      ∧ ∃ p, index_to_iterator_json m.buffer_views (Json.number_unsigned 0) = Except.ok p
          ∧ p < m.buffer_views.length)
    ∧ ∃ e, parse (fun _ => Except.ok [])
        { json := Json.object [
            ("asset", Json.object [("version", Json.string "2.0")]),
            ("images", Json.array [
              Json.object [("bufferView", Json.number_unsigned 0),
                           ("uri", Json.string "a.png")]])],
          binary := none } = Except.error e :=
  ⟨⟨_, _, rfl, rfl,
      image_uri_wins_after_view_check.1 (fun _ => Except.ok [])
        { json := image_with_uri_and_view_document, binary := none } _
        (Json.array [
          Json.object [("bufferView", Json.number_unsigned 0), ("uri", Json.string "a.png")]])
        (Json.object [("bufferView", Json.number_unsigned 0), ("uri", Json.string "a.png")])
        (Json.string "a.png") (Json.number_unsigned 0) _ 0 rfl rfl rfl rfl rfl rfl⟩,
   image_uri_wins_after_view_check.2.1 (fun _ => Except.ok []) _ _
     (Json.object [("bufferView", Json.number_unsigned 0), ("uri", Json.string "a.png")])
     0 rfl (List.mem_cons_self _ _) rfl (by norm_num) (by decide)⟩

end gltf
